import Mathlib

/-!
# EQIsolator4: the four-band equaliser engine

A shallow embedding of `Source/PluginProcessor.cpp` / `Source/PluginProcessor.h`.

* Samples, gains and sample rates live in a type `α` that only carries the
  arithmetic operations the source uses (`+ - * /`, comparisons, casts from
  integers).  No algebraic law is assumed unless a theorem says so, so the
  structural results hold for any arithmetic, rounding included.
* The JUCE library functions the processor calls but does not define
  (IIR coefficient design, the per-sample IIR kernel, `std::pow`, `std::exp`,
  `std::floor`, text conversions of `juce::var`) are fields of `Juce`.
* `std::vector` and channel data are lists; an indexed read is `List.getD`
  and an indexed write is `List.set`.
* The function-local `static thread_local` variables of `updateFilters`
  are the explicit state `CoefficientCache`.
-/

namespace EQIsolator4

/-! ## Library primitives -/

/-- The JUCE and C++ library primitives used by the processor, over samples `α`,
IIR coefficient objects `γ` and IIR delay state `σ`. -/
structure Juce (α γ σ : Type) where
  /-- `juce::dsp::IIR::Coefficients<float>::makeLowPass (sampleRate, frequency)`. -/
  makeLowPass : α → α → γ
  /-- `juce::dsp::IIR::Coefficients<float>::makeHighPass (sampleRate, frequency)`. -/
  makeHighPass : α → α → γ
  /-- The coefficients of a default-constructed `IIR::Filter`. -/
  defaultCoefficients : γ
  /-- The delay state of a filter after `reset ()`. -/
  silent : σ
  /-- One sample through `IIR::Filter::processSample`: output and next delay state. -/
  processSample : γ → σ → α → α × σ
  /-- `std::pow`. -/
  pow : α → α → α
  /-- `std::exp`. -/
  exp : α → α
  /-- `juce::MathConstants<double>::pi`. -/
  pi : α
  /-- `std::floor` on a floating-point value; the result is a floating-point value. -/
  floor : α → α
  /-- `(int) std::floor (x)`. -/
  floorToInt : α → Int
  /-- `juce::String::getDoubleValue`, the numeric reading of a text `var`. -/
  getDoubleValue : String → α
  /-- The boolean reading of a text `var`. -/
  textToBool : String → Bool

section Model

variable {α γ σ : Type}
variable [Zero α] [One α] [NatCast α] [IntCast α] [Add α] [Sub α] [Mul α] [Div α] [Neg α]
variable [LT α] [LE α] [DecidableEq α]
variable [DecidableRel (fun (a b : α) => a < b)] [DecidableRel (fun (a b : α) => a ≤ b)]

/-- `juce::jlimit (lowerLimit, upperLimit, valueToConstrain)`. -/
def jlimit (lowerLimit upperLimit valueToConstrain : α) : α :=
  if valueToConstrain < lowerLimit then lowerLimit
  else if upperLimit < valueToConstrain then upperLimit
  else valueToConstrain

/-- `juce::Decibels::decibelsToGain (decibels)` with the default floor of -100 dB. -/
def decibelsToGain (J : Juce α γ σ) (decibels : α) : α :=
  if (-100 : α) < decibels then J.pow 10 (decibels * (5 / 100)) else 0

/-! ## `juce::SmoothedValue<float>` (linear smoothing) -/

/-- The members of `juce::SmoothedValue<float, ValueSmoothingTypes::Linear>`. -/
structure SmoothedValue (α : Type) where
  currentValue : α
  target : α
  countdown : Int
  step : α
  stepsToTarget : Int
deriving DecidableEq

namespace SmoothedValue

/-- A default-constructed smoother. -/
def init : SmoothedValue α :=
  { currentValue := 0, target := 0, countdown := 0, step := 0, stepsToTarget := 0 }

/-- `isSmoothing ()`: `countdown > 0`. -/
def isSmoothing (s : SmoothedValue α) : Bool :=
  decide (0 < s.countdown)

/-- `setCurrentAndTargetValue (newValue)`: `target = currentValue = newValue; countdown = 0`. -/
def setCurrentAndTargetValue (s : SmoothedValue α) (newValue : α) : SmoothedValue α :=
  { s with target := newValue, currentValue := newValue, countdown := 0 }

/-- `reset (int numSteps)`. -/
def resetSteps (s : SmoothedValue α) (numSteps : Int) : SmoothedValue α :=
  setCurrentAndTargetValue { s with stepsToTarget := numSteps } s.target

/-- `reset (double sampleRate, double rampLengthInSeconds)`. -/
def reset (J : Juce α γ σ) (s : SmoothedValue α) (sampleRate rampLengthInSeconds : α) :
    SmoothedValue α :=
  s.resetSteps (J.floorToInt (rampLengthInSeconds * sampleRate))

/-- `setStepSize ()` of the linear smoother. -/
def setStepSize (s : SmoothedValue α) : SmoothedValue α :=
  { s with step := (s.target - s.currentValue) / (s.countdown : α) }

/-- `setTargetValue (newValue)`. -/
def setTargetValue (s : SmoothedValue α) (newValue : α) : SmoothedValue α :=
  if newValue = s.target then s
  else if s.stepsToTarget ≤ 0 then s.setCurrentAndTargetValue newValue
  else setStepSize { s with target := newValue, countdown := s.stepsToTarget }

/-- `getNextValue ()`: the returned value and the advanced smoother. -/
def getNextValue (s : SmoothedValue α) : α × SmoothedValue α :=
  if s.isSmoothing = false then (s.target, s)
  else
    let s1 : SmoothedValue α := { s with countdown := s.countdown - 1 }
    let s2 : SmoothedValue α :=
      if s1.isSmoothing then { s1 with currentValue := s1.currentValue + s1.step }
      else { s1 with currentValue := s1.target }
    (s2.currentValue, s2)

end SmoothedValue

/-! ## Parameters -/

/-- The members of `juce::NormalisableRange<float>` used here (skew factor 1, not symmetric). -/
structure NormalisableRange (α : Type) where
  rangeStart : α
  rangeEnd : α
  interval : α

namespace NormalisableRange

/-- `snapToLegalValue (v)`. -/
def snapToLegalValue (J : Juce α γ σ) (r : NormalisableRange α) (v : α) : α :=
  let v1 : α :=
    if (0 : α) < r.interval then
      r.rangeStart + r.interval * J.floor ((v - r.rangeStart) / r.interval + 1 / 2)
    else v
  if v1 ≤ r.rangeStart ∨ r.rangeEnd ≤ r.rangeStart then r.rangeStart
  else if r.rangeEnd ≤ v1 then r.rangeEnd
  else v1

/-- `convertTo0to1 (v)` for skew factor 1. -/
def convertTo0to1 (r : NormalisableRange α) (v : α) : α :=
  jlimit 0 1 ((v - r.rangeStart) / (r.rangeEnd - r.rangeStart))

/-- `convertFrom0to1 (proportion)` for skew factor 1. -/
def convertFrom0to1 (r : NormalisableRange α) (proportion : α) : α :=
  r.rangeStart + (r.rangeEnd - r.rangeStart) * jlimit 0 1 proportion

end NormalisableRange

/-- `gainRange (-100.0f, 24.0f, 0.1f)` of the constructor. -/
def gainRange : NormalisableRange α :=
  { rangeStart := -100, rangeEnd := 24, interval := 1 / 10 }

/-- The values of the gain parameters' domain: the 0.1 dB grid from -100 dB to 24 dB. -/
def LegalGain (v : α) : Prop :=
  ∃ k : ℕ, k ≤ 1240 ∧ v = -100 + (k : α) / 10

namespace AudioParameterFloat

/-- `RangedAudioParameter::convertTo0to1`. -/
def convertTo0to1 (J : Juce α γ σ) (r : NormalisableRange α) (v : α) : α :=
  r.convertTo0to1 (r.snapToLegalValue J v)

/-- `RangedAudioParameter::convertFrom0to1`. -/
def convertFrom0to1 (J : Juce α γ σ) (r : NormalisableRange α) (v : α) : α :=
  r.snapToLegalValue J (r.convertFrom0to1 (jlimit 0 1 v))

/-- `setValueNotifyingHost (convertTo0to1 (newValue))`: the value the parameter then holds. -/
def store (J : Juce α γ σ) (r : NormalisableRange α) (newValue : α) : α :=
  convertFrom0to1 J r (convertTo0to1 J r newValue)

/-- `AudioParameterFloat::operator= (float newValue)`:
`if (value != newValue) setValueNotifyingHost (convertTo0to1 (newValue))`. -/
def assign (J : Juce α γ σ) (r : NormalisableRange α) (value newValue : α) : α :=
  if value ≠ newValue then store J r newValue else value

end AudioParameterFloat

namespace AudioParameterBool

/-- `AudioParameterBool::operator= (bool newValue)`:
`if (get () != newValue) setValueNotifyingHost (newValue ? 1.0f : 0.0f)`, read back with
`value >= 0.5f`. -/
def assign (value newValue : Bool) : Bool :=
  if value ≠ newValue then newValue else value

end AudioParameterBool

/-! ## Channel sets and audio buffers -/

/-- A `juce::AudioChannelSet`: the set of channel-type indices it contains. -/
structure AudioChannelSet where
  channels : Finset Nat
deriving DecidableEq

namespace AudioChannelSet

/-- `AudioChannelSet::disabled ()`. -/
def disabled : AudioChannelSet := ⟨∅⟩

/-- `AudioChannelSet::mono ()`: the centre channel. -/
def mono : AudioChannelSet := ⟨{3}⟩

/-- `AudioChannelSet::stereo ()`: the left and right channels. -/
def stereo : AudioChannelSet := ⟨{1, 2}⟩

/-- `size ()`: the number of channels. -/
def size (s : AudioChannelSet) : Nat := s.channels.card

end AudioChannelSet

/-- The main input and output channel sets of a `BusesLayout` (the processor declares one
input bus and one output bus). -/
structure BusesLayout where
  mainInput : AudioChannelSet
  mainOutput : AudioChannelSet
deriving DecidableEq

/-- A `juce::AudioBuffer<float>`: its sample count and the samples of each channel. -/
structure AudioBuffer (α : Type) where
  numSamples : Nat
  channels : List (List α)
deriving DecidableEq

namespace AudioBuffer

/-- `getNumSamples ()`. -/
def getNumSamples (b : AudioBuffer α) : Nat := b.numSamples

/-- Every channel holds exactly `numSamples` samples. -/
def WellFormed (b : AudioBuffer α) : Prop :=
  ∀ ch ∈ b.channels, ch.length = b.numSamples

instance (b : AudioBuffer α) : Decidable b.WellFormed := by
  unfold WellFormed; infer_instance

/-- `clear (channel, startSample, numSamples)`. -/
def clear (b : AudioBuffer α) (channel startSample num : Nat) : AudioBuffer α :=
  { b with
    channels := b.channels.set channel
      ((List.range num).foldl (fun ch i => ch.set (startSample + i) 0) (b.channels.getD channel [])) }

end AudioBuffer

/-! ## Filters -/

/-- A `juce::dsp::ProcessSpec`. -/
structure ProcessSpec (α : Type) where
  sampleRate : α
  maximumBlockSize : Nat
  numChannels : Nat
deriving DecidableEq

/-- A `juce::dsp::IIR::Filter<float>`: its coefficient object and its delay state. -/
structure Filter (γ σ : Type) where
  coefficients : γ
  state : σ
deriving DecidableEq

namespace Filter

/-- A default-constructed filter. -/
def init (J : Juce α γ σ) : Filter γ σ :=
  { coefficients := J.defaultCoefficients, state := J.silent }

/-- `prepare (spec)`, which resets the delay state. -/
def prepare (J : Juce α γ σ) (f : Filter γ σ) : Filter γ σ :=
  { f with state := J.silent }

/-- `process (ProcessContextReplacing)` over one channel: the samples are filtered in order,
each through `processSample`. -/
def process (J : Juce α γ σ) (f : Filter γ σ) : List α → Filter γ σ × List α
  | [] => (f, [])
  | x :: xs =>
    let r := J.processSample f.coefficients f.state x
    let rest := process J { f with state := r.2 } xs
    (rest.1, r.1 :: rest.2)

end Filter

/-- The `juce::dsp::ProcessorChain<Filter, Filter>` of one band and channel. -/
structure ProcessorChain (γ σ : Type) where
  first : Filter γ σ
  second : Filter γ σ
deriving DecidableEq

namespace ProcessorChain

/-- A default-constructed chain, `ProcessorChain ()`. -/
def init (J : Juce α γ σ) : ProcessorChain γ σ :=
  { first := Filter.init J, second := Filter.init J }

/-- `prepare (spec)`: prepares both sections. -/
def prepare (J : Juce α γ σ) (c : ProcessorChain γ σ) : ProcessorChain γ σ :=
  { first := c.first.prepare J, second := c.second.prepare J }

/-- `process (ProcessContextReplacing)`: the block goes through section 0, then section 1. -/
def process (J : Juce α γ σ) (c : ProcessorChain γ σ) (xs : List α) :
    ProcessorChain γ σ × List α :=
  let r0 := c.first.process J xs
  let r1 := c.second.process J r0.2
  ({ first := r0.1, second := r1.1 }, r1.2)

end ProcessorChain

/-- `LOW_LOWMID_CROSSOVER_FREQ`. -/
def LOW_LOWMID_CROSSOVER_FREQ : α := 200

/-- `LOWMID_MID_CROSSOVER_FREQ`. -/
def LOWMID_MID_CROSSOVER_FREQ : α := 750

/-- `MID_HIGH_CROSSOVER_FREQ`. -/
def MID_HIGH_CROSSOVER_FREQ : α := 3000

/-- The `static thread_local` variables of `updateFilters`. -/
structure CoefficientCache (α γ : Type) where
  lastSampleRate : α
  cachedLowPassCoeff : γ
  cachedLowMidHighPassCoeff : γ
  cachedLowMidLowPassCoeff : γ
  cachedMidHighPassCoeff : γ
  cachedMidLowPassCoeff : γ
  cachedHighPassCoeff : γ
deriving DecidableEq

namespace CoefficientCache

/-- The six coefficient sets designed for one sample rate, with that rate recorded as
`lastSampleRate`. -/
def design (J : Juce α γ σ) (lastSampleRate sampleRate : α) : CoefficientCache α γ :=
  { lastSampleRate := lastSampleRate
    cachedLowPassCoeff := J.makeLowPass sampleRate LOW_LOWMID_CROSSOVER_FREQ
    cachedLowMidHighPassCoeff := J.makeHighPass sampleRate LOW_LOWMID_CROSSOVER_FREQ
    cachedLowMidLowPassCoeff := J.makeLowPass sampleRate LOWMID_MID_CROSSOVER_FREQ
    cachedMidHighPassCoeff := J.makeHighPass sampleRate LOWMID_MID_CROSSOVER_FREQ
    cachedMidLowPassCoeff := J.makeLowPass sampleRate MID_HIGH_CROSSOVER_FREQ
    cachedHighPassCoeff := J.makeHighPass sampleRate MID_HIGH_CROSSOVER_FREQ }

/-- The initialisers of the statics: `lastSampleRate = 0.0` and coefficients for 44100 Hz. -/
def init (J : Juce α γ σ) : CoefficientCache α γ :=
  design J 0 44100

end CoefficientCache

/-! ## The processor -/

/-- The data members of `EQIsolator4AudioProcessor` that `prepareToPlay`, `processBlock` and
the state functions read or write.  A per-band scratch `AudioBuffer` is represented by its
sample count: `processBlock` overwrites the samples it uses (`copyFrom`) before reading them. -/
structure Engine (α γ σ : Type) where
  lowGainParam : α
  lowMidGainParam : α
  midGainParam : α
  highGainParam : α
  lowBypassParam : Bool
  lowMidBypassParam : Bool
  midBypassParam : Bool
  highBypassParam : Bool
  busesLayout : BusesLayout
  lowPassFilters : List (ProcessorChain γ σ)
  lowMidFilters : List (ProcessorChain γ σ)
  midFilters : List (ProcessorChain γ σ)
  highPassFilters : List (ProcessorChain γ σ)
  processSpec : ProcessSpec α
  lowTempBuffers : List Nat
  lowMidTempBuffers : List Nat
  midTempBuffers : List Nat
  highTempBuffers : List Nat
  dcBlockerR : α
  dcPrevXLow : List α
  dcPrevYLow : List α
  lowGainCurve : List α
  lowMidGainCurve : List α
  midGainCurve : List α
  highGainCurve : List α
  lowBypassCurve : List α
  lowMidBypassCurve : List α
  midBypassCurve : List α
  highBypassCurve : List α
  smoothedLowGain : SmoothedValue α
  smoothedLowMidGain : SmoothedValue α
  smoothedMidGain : SmoothedValue α
  smoothedHighGain : SmoothedValue α
  smoothedLowCutoff : SmoothedValue α
  smoothedLowMidCutoff : SmoothedValue α
  smoothedMidCutoff : SmoothedValue α
  smoothedLowBypass : SmoothedValue α
  smoothedLowMidBypass : SmoothedValue α
  smoothedMidBypass : SmoothedValue α
  smoothedHighBypass : SmoothedValue α
  lastLowGainTargetDb : α
deriving DecidableEq

namespace Engine

/-- `getTotalNumInputChannels ()`. -/
def getTotalNumInputChannels (e : Engine α γ σ) : Nat := e.busesLayout.mainInput.size

/-- `getTotalNumOutputChannels ()`. -/
def getTotalNumOutputChannels (e : Engine α γ σ) : Nat := e.busesLayout.mainOutput.size

end Engine

/-- `std::vector::resize (n)` with value-initialised new elements `d`. -/
def vectorResize {β : Type} (v : List β) (n : Nat) (d : β) : List β :=
  v.take n ++ List.replicate (n - v.length) d

/-- `prepareFilters (sampleRate, samplesPerBlock, numChannels)`. -/
def prepareFilters (J : Juce α γ σ) (e : Engine α γ σ) (numChannels : Nat) : Engine α γ σ :=
  let cleared : Engine α γ σ :=
    { e with lowPassFilters := [], lowMidFilters := [], midFilters := [], highPassFilters := [] }
  (List.range numChannels).foldl
    (fun (st : Engine α γ σ) i =>
      let pushed : Engine α γ σ :=
        { st with
          lowPassFilters := st.lowPassFilters ++ [ProcessorChain.init J]
          lowMidFilters := st.lowMidFilters ++ [ProcessorChain.init J]
          midFilters := st.midFilters ++ [ProcessorChain.init J]
          highPassFilters := st.highPassFilters ++ [ProcessorChain.init J] }
      { pushed with
        lowPassFilters := pushed.lowPassFilters.set i
          ((pushed.lowPassFilters.getD i (ProcessorChain.init J)).prepare J)
        lowMidFilters := pushed.lowMidFilters.set i
          ((pushed.lowMidFilters.getD i (ProcessorChain.init J)).prepare J)
        midFilters := pushed.midFilters.set i
          ((pushed.midFilters.getD i (ProcessorChain.init J)).prepare J)
        highPassFilters := pushed.highPassFilters.set i
          ((pushed.highPassFilters.getD i (ProcessorChain.init J)).prepare J) })
    cleared

/-- `updateFilters ()`: the statics after the call and the processor after the call. -/
def updateFilters (J : Juce α γ σ) (cache : CoefficientCache α γ) (e : Engine α γ σ) :
    CoefficientCache α γ × Engine α γ σ :=
  let sampleRate := e.processSpec.sampleRate
  let cache1 : CoefficientCache α γ :=
    if sampleRate ≠ cache.lastSampleRate then CoefficientCache.design J sampleRate sampleRate
    else cache
  (cache1,
    { e with
      lowPassFilters := e.lowPassFilters.map (fun chain =>
        { first := { chain.first with coefficients := cache1.cachedLowPassCoeff }
          second := { chain.second with coefficients := cache1.cachedLowPassCoeff } })
      lowMidFilters := e.lowMidFilters.map (fun chain =>
        { first := { chain.first with coefficients := cache1.cachedLowMidHighPassCoeff }
          second := { chain.second with coefficients := cache1.cachedLowMidLowPassCoeff } })
      midFilters := e.midFilters.map (fun chain =>
        { first := { chain.first with coefficients := cache1.cachedMidHighPassCoeff }
          second := { chain.second with coefficients := cache1.cachedMidLowPassCoeff } })
      highPassFilters := e.highPassFilters.map (fun chain =>
        { first := { chain.first with coefficients := cache1.cachedHighPassCoeff }
          second := { chain.second with coefficients := cache1.cachedHighPassCoeff } }) })

/-- The values the statics of `updateFilters` can hold: their initialisers, and whatever a
call of `updateFilters` leaves in them. -/
inductive CoefficientCache.Reachable (J : Juce α γ σ) : CoefficientCache α γ → Prop
  | init : CoefficientCache.Reachable J (CoefficientCache.init J)
  | update (cache : CoefficientCache α γ) (e : Engine α γ σ) :
      CoefficientCache.Reachable J cache → CoefficientCache.Reachable J (updateFilters J cache e).1

/-- The quotient `a / b` of two `float` values holding the integers `a` and `b`, as binary32
division returns it (round to nearest, ties to even), for a quotient in the normal range below
`2 ^ 24`: the pair of `m` and `e` with quotient `m / 2 ^ e`, where `e` is the least exponent
with `2 ^ 23 ≤ (a / b) * 2 ^ e` and `m` is `(a / b) * 2 ^ e` rounded. -/
def binary32Div (a b : Nat) : Nat × Nat :=
  let e := ((List.range 150).find? (fun e => decide (b * 2 ^ 23 ≤ a * 2 ^ e))).getD 0
  let q := a * 2 ^ e / b
  let r := a * 2 ^ e % b
  let m := if b < 2 * r ∨ (2 * r = b ∧ q % 2 = 1) then q + 1 else q
  (m, e)

/-- The value of the binary32 quotient `a / b`. -/
def binary32Quotient (a b : Nat) : α :=
  ((binary32Div a b).1 : α) / (((2 : Nat) ^ (binary32Div a b).2 : Nat) : α)

/-- `prepareToPlay (sampleRate, samplesPerBlock)`.  The ramp lengths in seconds,
`rampTimeMs / 1000.0f`, are binary32 quotients.  The `double` product with the sample rate
inside `reset` is the product of `α`; a binary64 product of such a quotient with a sample rate
of at most 29 significant bits, as every whole rate below `2 ^ 29` Hz is, is exact. -/
def prepareToPlay (J : Juce α γ σ) (cache : CoefficientCache α γ) (e : Engine α γ σ)
    (sampleRate : α) (samplesPerBlock : Nat) : CoefficientCache α γ × Engine α γ σ :=
  let e1 : Engine α γ σ :=
    { e with
      processSpec :=
        { sampleRate := sampleRate
          maximumBlockSize := samplesPerBlock
          numChannels := e.getTotalNumOutputChannels } }
  let rampTimeMsLow : Nat := 160
  let rampTimeMsLowMid : Nat := 15
  let rampTimeMsMid : Nat := 12
  let rampTimeMsHigh : Nat := 10
  let e2 : Engine α γ σ :=
    { e1 with
      smoothedLowGain :=
        (e1.smoothedLowGain.reset J sampleRate
          (binary32Quotient rampTimeMsLow 1000)).setCurrentAndTargetValue
          e1.lowGainParam
      smoothedLowMidGain :=
        (e1.smoothedLowMidGain.reset J sampleRate
          (binary32Quotient rampTimeMsLowMid 1000)).setCurrentAndTargetValue
          e1.lowMidGainParam
      smoothedMidGain :=
        (e1.smoothedMidGain.reset J sampleRate
          (binary32Quotient rampTimeMsMid 1000)).setCurrentAndTargetValue
          e1.midGainParam
      smoothedHighGain :=
        (e1.smoothedHighGain.reset J sampleRate
          (binary32Quotient rampTimeMsHigh 1000)).setCurrentAndTargetValue
          e1.highGainParam
      lastLowGainTargetDb := e1.lowGainParam }
  let e3 : Engine α γ σ :=
    { e2 with
      smoothedLowCutoff :=
        (e2.smoothedLowCutoff.reset J sampleRate
          (binary32Quotient rampTimeMsLow 1000)).setCurrentAndTargetValue
          LOW_LOWMID_CROSSOVER_FREQ
      smoothedLowMidCutoff :=
        (e2.smoothedLowMidCutoff.reset J sampleRate
          (binary32Quotient rampTimeMsLowMid 1000)).setCurrentAndTargetValue
          LOWMID_MID_CROSSOVER_FREQ
      smoothedMidCutoff :=
        (e2.smoothedMidCutoff.reset J sampleRate
          (binary32Quotient rampTimeMsMid 1000)).setCurrentAndTargetValue
          MID_HIGH_CROSSOVER_FREQ }
  let bypassRampTimeMsLow : Nat := 80
  let bypassRampTimeMsLowMid : Nat := 50
  let bypassRampTimeMsMid : Nat := 40
  let bypassRampTimeMsHigh : Nat := 25
  let e4 : Engine α γ σ :=
    { e3 with
      smoothedLowBypass :=
        (e3.smoothedLowBypass.reset J sampleRate
          (binary32Quotient bypassRampTimeMsLow 1000)).setCurrentAndTargetValue
          (if e3.lowBypassParam then 0 else 1)
      smoothedLowMidBypass :=
        (e3.smoothedLowMidBypass.reset J sampleRate
          (binary32Quotient bypassRampTimeMsLowMid 1000)).setCurrentAndTargetValue
          (if e3.lowMidBypassParam then 0 else 1)
      smoothedMidBypass :=
        (e3.smoothedMidBypass.reset J sampleRate
          (binary32Quotient bypassRampTimeMsMid 1000)).setCurrentAndTargetValue
          (if e3.midBypassParam then 0 else 1)
      smoothedHighBypass :=
        (e3.smoothedHighBypass.reset J sampleRate
          (binary32Quotient bypassRampTimeMsHigh 1000)).setCurrentAndTargetValue
          (if e3.highBypassParam then 0 else 1) }
  let e5 := prepareFilters J e4 e4.getTotalNumOutputChannels
  let updated := updateFilters J cache e5
  let e6 := updated.2
  let numCh := e6.getTotalNumOutputChannels
  let setSizes (v : List Nat) : List Nat :=
    (List.range numCh).foldl (fun l c => l.set c samplesPerBlock) (vectorResize v numCh 0)
  let e7 : Engine α γ σ :=
    { e6 with
      lowTempBuffers := setSizes e6.lowTempBuffers
      lowMidTempBuffers := setSizes e6.lowMidTempBuffers
      midTempBuffers := setSizes e6.midTempBuffers
      highTempBuffers := setSizes e6.highTempBuffers }
  let e8 : Engine α γ σ :=
    { e7 with
      lowGainCurve := List.replicate samplesPerBlock 1
      lowMidGainCurve := List.replicate samplesPerBlock 1
      midGainCurve := List.replicate samplesPerBlock 1
      highGainCurve := List.replicate samplesPerBlock 1
      lowBypassCurve := List.replicate samplesPerBlock 1
      lowMidBypassCurve := List.replicate samplesPerBlock 1
      midBypassCurve := List.replicate samplesPerBlock 1
      highBypassCurve := List.replicate samplesPerBlock 1 }
  let fc : α := 5
  (updated.1,
    { e8 with
      dcBlockerR := J.exp (-2 * J.pi * fc / sampleRate)
      dcPrevXLow := List.replicate numCh 0
      dcPrevYLow := List.replicate numCh 0 })

namespace SmoothedValue

/-- The smoother rests at `v`: current value and target are `v` and no ramp is running. -/
def SettledAt (s : SmoothedValue α) (v : α) : Prop :=
  s.currentValue = v ∧ s.target = v ∧ s.countdown = 0

/-- What the smoother's later behaviour depends on: its members, with `step` counted only
while a ramp is running.  `getNextValue` reads `step` only when `countdown > 0`, and every ramp
starts with `setStepSize`, which overwrites it. -/
def ramp (s : SmoothedValue α) : α × α × Int × Int × Option α :=
  (s.currentValue, s.target, s.countdown, s.stepsToTarget,
    if 0 < s.countdown then some s.step else none)

end SmoothedValue

/-- Both sections of the chain have the delay state of a reset filter. -/
def ProcessorChain.Silent (J : Juce α γ σ) (c : ProcessorChain γ σ) : Prop :=
  c.first.state = J.silent ∧ c.second.state = J.silent

/-- The DSP state of the processor: the process spec, the filter chains, the scratch buffer
sizes, the DC blocker, the control curves and the smoothers (see `SmoothedValue.ramp`). -/
def Engine.dspState (e : Engine α γ σ) :=
  (e.processSpec,
    (e.lowPassFilters, e.lowMidFilters, e.midFilters, e.highPassFilters),
    (e.lowTempBuffers, e.lowMidTempBuffers, e.midTempBuffers, e.highTempBuffers),
    (e.dcBlockerR, e.dcPrevXLow, e.dcPrevYLow),
    (e.lowGainCurve, e.lowMidGainCurve, e.midGainCurve, e.highGainCurve),
    (e.lowBypassCurve, e.lowMidBypassCurve, e.midBypassCurve, e.highBypassCurve),
    (e.smoothedLowGain.ramp, e.smoothedLowMidGain.ramp, e.smoothedMidGain.ramp,
      e.smoothedHighGain.ramp),
    (e.smoothedLowCutoff.ramp, e.smoothedLowMidCutoff.ramp, e.smoothedMidCutoff.ramp),
    (e.smoothedLowBypass.ramp, e.smoothedLowMidBypass.ramp, e.smoothedMidBypass.ramp,
      e.smoothedHighBypass.ramp),
    e.lastLowGainTargetDb)

/-- `isBusesLayoutSupported (layouts)`; the two flags are the build macros
`JucePlugin_IsMidiEffect` and `JucePlugin_IsSynth`. -/
def isBusesLayoutSupported (isMidiEffect isSynth : Bool) (layouts : BusesLayout) : Bool :=
  if isMidiEffect then true
  else if layouts.mainOutput ≠ AudioChannelSet.mono ∧ layouts.mainOutput ≠ AudioChannelSet.stereo
  then false
  else if isSynth = false ∧ layouts.mainOutput ≠ layouts.mainInput then false
  else true

/-- The DC blocker loop of `processBlock` over the low band data: the filtered samples and
the final `prevX`, `prevY`.  Each step is `y = x - prevX + r * prevY; prevX = x; prevY = y`. -/
def dcBlocker (r : α) (prevX prevY : α) : List α → List α × α × α
  | [] => ([], prevX, prevY)
  | x :: xs =>
    let y := x - prevX + r * prevY
    let rest := dcBlocker r x y xs
    (y :: rest.1, rest.2)

/-- The `smoothStep` lambda of `processBlock`. -/
def smoothStep (x : α) : α :=
  let c := jlimit 0 1 x
  c * c * (3 - 2 * c)

/-- The `ensureSize` lambda of `processBlock`:
`if ((int) v.size () < numSamples) v.resize (numSamples)`. -/
def ensureSize (numSamples : Nat) (v : List α) : List α :=
  if v.length < numSamples then vectorResize v numSamples 0 else v

/-- One iteration `i` of the curve generation loop of `processBlock`. -/
def generateCurveSample (J : Juce α γ σ) (e : Engine α γ σ) (i : Nat) : Engine α γ σ :=
  let lg := e.smoothedLowGain.getNextValue
  let lmg := e.smoothedLowMidGain.getNextValue
  let mg := e.smoothedMidGain.getNextValue
  let hg := e.smoothedHighGain.getNextValue
  let lb := e.smoothedLowBypass.getNextValue
  let lmb := e.smoothedLowMidBypass.getNextValue
  let mb := e.smoothedMidBypass.getNextValue
  let hb := e.smoothedHighBypass.getNextValue
  { e with
    lowGainCurve := e.lowGainCurve.set i (decibelsToGain J lg.1)
    lowMidGainCurve := e.lowMidGainCurve.set i (decibelsToGain J lmg.1)
    midGainCurve := e.midGainCurve.set i (decibelsToGain J mg.1)
    highGainCurve := e.highGainCurve.set i (decibelsToGain J hg.1)
    lowBypassCurve := e.lowBypassCurve.set i (smoothStep lb.1)
    lowMidBypassCurve := e.lowMidBypassCurve.set i (smoothStep lmb.1)
    midBypassCurve := e.midBypassCurve.set i (smoothStep mb.1)
    highBypassCurve := e.highBypassCurve.set i (smoothStep hb.1)
    smoothedLowGain := lg.2
    smoothedLowMidGain := lmg.2
    smoothedMidGain := mg.2
    smoothedHighGain := hg.2
    smoothedLowBypass := lb.2
    smoothedLowMidBypass := lmb.2
    smoothedMidBypass := mb.2
    smoothedHighBypass := hb.2 }

/-- The right-hand side of the mixer assignment `channelData[i] = ...` of `processBlock`. -/
def mixSample (e : Engine α γ σ) (lowData lowMidData midData highData : List α) (i : Nat) : α :=
  (lowData.getD i 0 * e.lowGainCurve.getD i 0 * e.lowBypassCurve.getD i 0) +
  (lowMidData.getD i 0 * e.lowMidGainCurve.getD i 0 * e.lowMidBypassCurve.getD i 0) +
  (midData.getD i 0 * e.midGainCurve.getD i 0 * e.midBypassCurve.getD i 0) +
  (highData.getD i 0 * e.highGainCurve.getD i 0 * e.highBypassCurve.getD i 0)

/-- The scratch buffer check at the head of the channel loop of `processBlock`:
`if (lowBuffer.getNumSamples () < numSamples)` the four scratch buffers of the channel are
resized to `numSamples`. -/
def growTempBuffers (numSamples : Nat) (e : Engine α γ σ) (channel : Nat) : Engine α γ σ :=
  if e.lowTempBuffers.getD channel 0 < numSamples then
    { e with
      lowTempBuffers := e.lowTempBuffers.set channel numSamples
      lowMidTempBuffers := e.lowMidTempBuffers.set channel numSamples
      midTempBuffers := e.midTempBuffers.set channel numSamples
      highTempBuffers := e.highTempBuffers.set channel numSamples }
  else e

/-- The mixer loop of `processBlock`: `channelData[i] = ...` for every `i < numSamples`. -/
def mixLoop (e : Engine α γ σ) (lowData lowMidData midData highData : List α)
    (numSamples : Nat) (channelData : List α) : List α :=
  (List.range numSamples).foldl
    (fun out i => out.set i (mixSample e lowData lowMidData midData highData i)) channelData

/-- The body of the channel loop of `processBlock` for one `channel`. -/
def processChannel (J : Juce α γ σ) (numSamples : Nat)
    (st : Engine α γ σ × AudioBuffer α) (channel : Nat) : Engine α γ σ × AudioBuffer α :=
  let buffer := st.2
  let e1 := growTempBuffers numSamples st.1 channel
  let input := (buffer.channels.getD channel []).take numSamples
  let lowRun := (e1.lowPassFilters.getD channel (ProcessorChain.init J)).process J input
  let dc := dcBlocker e1.dcBlockerR (e1.dcPrevXLow.getD channel 0) (e1.dcPrevYLow.getD channel 0)
    lowRun.2
  let lowData := dc.1
  let lowMidRun := (e1.lowMidFilters.getD channel (ProcessorChain.init J)).process J input
  let midRun := (e1.midFilters.getD channel (ProcessorChain.init J)).process J input
  let highRun := (e1.highPassFilters.getD channel (ProcessorChain.init J)).process J input
  let e2 : Engine α γ σ :=
    { e1 with
      lowPassFilters := e1.lowPassFilters.set channel lowRun.1
      dcPrevXLow := e1.dcPrevXLow.set channel dc.2.1
      dcPrevYLow := e1.dcPrevYLow.set channel dc.2.2
      lowMidFilters := e1.lowMidFilters.set channel lowMidRun.1
      midFilters := e1.midFilters.set channel midRun.1
      highPassFilters := e1.highPassFilters.set channel highRun.1 }
  let channelData := mixLoop e2 lowData lowMidRun.2 midRun.2 highRun.2 numSamples
    (buffer.channels.getD channel [])
  (e2, { buffer with channels := buffer.channels.set channel channelData })

/-- The fast-path test `allBandsAtZero` of `processBlock`. -/
def allBandsAtZero (e : Engine α γ σ) : Bool :=
  (decide (e.lowGainParam = 0) && decide (e.lowMidGainParam = 0) &&
    decide (e.midGainParam = 0) && decide (e.highGainParam = 0)) &&
  (!e.lowBypassParam && !e.lowMidBypassParam && !e.midBypassParam && !e.highBypassParam)

/-- The first loop of `processBlock`: clear the output channels that carry no input. -/
def clearUnusedOutputs (totalNumInputChannels totalNumOutputChannels numSamples : Nat)
    (buffer : AudioBuffer α) : AudioBuffer α :=
  (List.range (totalNumOutputChannels - totalNumInputChannels)).foldl
    (fun b k => b.clear (totalNumInputChannels + k) 0 numSamples) buffer

/-- The `setTargetValue` calls of `processBlock`. -/
def setTargets (e : Engine α γ σ) : Engine α γ σ :=
  { e with
    smoothedLowGain := e.smoothedLowGain.setTargetValue e.lowGainParam
    smoothedLowMidGain := e.smoothedLowMidGain.setTargetValue e.lowMidGainParam
    smoothedMidGain := e.smoothedMidGain.setTargetValue e.midGainParam
    smoothedHighGain := e.smoothedHighGain.setTargetValue e.highGainParam
    smoothedLowBypass := e.smoothedLowBypass.setTargetValue (if e.lowBypassParam then 0 else 1)
    smoothedLowMidBypass :=
      e.smoothedLowMidBypass.setTargetValue (if e.lowMidBypassParam then 0 else 1)
    smoothedMidBypass := e.smoothedMidBypass.setTargetValue (if e.midBypassParam then 0 else 1)
    smoothedHighBypass := e.smoothedHighBypass.setTargetValue (if e.highBypassParam then 0 else 1) }

/-- The curve block of `processBlock`: the eight `ensureSize` calls and the generation loop. -/
def generateCurves (J : Juce α γ σ) (e : Engine α γ σ) (numSamples : Nat) : Engine α γ σ :=
  let sized : Engine α γ σ :=
    { e with
      lowGainCurve := ensureSize numSamples e.lowGainCurve
      lowMidGainCurve := ensureSize numSamples e.lowMidGainCurve
      midGainCurve := ensureSize numSamples e.midGainCurve
      highGainCurve := ensureSize numSamples e.highGainCurve
      lowBypassCurve := ensureSize numSamples e.lowBypassCurve
      lowMidBypassCurve := ensureSize numSamples e.lowMidBypassCurve
      midBypassCurve := ensureSize numSamples e.midBypassCurve
      highBypassCurve := ensureSize numSamples e.highBypassCurve }
  (List.range numSamples).foldl (generateCurveSample J) sized

/-- `processBlock (buffer, midiMessages)`: the processor and the buffer after the call. -/
def processBlock (J : Juce α γ σ) (e : Engine α γ σ) (buffer : AudioBuffer α) :
    Engine α γ σ × AudioBuffer α :=
  let totalNumInputChannels := e.getTotalNumInputChannels
  let totalNumOutputChannels := e.getTotalNumOutputChannels
  let numSamples := buffer.getNumSamples
  let cleared := clearUnusedOutputs totalNumInputChannels totalNumOutputChannels numSamples buffer
  if allBandsAtZero e then (e, cleared)
  else
    let curves := generateCurves J (setTargets e) numSamples
    (List.range totalNumInputChannels).foldl (processChannel J numSamples) (curves, cleared)

/-! ### The band buffers of a channel

The contents of the four scratch buffers of `channel` when the mixer reads them, as functions
of the processor and the buffer at the start of the channel loop. -/

/-- The samples `copyFrom` puts into each scratch buffer of `channel`. -/
def bandInput (numSamples : Nat) (buffer : AudioBuffer α) (channel : Nat) : List α :=
  (buffer.channels.getD channel []).take numSamples

/-- The output of the low band's filter chain, which is the input of the DC blocker. -/
def lowFiltered (J : Juce α γ σ) (e : Engine α γ σ) (buffer : AudioBuffer α)
    (numSamples channel : Nat) : List α :=
  ((e.lowPassFilters.getD channel (ProcessorChain.init J)).process J
    (bandInput numSamples buffer channel)).2

/-- The DC blocker run of the channel: the low band buffer and the final `prevX`, `prevY`. -/
def lowBlocked (J : Juce α γ σ) (e : Engine α γ σ) (buffer : AudioBuffer α)
    (numSamples channel : Nat) : List α × α × α :=
  dcBlocker e.dcBlockerR (e.dcPrevXLow.getD channel 0) (e.dcPrevYLow.getD channel 0)
    (lowFiltered J e buffer numSamples channel)

/-- The Low-Mid band buffer: the raw output of its filter chain. -/
def lowMidFiltered (J : Juce α γ σ) (e : Engine α γ σ) (buffer : AudioBuffer α)
    (numSamples channel : Nat) : List α :=
  ((e.lowMidFilters.getD channel (ProcessorChain.init J)).process J
    (bandInput numSamples buffer channel)).2

/-- The Mid band buffer: the raw output of its filter chain. -/
def midFiltered (J : Juce α γ σ) (e : Engine α γ σ) (buffer : AudioBuffer α)
    (numSamples channel : Nat) : List α :=
  ((e.midFilters.getD channel (ProcessorChain.init J)).process J
    (bandInput numSamples buffer channel)).2

/-- The High band buffer: the raw output of its filter chain. -/
def highFiltered (J : Juce α γ σ) (e : Engine α γ σ) (buffer : AudioBuffer α)
    (numSamples channel : Nat) : List α :=
  ((e.highPassFilters.getD channel (ProcessorChain.init J)).process J
    (bandInput numSamples buffer channel)).2

/-- Two processors hold the same eight control curves and the same DC blocker coefficient. -/
def SameControls (e1 e2 : Engine α γ σ) : Prop :=
  e1.lowGainCurve = e2.lowGainCurve ∧ e1.lowMidGainCurve = e2.lowMidGainCurve ∧
  e1.midGainCurve = e2.midGainCurve ∧ e1.highGainCurve = e2.highGainCurve ∧
  e1.lowBypassCurve = e2.lowBypassCurve ∧ e1.lowMidBypassCurve = e2.lowMidBypassCurve ∧
  e1.midBypassCurve = e2.midBypassCurve ∧ e1.highBypassCurve = e2.highBypassCurve ∧
  e1.dcBlockerR = e2.dcBlockerR

/-- Two loop states hold the same data for `channel`: its four filter chains, its DC blocker
state and its samples in the buffer. -/
def SameChannel (J : Juce α γ σ) (channel : Nat) (s1 s2 : Engine α γ σ × AudioBuffer α) : Prop :=
  s1.1.lowPassFilters.getD channel (ProcessorChain.init J) =
    s2.1.lowPassFilters.getD channel (ProcessorChain.init J) ∧
  s1.1.lowMidFilters.getD channel (ProcessorChain.init J) =
    s2.1.lowMidFilters.getD channel (ProcessorChain.init J) ∧
  s1.1.midFilters.getD channel (ProcessorChain.init J) =
    s2.1.midFilters.getD channel (ProcessorChain.init J) ∧
  s1.1.highPassFilters.getD channel (ProcessorChain.init J) =
    s2.1.highPassFilters.getD channel (ProcessorChain.init J) ∧
  s1.1.dcPrevXLow.getD channel 0 = s2.1.dcPrevXLow.getD channel 0 ∧
  s1.1.dcPrevYLow.getD channel 0 = s2.1.dcPrevYLow.getD channel 0 ∧
  s1.2.channels.getD channel [] = s2.2.channels.getD channel []

/-! ## Persisted state -/

/-- A `juce::var` as it occurs in a state document. -/
inductive Var (α : Type) where
  | void : Var α
  | boolean (b : Bool) : Var α
  | number (x : α) : Var α
  | text (s : String) : Var α
deriving DecidableEq

namespace Var

/-- `static_cast<float> (var)`. -/
def toFloat (J : Juce α γ σ) : Var α → α
  | void => 0
  | boolean b => if b then 1 else 0
  | number x => x
  | text s => J.getDoubleValue s

/-- `static_cast<bool> (var)`. -/
def toBool (J : Juce α γ σ) : Var α → Bool
  | void => false
  | boolean b => b
  | number x => decide (x ≠ 0)
  | text s => J.textToBool s

end Var

/-- A `juce::ValueTree` node: its type name and its named properties. -/
structure ValueTree (α : Type) where
  typeName : String
  properties : List (String × Var α)
deriving DecidableEq

namespace ValueTree

/-- `hasProperty (name)`. -/
def hasProperty (t : ValueTree α) (name : String) : Bool :=
  (t.properties.lookup name).isSome

/-- `getProperty (name)`; a void `var` when the property is absent. -/
def getProperty (t : ValueTree α) (name : String) : Var α :=
  (t.properties.lookup name).getD Var.void

/-- `setProperty (name, newValue, nullptr)`. -/
def setProperty (t : ValueTree α) (name : String) (newValue : Var α) : ValueTree α :=
  if t.hasProperty name then
    { t with properties := t.properties.map (fun p => if p.1 = name then (name, newValue) else p) }
  else { t with properties := t.properties ++ [(name, newValue)] }

end ValueTree

/-- `LOW_GAIN_ID`. -/
def LOW_GAIN_ID : String := "low_gain"

/-- `LOWMID_GAIN_ID`. -/
def LOWMID_GAIN_ID : String := "lowmid_gain"

/-- `MID_GAIN_ID`. -/
def MID_GAIN_ID : String := "mid_gain"

/-- `HIGH_GAIN_ID`. -/
def HIGH_GAIN_ID : String := "high_gain"

/-- `LOW_BYPASS_ID`. -/
def LOW_BYPASS_ID : String := "low_bypass"

/-- `LOWMID_BYPASS_ID`. -/
def LOWMID_BYPASS_ID : String := "lowmid_bypass"

/-- `MID_BYPASS_ID`. -/
def MID_BYPASS_ID : String := "mid_bypass"

/-- `HIGH_BYPASS_ID`. -/
def HIGH_BYPASS_ID : String := "high_bypass"

/-- The `juce::ValueTree state` that `getStateInformation` builds, property by property, and
hands to `createXml`. -/
def stateTree (e : Engine α γ σ) : ValueTree α :=
  let state : ValueTree α := { typeName := "EQIsolator4Parameters", properties := [] }
  let s1 := state.setProperty LOW_GAIN_ID (Var.number e.lowGainParam)
  let s2 := s1.setProperty LOWMID_GAIN_ID (Var.number e.lowMidGainParam)
  let s3 := s2.setProperty MID_GAIN_ID (Var.number e.midGainParam)
  let s4 := s3.setProperty HIGH_GAIN_ID (Var.number e.highGainParam)
  let s5 := s4.setProperty LOW_BYPASS_ID (Var.boolean e.lowBypassParam)
  let s6 := s5.setProperty LOWMID_BYPASS_ID (Var.boolean e.lowMidBypassParam)
  let s7 := s6.setProperty MID_BYPASS_ID (Var.boolean e.midBypassParam)
  s7.setProperty HIGH_BYPASS_ID (Var.boolean e.highBypassParam)

/-- The JUCE writer and reader of state blocks; a block is the list of its bytes. -/
structure StateCodec (α : Type) where
  /-- The calls `state.createXml ()` and `copyXmlToBinary (*xml, destData)`: the content of
  `destData` after them.  `copyXmlToBinary` writes through its own
  `MemoryOutputStream (destData, false)`, which starts at position 0 and trims the block to
  what was written, so the content does not depend on what the block held before. -/
  copyXmlToBinary : ValueTree α → List Nat
  /-- The calls `getXmlFromBinary (data, sizeInBytes)` and `ValueTree::fromXml (*xmlState)`:
  `none` when `getXmlFromBinary` returns a null pointer. -/
  getXmlFromBinary : List Nat → Option (ValueTree α)

/-- `juce::MemoryBlock::setSize (newSize, false)`: a longer block is cut to `newSize` bytes;
the bytes a shorter block gains are not initialised by the library, 0 stands for them. -/
def MemoryBlock.setSize (block : List Nat) (newSize : Nat) : List Nat :=
  vectorResize block newSize 0

/-- `getStateInformation (destData)`: the content of `destData` after the call.  The first
statement, `juce::MemoryOutputStream stream (destData, true)`, creates a stream that appends to
`destData`: its `size` member starts as the size of the block at entry, and nothing is written
through it.  Its destructor runs when the function returns, after `copyXmlToBinary` has filled
the block, and calls `destData.setSize (size, false)`. -/
def getStateInformation (codec : StateCodec α) (e : Engine α γ σ) (destData : List Nat) :
    List Nat :=
  let streamSize := destData.length
  let state := stateTree e
  let written := codec.copyXmlToBinary state
  MemoryBlock.setSize written streamSize

/-- The statement
`if (state.hasProperty (LOW_GAIN_ID)) *lowGainParam = static_cast<float> (state.getProperty (LOW_GAIN_ID));`
of `setStateInformation`. -/
def restoreLowGain (J : Juce α γ σ) (state : ValueTree α) (e : Engine α γ σ) : Engine α γ σ :=
  if state.hasProperty LOW_GAIN_ID then
    { e with
      lowGainParam :=
        AudioParameterFloat.assign J gainRange e.lowGainParam
          ((state.getProperty LOW_GAIN_ID).toFloat J) }
  else e

/-- The statement
`if (state.hasProperty (LOWMID_GAIN_ID)) *lowMidGainParam = static_cast<float> (state.getProperty (LOWMID_GAIN_ID));`
of `setStateInformation`. -/
def restoreLowMidGain (J : Juce α γ σ) (state : ValueTree α) (e : Engine α γ σ) : Engine α γ σ :=
  if state.hasProperty LOWMID_GAIN_ID then
    { e with
      lowMidGainParam :=
        AudioParameterFloat.assign J gainRange e.lowMidGainParam
          ((state.getProperty LOWMID_GAIN_ID).toFloat J) }
  else e

/-- The statement
`if (state.hasProperty (MID_GAIN_ID)) *midGainParam = static_cast<float> (state.getProperty (MID_GAIN_ID));`
of `setStateInformation`. -/
def restoreMidGain (J : Juce α γ σ) (state : ValueTree α) (e : Engine α γ σ) : Engine α γ σ :=
  if state.hasProperty MID_GAIN_ID then
    { e with
      midGainParam :=
        AudioParameterFloat.assign J gainRange e.midGainParam
          ((state.getProperty MID_GAIN_ID).toFloat J) }
  else e

/-- The statement
`if (state.hasProperty (HIGH_GAIN_ID)) *highGainParam = static_cast<float> (state.getProperty (HIGH_GAIN_ID));`
of `setStateInformation`. -/
def restoreHighGain (J : Juce α γ σ) (state : ValueTree α) (e : Engine α γ σ) : Engine α γ σ :=
  if state.hasProperty HIGH_GAIN_ID then
    { e with
      highGainParam :=
        AudioParameterFloat.assign J gainRange e.highGainParam
          ((state.getProperty HIGH_GAIN_ID).toFloat J) }
  else e

/-- The statement
`if (state.hasProperty (LOW_BYPASS_ID)) *lowBypassParam = static_cast<bool> (state.getProperty (LOW_BYPASS_ID));`
of `setStateInformation`. -/
def restoreLowBypass (J : Juce α γ σ) (state : ValueTree α) (e : Engine α γ σ) : Engine α γ σ :=
  if state.hasProperty LOW_BYPASS_ID then
    { e with
      lowBypassParam :=
        AudioParameterBool.assign e.lowBypassParam
          ((state.getProperty LOW_BYPASS_ID).toBool J) }
  else e

/-- The statement
`if (state.hasProperty (LOWMID_BYPASS_ID)) *lowMidBypassParam = static_cast<bool> (state.getProperty (LOWMID_BYPASS_ID));`
of `setStateInformation`. -/
def restoreLowMidBypass (J : Juce α γ σ) (state : ValueTree α) (e : Engine α γ σ) : Engine α γ σ :=
  if state.hasProperty LOWMID_BYPASS_ID then
    { e with
      lowMidBypassParam :=
        AudioParameterBool.assign e.lowMidBypassParam
          ((state.getProperty LOWMID_BYPASS_ID).toBool J) }
  else e

/-- The statement
`if (state.hasProperty (MID_BYPASS_ID)) *midBypassParam = static_cast<bool> (state.getProperty (MID_BYPASS_ID));`
of `setStateInformation`. -/
def restoreMidBypass (J : Juce α γ σ) (state : ValueTree α) (e : Engine α γ σ) : Engine α γ σ :=
  if state.hasProperty MID_BYPASS_ID then
    { e with
      midBypassParam :=
        AudioParameterBool.assign e.midBypassParam
          ((state.getProperty MID_BYPASS_ID).toBool J) }
  else e

/-- The statement
`if (state.hasProperty (HIGH_BYPASS_ID)) *highBypassParam = static_cast<bool> (state.getProperty (HIGH_BYPASS_ID));`
of `setStateInformation`. -/
def restoreHighBypass (J : Juce α γ σ) (state : ValueTree α) (e : Engine α γ σ) : Engine α γ σ :=
  if state.hasProperty HIGH_BYPASS_ID then
    { e with
      highBypassParam :=
        AudioParameterBool.assign e.highBypassParam
          ((state.getProperty HIGH_BYPASS_ID).toBool J) }
  else e

/-- `setStateInformation (data, sizeInBytes)`.  The argument is the outcome of the reader
(`getXmlFromBinary`, then `ValueTree::fromXml`): `none` when `getXmlFromBinary` returns a null
pointer, otherwise the decoded tree.  The eight conditional assignments run in source order. -/
def setStateInformation (J : Juce α γ σ) (xmlState : Option (ValueTree α)) (e : Engine α γ σ) :
    Engine α γ σ :=
  match xmlState with
  | none => e
  | some state =>
    let e1 := restoreLowGain J state e
    let e2 := restoreLowMidGain J state e1
    let e3 := restoreMidGain J state e2
    let e4 := restoreHighGain J state e3
    let e5 := restoreLowBypass J state e4
    let e6 := restoreLowMidBypass J state e5
    let e7 := restoreMidBypass J state e6
    restoreHighBypass J state e7

/-- The processor as its constructor leaves it: default parameter values, the stereo layout,
empty vectors and default-constructed smoothers.  `processSpec` has no initialiser in the
source; its fields are written by `prepareToPlay` before anything reads them and are 0 here. -/
def Engine.init : Engine α γ σ :=
  { lowGainParam := 0, lowMidGainParam := 0, midGainParam := 0, highGainParam := 0
    lowBypassParam := false, lowMidBypassParam := false, midBypassParam := false
    highBypassParam := false
    busesLayout := { mainInput := AudioChannelSet.stereo, mainOutput := AudioChannelSet.stereo }
    lowPassFilters := [], lowMidFilters := [], midFilters := [], highPassFilters := []
    processSpec := { sampleRate := 0, maximumBlockSize := 0, numChannels := 0 }
    lowTempBuffers := [], lowMidTempBuffers := [], midTempBuffers := [], highTempBuffers := []
    dcBlockerR := 0, dcPrevXLow := [], dcPrevYLow := []
    lowGainCurve := [], lowMidGainCurve := [], midGainCurve := [], highGainCurve := []
    lowBypassCurve := [], lowMidBypassCurve := [], midBypassCurve := [], highBypassCurve := []
    smoothedLowGain := SmoothedValue.init, smoothedLowMidGain := SmoothedValue.init
    smoothedMidGain := SmoothedValue.init, smoothedHighGain := SmoothedValue.init
    smoothedLowCutoff := SmoothedValue.init, smoothedLowMidCutoff := SmoothedValue.init
    smoothedMidCutoff := SmoothedValue.init
    smoothedLowBypass := SmoothedValue.init, smoothedLowMidBypass := SmoothedValue.init
    smoothedMidBypass := SmoothedValue.init, smoothedHighBypass := SmoothedValue.init
    lastLowGainTargetDb := 0 }

/-! ## The members of the processor by band -/

/-- The four bands. -/
inductive Band where
  | low
  | lowMid
  | mid
  | high
deriving DecidableEq, Fintype

namespace Engine

/-- The gain parameter of a band. -/
def gainParam (e : Engine α γ σ) : Band → α
  | Band.low => e.lowGainParam
  | Band.lowMid => e.lowMidGainParam
  | Band.mid => e.midGainParam
  | Band.high => e.highGainParam

/-- The bypass parameter of a band. -/
def bypassParam (e : Engine α γ σ) : Band → Bool
  | Band.low => e.lowBypassParam
  | Band.lowMid => e.lowMidBypassParam
  | Band.mid => e.midBypassParam
  | Band.high => e.highBypassParam

/-- The gain smoother of a band. -/
def gainSmoother (e : Engine α γ σ) : Band → SmoothedValue α
  | Band.low => e.smoothedLowGain
  | Band.lowMid => e.smoothedLowMidGain
  | Band.mid => e.smoothedMidGain
  | Band.high => e.smoothedHighGain

/-- The bypass smoother of a band. -/
def bypassSmoother (e : Engine α γ σ) : Band → SmoothedValue α
  | Band.low => e.smoothedLowBypass
  | Band.lowMid => e.smoothedLowMidBypass
  | Band.mid => e.smoothedMidBypass
  | Band.high => e.smoothedHighBypass

/-- The gain curve of a band. -/
def gainCurve (e : Engine α γ σ) : Band → List α
  | Band.low => e.lowGainCurve
  | Band.lowMid => e.lowMidGainCurve
  | Band.mid => e.midGainCurve
  | Band.high => e.highGainCurve

/-- The bypass curve of a band. -/
def bypassCurve (e : Engine α γ σ) : Band → List α
  | Band.low => e.lowBypassCurve
  | Band.lowMid => e.lowMidBypassCurve
  | Band.mid => e.midBypassCurve
  | Band.high => e.highBypassCurve

/-- The scratch buffer sizes of a band, one per channel. -/
def tempBuffers (e : Engine α γ σ) : Band → List Nat
  | Band.low => e.lowTempBuffers
  | Band.lowMid => e.lowMidTempBuffers
  | Band.mid => e.midTempBuffers
  | Band.high => e.highTempBuffers

end Engine

/-- The bypass smoother target of `processBlock` and `prepareToPlay`:
`bypass ? 0.0f : 1.0f`. -/
def bypassTarget (bypass : Bool) : α :=
  if bypass then 0 else 1

/-- The gain ramp times of `prepareToPlay` in milliseconds: `rampTimeMsLow`,
`rampTimeMsLowMid`, `rampTimeMsMid`, `rampTimeMsHigh`. -/
def gainRampTimeMs : Band → Nat
  | Band.low => 160
  | Band.lowMid => 15
  | Band.mid => 12
  | Band.high => 10

/-- The bypass ramp times of `prepareToPlay` in milliseconds: `bypassRampTimeMsLow`,
`bypassRampTimeMsLowMid`, `bypassRampTimeMsMid`, `bypassRampTimeMsHigh`. -/
def bypassRampTimeMs : Band → Nat
  | Band.low => 80
  | Band.lowMid => 50
  | Band.mid => 40
  | Band.high => 25

/-- The gain ramp length of a band in seconds as `prepareToPlay` passes it to `reset`:
the binary32 quotient `rampTimeMs / 1000.0f`. -/
def gainRampSeconds (band : Band) : α :=
  binary32Quotient (gainRampTimeMs band) 1000

/-- The bypass ramp length of a band in seconds as `prepareToPlay` passes it to `reset`:
the binary32 quotient `bypassRampTimeMs / 1000.0f`. -/
def bypassRampSeconds (band : Band) : α :=
  binary32Quotient (bypassRampTimeMs band) 1000

namespace SmoothedValue

/-- The smoother after `n` calls of `getNextValue`. -/
def advance (s : SmoothedValue α) : Nat → SmoothedValue α
  | 0 => s
  | n + 1 => (advance s n).getNextValue.2

/-- The value returned by call number `i + 1` of `getNextValue`. -/
def sample (s : SmoothedValue α) (i : Nat) : α :=
  (s.advance i).getNextValue.1

end SmoothedValue

/-- The processor after a sequence of `processBlock` calls, one per buffer. -/
def processBlocks (J : Juce α γ σ) (e : Engine α γ σ) (buffers : List (AudioBuffer α)) :
    Engine α γ σ :=
  buffers.foldl (fun st buffer => (processBlock J st buffer).1) e

/-- The number of samples in a sequence of buffers. -/
def totalSamples (buffers : List (AudioBuffer α)) : Nat :=
  (buffers.map AudioBuffer.numSamples).sum

/-- The linear ramp from `g0` to `g1` in `N` steps, at step `k`. -/
def rampDb (g0 g1 : α) (N k : Nat) : α :=
  if k < N then g0 + (k : α) * (g1 - g0) / (N : α) else g1

/-- The processor `e1` differs from `e2` at most in the per-channel members: the filter
chains, the scratch buffer sizes and the DC blocker state. -/
def OutsideChannels (e1 e2 : Engine α γ σ) : Prop :=
  e1 =
    { e2 with
      lowPassFilters := e1.lowPassFilters
      lowMidFilters := e1.lowMidFilters
      midFilters := e1.midFilters
      highPassFilters := e1.highPassFilters
      lowTempBuffers := e1.lowTempBuffers
      lowMidTempBuffers := e1.lowMidTempBuffers
      midTempBuffers := e1.midTempBuffers
      highTempBuffers := e1.highTempBuffers
      dcPrevXLow := e1.dcPrevXLow
      dcPrevYLow := e1.dcPrevYLow }

/-- The processor `e1` differs from `e2` at most in the control curves and in the gain and
bypass smoothers. -/
def OutsideControls (e1 e2 : Engine α γ σ) : Prop :=
  e1 =
    { e2 with
      lowGainCurve := e1.lowGainCurve
      lowMidGainCurve := e1.lowMidGainCurve
      midGainCurve := e1.midGainCurve
      highGainCurve := e1.highGainCurve
      lowBypassCurve := e1.lowBypassCurve
      lowMidBypassCurve := e1.lowMidBypassCurve
      midBypassCurve := e1.midBypassCurve
      highBypassCurve := e1.highBypassCurve
      smoothedLowGain := e1.smoothedLowGain
      smoothedLowMidGain := e1.smoothedLowMidGain
      smoothedMidGain := e1.smoothedMidGain
      smoothedHighGain := e1.smoothedHighGain
      smoothedLowBypass := e1.smoothedLowBypass
      smoothedLowMidBypass := e1.smoothedLowMidBypass
      smoothedMidBypass := e1.smoothedMidBypass
      smoothedHighBypass := e1.smoothedHighBypass }

/-- The buffers of the processor have the sizes that `prepareToPlay (sampleRate,
samplesPerBlock)` gives them: every control curve holds `samplesPerBlock` values and every band
has one scratch buffer of `samplesPerBlock` samples for each output channel. -/
def Engine.PreparedFor (e : Engine α γ σ) (samplesPerBlock : Nat) : Prop :=
  ∀ band : Band,
    (e.gainCurve band).length = samplesPerBlock ∧
    (e.bypassCurve band).length = samplesPerBlock ∧
    e.tempBuffers band = List.replicate e.getTotalNumOutputChannels samplesPerBlock

instance (e : Engine α γ σ) (samplesPerBlock : Nat) :
    Decidable (e.PreparedFor samplesPerBlock) := by
  unfold Engine.PreparedFor; infer_instance

/-! ## Parameter writes and the reachable states -/

/-- A gain parameter written by the host or by a control of the editor:
`setValueNotifyingHost (newValue)` with the normalised value `newValue`, after which the
parameter holds `convertFrom0to1 (newValue)`.  The slider attachments of the editor pass
`convertTo0to1` of the slider value. -/
def Engine.setGainNotifyingHost (J : Juce α γ σ) (e : Engine α γ σ) (band : Band)
    (newValue : α) : Engine α γ σ :=
  match band with
  | Band.low =>
    { e with lowGainParam := AudioParameterFloat.convertFrom0to1 J gainRange newValue }
  | Band.lowMid =>
    { e with lowMidGainParam := AudioParameterFloat.convertFrom0to1 J gainRange newValue }
  | Band.mid =>
    { e with midGainParam := AudioParameterFloat.convertFrom0to1 J gainRange newValue }
  | Band.high =>
    { e with highGainParam := AudioParameterFloat.convertFrom0to1 J gainRange newValue }

/-- A bypass parameter written by the host or by a button of the editor. -/
def Engine.setBypassNotifyingHost (e : Engine α γ σ) (band : Band) (newValue : Bool) :
    Engine α γ σ :=
  match band with
  | Band.low => { e with lowBypassParam := newValue }
  | Band.lowMid => { e with lowMidBypassParam := newValue }
  | Band.mid => { e with midBypassParam := newValue }
  | Band.high => { e with highBypassParam := newValue }

/-- The states of the processor that can be reached: the constructed processor, and from a
reachable state the state after `setStateInformation` with any reader outcome, after a write
of a gain or bypass parameter, after a change to a supported layout, after `prepareToPlay` and
after `processBlock`. -/
inductive Engine.Reachable (J : Juce α γ σ) : Engine α γ σ → Prop
  | init : Engine.Reachable J Engine.init
  | restore (xmlState : Option (ValueTree α)) (e : Engine α γ σ) :
      Engine.Reachable J e → Engine.Reachable J (setStateInformation J xmlState e)
  | gainWrite (band : Band) (newValue : α) (e : Engine α γ σ) :
      Engine.Reachable J e → Engine.Reachable J (e.setGainNotifyingHost J band newValue)
  | bypassWrite (band : Band) (newValue : Bool) (e : Engine α γ σ) :
      Engine.Reachable J e → Engine.Reachable J (e.setBypassNotifyingHost band newValue)
  | layout (layouts : BusesLayout) (e : Engine α γ σ) :
      Engine.Reachable J e → isBusesLayoutSupported false false layouts = true →
      Engine.Reachable J { e with busesLayout := layouts }
  | prepare (cache : CoefficientCache α γ) (sampleRate : α) (samplesPerBlock : Nat)
      (e : Engine α γ σ) :
      Engine.Reachable J e →
      Engine.Reachable J (prepareToPlay J cache e sampleRate samplesPerBlock).2
  | process (buffer : AudioBuffer α) (e : Engine α γ σ) :
      Engine.Reachable J e → Engine.Reachable J (processBlock J e buffer).1

/-- The states of the processor that can be reached when every gain value that comes in from
outside satisfies `valid`: the constructed processor, and from such a state the state after
`setStateInformation` with any reader outcome in which the gain properties present convert to
values that satisfy `valid`, after a write of a normalised gain value that satisfies `valid`,
after a write of a bypass parameter, after a change to a supported layout, after
`prepareToPlay` and after `processBlock`. -/
inductive Engine.ReachableWith (J : Juce α γ σ) (valid : α → Prop) : Engine α γ σ → Prop
  | init : Engine.ReachableWith J valid Engine.init
  | restore (xmlState : Option (ValueTree α)) (e : Engine α γ σ) :
      Engine.ReachableWith J valid e →
      (∀ state, xmlState = some state →
        ∀ name ∈ [LOW_GAIN_ID, LOWMID_GAIN_ID, MID_GAIN_ID, HIGH_GAIN_ID],
          state.hasProperty name = true → valid ((state.getProperty name).toFloat J)) →
      Engine.ReachableWith J valid (setStateInformation J xmlState e)
  | gainWrite (band : Band) (newValue : α) (e : Engine α γ σ) :
      Engine.ReachableWith J valid e → valid newValue →
      Engine.ReachableWith J valid (e.setGainNotifyingHost J band newValue)
  | bypassWrite (band : Band) (newValue : Bool) (e : Engine α γ σ) :
      Engine.ReachableWith J valid e →
      Engine.ReachableWith J valid (e.setBypassNotifyingHost band newValue)
  | layout (layouts : BusesLayout) (e : Engine α γ σ) :
      Engine.ReachableWith J valid e → isBusesLayoutSupported false false layouts = true →
      Engine.ReachableWith J valid { e with busesLayout := layouts }
  | prepare (cache : CoefficientCache α γ) (sampleRate : α) (samplesPerBlock : Nat)
      (e : Engine α γ σ) :
      Engine.ReachableWith J valid e →
      Engine.ReachableWith J valid (prepareToPlay J cache e sampleRate samplesPerBlock).2
  | process (buffer : AudioBuffer α) (e : Engine α γ σ) :
      Engine.ReachableWith J valid e → Engine.ReachableWith J valid (processBlock J e buffer).1

/-! ## Filter coefficients -/

/-- The coefficient objects of the two sections of a chain. -/
def ProcessorChain.coefficients (c : ProcessorChain γ σ) : γ × γ :=
  (c.first.coefficients, c.second.coefficients)

/-- The coefficient objects of all filter chains of the processor, band by band and channel
by channel. -/
def Engine.coefficients (e : Engine α γ σ) :
    List (γ × γ) × List (γ × γ) × List (γ × γ) × List (γ × γ) :=
  (e.lowPassFilters.map ProcessorChain.coefficients,
    e.lowMidFilters.map ProcessorChain.coefficients,
    e.midFilters.map ProcessorChain.coefficients,
    e.highPassFilters.map ProcessorChain.coefficients)

/-- The addend of a band in the mixer assignment of `processBlock` for sample `i` of
`channel`: the band's sample times its gain curve value times its bypass curve value, with the
band buffers computed from the processor `e` and the buffer at block entry and the curves of
the processor `curves`. -/
def bandTerm (J : Juce α γ σ) (e curves : Engine α γ σ) (buffer : AudioBuffer α)
    (channel i : Nat) : Band → α
  | Band.low =>
    (lowBlocked J e buffer buffer.numSamples channel).1.getD i 0 *
      curves.lowGainCurve.getD i 0 * curves.lowBypassCurve.getD i 0
  | Band.lowMid =>
    (lowMidFiltered J e buffer buffer.numSamples channel).getD i 0 *
      curves.lowMidGainCurve.getD i 0 * curves.lowMidBypassCurve.getD i 0
  | Band.mid =>
    (midFiltered J e buffer buffer.numSamples channel).getD i 0 *
      curves.midGainCurve.getD i 0 * curves.midBypassCurve.getD i 0
  | Band.high =>
    (highFiltered J e buffer buffer.numSamples channel).getD i 0 *
      curves.highGainCurve.getD i 0 * curves.highBypassCurve.getD i 0

/-- The per-channel vectors of the processor are allocated for `numChannels` channels: every
band has `numChannels` filter chains, the two DC blocker state vectors have `numChannels`
entries, every band has `numChannels` scratch buffers, and the four scratch buffers of a
channel have one size. -/
def Engine.AllocatedFor (e : Engine α γ σ) (numChannels : Nat) : Prop :=
  (e.lowPassFilters.length = numChannels ∧ e.lowMidFilters.length = numChannels ∧
    e.midFilters.length = numChannels ∧ e.highPassFilters.length = numChannels) ∧
  (e.dcPrevXLow.length = numChannels ∧ e.dcPrevYLow.length = numChannels) ∧
  (e.lowTempBuffers.length = numChannels ∧ e.lowMidTempBuffers = e.lowTempBuffers ∧
    e.midTempBuffers = e.lowTempBuffers ∧ e.highTempBuffers = e.lowTempBuffers)

instance (e : Engine α γ σ) (numChannels : Nat) : Decidable (e.AllocatedFor numChannels) := by
  unfold Engine.AllocatedFor; infer_instance

/-! ## `mixBandsOptimized`

The helper reads the four cached linear gains (`cachedLowGainLinear` and its three siblings)
once; they are arguments here.  Every assignment `output[i] = ...` is modelled by
`mixBandsStore`, which also appends `i` to a log of the indices written, so that the order and
the number of writes can be stated. -/

/-- The right-hand side of the assignments of `mixBandsOptimized` for index `i`:
`low[i] * lowGain + lowMid[i] * lowMidGain + mid[i] * midGain + high[i] * highGain`. -/
def mixBandsSample (lowGain lowMidGain midGain highGain : α) (low lowMid mid high : List α)
    (i : Nat) : α :=
  low.getD i 0 * lowGain + lowMid.getD i 0 * lowMidGain + mid.getD i 0 * midGain +
    high.getD i 0 * highGain

/-- One assignment `output[i] = ...` of `mixBandsOptimized`: the output after it and the
log of written indices after it. -/
def mixBandsStore (lowGain lowMidGain midGain highGain : α) (low lowMid mid high : List α)
    (st : List α × List Nat) (i : Nat) : List α × List Nat :=
  (st.1.set i (mixBandsSample lowGain lowMidGain midGain highGain low lowMid mid high i),
    st.2 ++ [i])

/-- The unrolled loop `for (; i < vectorizedEnd; i += 4)` of `mixBandsOptimized`, entered
with index `i`: the index and the output and log when the loop is left. -/
def mixBandsUnrolled (lowGain lowMidGain midGain highGain : α) (low lowMid mid high : List α)
    (vectorizedEnd : Nat) (i : Nat) (st : List α × List Nat) : Nat × (List α × List Nat) :=
  if h : i < vectorizedEnd then
    let s0 := mixBandsStore lowGain lowMidGain midGain highGain low lowMid mid high st (i + 0)
    let s1 := mixBandsStore lowGain lowMidGain midGain highGain low lowMid mid high s0 (i + 1)
    let s2 := mixBandsStore lowGain lowMidGain midGain highGain low lowMid mid high s1 (i + 2)
    let s3 := mixBandsStore lowGain lowMidGain midGain highGain low lowMid mid high s2 (i + 3)
    mixBandsUnrolled lowGain lowMidGain midGain highGain low lowMid mid high vectorizedEnd
      (i + 4) s3
  else (i, st)
termination_by vectorizedEnd - i

/-- The remainder loop `for (; i < numSamples; ++i)` of `mixBandsOptimized`, entered with
index `i`. -/
def mixBandsRemainder (lowGain lowMidGain midGain highGain : α) (low lowMid mid high : List α)
    (numSamples : Nat) (i : Nat) (st : List α × List Nat) : List α × List Nat :=
  if h : i < numSamples then
    mixBandsRemainder lowGain lowMidGain midGain highGain low lowMid mid high numSamples (i + 1)
      (mixBandsStore lowGain lowMidGain midGain highGain low lowMid mid high st i)
  else st
termination_by numSamples - i

/-- `numSamples & ~3` for the non-negative `int numSamples`. -/
def vectorizedEnd (numSamples : Nat) : Nat :=
  (Int.land (numSamples : Int) (Int.lnot 3)).toNat

/-- The body of the channel loop of `mixBandsOptimized` for one channel: the output array of
the channel after the two loops, and the indices written, in the order of the writes. -/
def mixBandsChannel (lowGain lowMidGain midGain highGain : α) (numSamples : Nat)
    (output low lowMid mid high : List α) : List α × List Nat :=
  let unrolled := mixBandsUnrolled lowGain lowMidGain midGain highGain low lowMid mid high
    (vectorizedEnd numSamples) 0 (output, [])
  mixBandsRemainder lowGain lowMidGain midGain highGain low lowMid mid high numSamples
    unrolled.1 unrolled.2

/-- `mixBandsOptimized (channelData, lowData, lowMidData, midData, highData, numChannels,
numSamples)`: the channel data after the call and, for each channel visited, the indices
written, in the order of the writes. -/
def mixBandsOptimized (lowGain lowMidGain midGain highGain : α)
    (channelData lowData lowMidData midData highData : List (List α))
    (numChannels numSamples : Nat) : List (List α) × List (List Nat) :=
  (List.range numChannels).foldl
    (fun (st : List (List α) × List (List Nat)) channel =>
      let r := mixBandsChannel lowGain lowMidGain midGain highGain numSamples
        (st.1.getD channel []) (lowData.getD channel []) (lowMidData.getD channel [])
        (midData.getD channel []) (highData.getD channel [])
      (st.1.set channel r.1, st.2 ++ [r.2]))
    (channelData, [])

/-- The plain per-sample mixer with constant gains over one channel:
`output[i] = low[i] * lowGain + lowMid[i] * lowMidGain + mid[i] * midGain + high[i] * highGain`
for `i = 0, 1, ..., numSamples - 1`. -/
def mixBandsPlain (lowGain lowMidGain midGain highGain : α) (numSamples : Nat)
    (output low lowMid mid high : List α) : List α :=
  (List.range numSamples).foldl
    (fun out i =>
      out.set i (mixBandsSample lowGain lowMidGain midGain highGain low lowMid mid high i))
    output

end Model

/-- A small library instance over the integers, used to evaluate the model on concrete
inputs: a one-tap kernel `y = c * x + s` that remembers the last input. -/
def Juce.sample : Juce Int Int Int :=
  { makeLowPass := fun sampleRate frequency => sampleRate + frequency
    makeHighPass := fun sampleRate frequency => sampleRate - frequency
    defaultCoefficients := 1
    silent := 0
    processSample := fun c s x => (c * x + s, x)
    pow := fun b x => b + x
    exp := fun x => x
    pi := 3
    floor := fun x => x
    floorToInt := fun x => x
    getDoubleValue := fun _ => 0
    textToBool := fun _ => false }

/-- A processor whose low gain was set to 3 dB before playback. -/
def Engine.sampleBoosted : Engine Int Int Int :=
  { (Engine.init : Engine Int Int Int) with lowGainParam := 3 }

/-- The processor `Engine.sampleBoosted` prepared at 44100 Hz with blocks of 4. -/
def Engine.samplePrepared : Engine Int Int Int :=
  (prepareToPlay Juce.sample (CoefficientCache.init Juce.sample) Engine.sampleBoosted 44100 4).2

/-- A stereo block of three samples. -/
def AudioBuffer.sample : AudioBuffer Int :=
  { numSamples := 3, channels := [[1, 2, 3], [4, 5, 6]] }

/-- The statics after `Engine.sampleBoosted` was prepared at 44100 Hz with blocks of 4. -/
def CoefficientCache.samplePlayed : CoefficientCache Int Int :=
  (prepareToPlay Juce.sample (CoefficientCache.init Juce.sample) Engine.sampleBoosted 44100 4).1

/-- The processor `Engine.sampleBoosted` after it was prepared at 44100 Hz with blocks of 4 and
has processed one stereo block of three samples. -/
def Engine.samplePlayed : Engine Int Int Int :=
  (processBlock Juce.sample Engine.samplePrepared AudioBuffer.sample).1

/-- A library instance over the rationals with the exact floor, used to evaluate the
parameter range arithmetic on concrete inputs. -/
def Juce.rational : Juce ℚ ℚ ℚ :=
  { makeLowPass := fun sampleRate frequency => frequency / sampleRate
    makeHighPass := fun sampleRate frequency => 1 - frequency / sampleRate
    defaultCoefficients := 1
    silent := 0
    processSample := fun c s x => (c * x + s, x)
    pow := fun b x => b + x
    exp := fun x => x
    pi := 3
    floor := fun x => ((⌊x⌋ : Int) : ℚ)
    floorToInt := fun x => ⌊x⌋
    getDoubleValue := fun _ => 0
    textToBool := fun s => decide (s = "1" ∨ s = "true" ∨ s = "yes") }

/-- The freshly constructed processor prepared at a sample rate of 100 Hz with blocks of 4;
the low gain ramp is 15 samples long there and the low bypass ramp 7 samples. -/
def Engine.sampleRested : Engine ℚ ℚ ℚ :=
  (prepareToPlay Juce.rational (CoefficientCache.init Juce.rational) Engine.init 100 4).2

/-- The processor `Engine.sampleRested` after the low band was bypassed. -/
def Engine.sampleSwitched : Engine ℚ ℚ ℚ :=
  { Engine.sampleRested with lowBypassParam := true }

/-- A stereo block of three rational samples. -/
def AudioBuffer.sampleRational : AudioBuffer ℚ :=
  { numSamples := 3, channels := [[1, 2, 3], [4, 5, 6]] }

/-- The processor `Engine.sampleRested` after its low gain slider was moved to 10 dB, one
block of three samples was processed, and the slider was moved back to 0 dB. -/
def Engine.sampleReentered : Engine ℚ ℚ ℚ :=
  ((processBlock Juce.rational
      (Engine.sampleRested.setGainNotifyingHost Juce.rational Band.low
        (AudioParameterFloat.convertTo0to1 Juce.rational gainRange 10))
      AudioBuffer.sampleRational).1).setGainNotifyingHost Juce.rational Band.low
    (AudioParameterFloat.convertTo0to1 Juce.rational gainRange 0)

/-- The freshly constructed processor prepared at a sample rate of 48 kHz with blocks of 512;
the low gain ramp is 7679 samples long there and the low bypass ramp 3839 samples. -/
def Engine.sampleStudio : Engine ℚ ℚ ℚ :=
  (prepareToPlay Juce.rational (CoefficientCache.init Juce.rational) Engine.init 48000 512).2

/-- The processor `Engine.sampleStudio` after the low band was bypassed. -/
def Engine.sampleStudioSwitched : Engine ℚ ℚ ℚ :=
  { Engine.sampleStudio with lowBypassParam := true }

/-- A stereo block of 512 samples of silence. -/
def AudioBuffer.sampleSilence : AudioBuffer ℚ :=
  { numSamples := 512, channels := [List.replicate 512 0, List.replicate 512 0] }

/-- A `float` as far as its special values matter: NaN, the two infinities, and the numbers.
The numbers are kept exact: there is no rounding and no overflow, and there is one zero, which
counts as positive.  Equality is that of the values, so NaN equals NaN here, where `==` of C++
is false; the ordered comparisons with NaN are false as in C++. -/
inductive FloatValue where
  | nan : FloatValue
  | negInf : FloatValue
  | fin (q : ℚ) : FloatValue
  | posInf : FloatValue
deriving DecidableEq

namespace FloatValue

/-- Unary minus. -/
def neg : FloatValue → FloatValue
  | nan => nan
  | negInf => posInf
  | fin q => fin (-q)
  | posInf => negInf

/-- Addition; the sum of the two infinities is NaN. -/
def add : FloatValue → FloatValue → FloatValue
  | nan, _ => nan
  | _, nan => nan
  | posInf, negInf => nan
  | negInf, posInf => nan
  | posInf, _ => posInf
  | _, posInf => posInf
  | negInf, _ => negInf
  | _, negInf => negInf
  | fin a, fin b => fin (a + b)

/-- Subtraction. -/
def sub (a b : FloatValue) : FloatValue := add a (neg b)

/-- The infinity with the sign of `q`; NaN for zero. -/
def signedInf (q : ℚ) : FloatValue :=
  if q = 0 then nan else if 0 < q then posInf else negInf

/-- Multiplication; zero times an infinity is NaN. -/
def mul : FloatValue → FloatValue → FloatValue
  | nan, _ => nan
  | _, nan => nan
  | fin a, fin b => fin (a * b)
  | fin a, posInf => signedInf a
  | fin a, negInf => signedInf (-a)
  | posInf, fin b => signedInf b
  | negInf, fin b => signedInf (-b)
  | posInf, posInf => posInf
  | negInf, negInf => posInf
  | posInf, negInf => negInf
  | negInf, posInf => negInf

/-- Division; a nonzero number over zero is an infinity, zero over zero and an infinity over
an infinity are NaN. -/
def div : FloatValue → FloatValue → FloatValue
  | nan, _ => nan
  | _, nan => nan
  | fin a, fin b => if b = 0 then signedInf a else fin (a / b)
  | fin _, posInf => fin 0
  | fin _, negInf => fin 0
  | posInf, fin b => if 0 ≤ b then posInf else negInf
  | negInf, fin b => if 0 ≤ b then negInf else posInf
  | posInf, posInf => nan
  | posInf, negInf => nan
  | negInf, posInf => nan
  | negInf, negInf => nan

/-- The comparison `a < b`. -/
def lt : FloatValue → FloatValue → Bool
  | fin a, fin b => decide (a < b)
  | negInf, fin _ => true
  | negInf, posInf => true
  | fin _, posInf => true
  | _, _ => false

/-- The comparison `a <= b`. -/
def le : FloatValue → FloatValue → Bool
  | fin a, fin b => decide (a ≤ b)
  | negInf, negInf => true
  | negInf, fin _ => true
  | negInf, posInf => true
  | fin _, posInf => true
  | posInf, posInf => true
  | _, _ => false

/-- `std::floor`: NaN and the infinities are returned as they are. -/
def floor : FloatValue → FloatValue
  | fin q => fin ((⌊q⌋ : Int) : ℚ)
  | v => v

end FloatValue

instance : Zero FloatValue := ⟨FloatValue.fin 0⟩

instance : One FloatValue := ⟨FloatValue.fin 1⟩

instance : NatCast FloatValue := ⟨fun n => FloatValue.fin n⟩

instance : IntCast FloatValue := ⟨fun z => FloatValue.fin z⟩

instance : Neg FloatValue := ⟨FloatValue.neg⟩

instance : Add FloatValue := ⟨FloatValue.add⟩

instance : Sub FloatValue := ⟨FloatValue.sub⟩

instance : Mul FloatValue := ⟨FloatValue.mul⟩

instance : Div FloatValue := ⟨FloatValue.div⟩

instance : LT FloatValue := ⟨fun a b => FloatValue.lt a b = true⟩

instance : LE FloatValue := ⟨fun a b => FloatValue.le a b = true⟩

instance : DecidableRel (fun (a b : FloatValue) => a < b) :=
  fun a b => inferInstanceAs (Decidable (FloatValue.lt a b = true))

instance : DecidableRel (fun (a b : FloatValue) => a ≤ b) :=
  fun a b => inferInstanceAs (Decidable (FloatValue.le a b = true))

/-- A library instance over `FloatValue`: `std::floor` is `FloatValue.floor`, and the reader
reads the texts `nan`, `inf` and `-inf` as NaN and the infinities, as
`juce::CharacterFunctions::readDoubleValue` does, and 0 from any other text. -/
def Juce.special : Juce FloatValue ℚ ℚ :=
  { makeLowPass := fun _ _ => 0
    makeHighPass := fun _ _ => 0
    defaultCoefficients := 0
    silent := 0
    processSample := fun _ s x => (x, s)
    pow := fun b _ => b
    exp := fun x => x
    pi := FloatValue.fin 3
    floor := FloatValue.floor
    floorToInt := fun v =>
      match v with
      | FloatValue.fin q => ⌊q⌋
      | _ => 0
    getDoubleValue := fun s =>
      if s = "nan" then FloatValue.nan
      else if s = "inf" then FloatValue.posInf
      else if s = "-inf" then FloatValue.negInf
      else FloatValue.fin 0
    textToBool := fun s => decide (s = "1" ∨ s = "true" ∨ s = "yes") }

section Theorems

set_option linter.unusedSectionVars false

variable {α γ σ : Type}
variable [Zero α] [One α] [NatCast α] [IntCast α] [Add α] [Sub α] [Mul α] [Div α] [Neg α]
variable [LT α] [LE α] [DecidableEq α]
variable [DecidableRel (fun (a b : α) => a < b)] [DecidableRel (fun (a b : α) => a ≤ b)]

/-- The fast-path test holds exactly when the four gains are 0 and the four bypasses false. -/
theorem allBandsAtZero_iff (e : Engine α γ σ) :
    allBandsAtZero e = true ↔
      (e.lowGainParam = 0 ∧ e.lowMidGainParam = 0 ∧ e.midGainParam = 0 ∧ e.highGainParam = 0) ∧
      (e.lowBypassParam = false ∧ e.lowMidBypassParam = false ∧ e.midBypassParam = false ∧
        e.highBypassParam = false) := by
  simp [allBandsAtZero, and_assoc]

/-- A supported effect layout has equal main input and output sets. -/
theorem supported_layout_channels (layouts : BusesLayout)
    (h : isBusesLayoutSupported false false layouts = true) :
    layouts.mainOutput = layouts.mainInput := by
  unfold isBusesLayoutSupported at h
  by_contra hne
  simp [hne] at h

/-- The clearing loop does nothing when there are no more outputs than inputs. -/
theorem clearUnusedOutputs_of_le (nIn nOut n : Nat) (buffer : AudioBuffer α) (h : nOut ≤ nIn) :
    clearUnusedOutputs nIn nOut n buffer = buffer := by
  simp [clearUnusedOutputs, Nat.sub_eq_zero_of_le h]

/-- C2: on the fast path (all gains exactly 0, all bypasses false) `processBlock` returns the
processor unchanged: every smoother, filter chain, DC blocker state and control curve is the
same after the call as before it. -/
theorem processBlock_fast_path_state (J : Juce α γ σ) (e : Engine α γ σ) (buffer : AudioBuffer α)
    (hgain : e.lowGainParam = 0 ∧ e.lowMidGainParam = 0 ∧ e.midGainParam = 0 ∧ e.highGainParam = 0)
    (hbypass : e.lowBypassParam = false ∧ e.lowMidBypassParam = false ∧
      e.midBypassParam = false ∧ e.highBypassParam = false) :
    (processBlock J e buffer).1 = e := by
  have hz : allBandsAtZero e = true := (allBandsAtZero_iff e).2 ⟨hgain, hbypass⟩
  simp [processBlock, hz]

/-- C7: built as a non-MIDI, non-synth effect, `isBusesLayoutSupported` is true exactly when
the main output set is mono or stereo and the main input set equals it; it accepts
(stereo, stereo) and (mono, mono) and rejects stereo in with mono out. -/
theorem isBusesLayoutSupported_iff (layouts : BusesLayout) :
    (isBusesLayoutSupported false false layouts = true ↔
      (layouts.mainOutput = AudioChannelSet.mono ∨ layouts.mainOutput = AudioChannelSet.stereo) ∧
        layouts.mainInput = layouts.mainOutput) ∧
    isBusesLayoutSupported false false ⟨AudioChannelSet.stereo, AudioChannelSet.stereo⟩ = true ∧
    isBusesLayoutSupported false false ⟨AudioChannelSet.mono, AudioChannelSet.mono⟩ = true ∧
    isBusesLayoutSupported false false ⟨AudioChannelSet.stereo, AudioChannelSet.mono⟩ = false := by
  refine ⟨?_, by decide, by decide, by decide⟩
  unfold isBusesLayoutSupported
  by_cases h12 : layouts.mainOutput ≠ AudioChannelSet.mono ∧
      layouts.mainOutput ≠ AudioChannelSet.stereo
  · have hnone : ¬ (layouts.mainOutput = AudioChannelSet.mono ∨
        layouts.mainOutput = AudioChannelSet.stereo) := fun h => h.elim h12.1 h12.2
    simp [h12, hnone]
  · have hsome : layouts.mainOutput = AudioChannelSet.mono ∨
        layouts.mainOutput = AudioChannelSet.stereo := by
      by_contra hcon
      exact h12 ⟨fun h => hcon (Or.inl h), fun h => hcon (Or.inr h)⟩
    by_cases h3 : layouts.mainOutput = layouts.mainInput
    · have h4 : ¬ (layouts.mainOutput ≠ layouts.mainInput) := fun h => h h3
      rw [if_neg (by simp), if_neg h12, if_neg (fun h => h.2 h3)]
      simp [hsome, h3.symm]
    · have h4 : ¬ (layouts.mainInput = layouts.mainOutput) := fun h => h3 h.symm
      have h5 : layouts.mainOutput ≠ layouts.mainInput := h3
      rw [if_neg (by simp), if_neg h12, if_pos ⟨rfl, h5⟩]
      simp [h4]

/-- The fast path leaves the freshly constructed processor as it is. -/
theorem processBlock_fast_path_state_witness :
    (processBlock Juce.sample (Engine.init : Engine Int Int Int) AudioBuffer.sample).1
      = Engine.init :=
  processBlock_fast_path_state Juce.sample Engine.init AudioBuffer.sample
    (by decide) (by decide)

/-- Assigning a float parameter its own value leaves it unchanged. -/
theorem assign_self (J : Juce α γ σ) (r : NormalisableRange α) (v : α) :
    AudioParameterFloat.assign J r v v = v := by
  simp [AudioParameterFloat.assign]

/-- A bool parameter holds the assigned value. -/
theorem assignBool_eq (value newValue : Bool) :
    AudioParameterBool.assign value newValue = newValue := by
  cases value <;> cases newValue <;> rfl

/-- The eight parameters after `setStateInformation` on a decoded tree. -/
theorem setStateInformation_params (J : Juce α γ σ) (state : ValueTree α) (e : Engine α γ σ) :
    (setStateInformation J (some state) e).lowGainParam =
      (if state.hasProperty LOW_GAIN_ID then
        AudioParameterFloat.assign J gainRange e.lowGainParam
          ((state.getProperty LOW_GAIN_ID).toFloat J)
      else e.lowGainParam) ∧
    (setStateInformation J (some state) e).lowMidGainParam =
      (if state.hasProperty LOWMID_GAIN_ID then
        AudioParameterFloat.assign J gainRange e.lowMidGainParam
          ((state.getProperty LOWMID_GAIN_ID).toFloat J)
      else e.lowMidGainParam) ∧
    (setStateInformation J (some state) e).midGainParam =
      (if state.hasProperty MID_GAIN_ID then
        AudioParameterFloat.assign J gainRange e.midGainParam
          ((state.getProperty MID_GAIN_ID).toFloat J)
      else e.midGainParam) ∧
    (setStateInformation J (some state) e).highGainParam =
      (if state.hasProperty HIGH_GAIN_ID then
        AudioParameterFloat.assign J gainRange e.highGainParam
          ((state.getProperty HIGH_GAIN_ID).toFloat J)
      else e.highGainParam) ∧
    (setStateInformation J (some state) e).lowBypassParam =
      (if state.hasProperty LOW_BYPASS_ID then (state.getProperty LOW_BYPASS_ID).toBool J
      else e.lowBypassParam) ∧
    (setStateInformation J (some state) e).lowMidBypassParam =
      (if state.hasProperty LOWMID_BYPASS_ID then (state.getProperty LOWMID_BYPASS_ID).toBool J
      else e.lowMidBypassParam) ∧
    (setStateInformation J (some state) e).midBypassParam =
      (if state.hasProperty MID_BYPASS_ID then (state.getProperty MID_BYPASS_ID).toBool J
      else e.midBypassParam) ∧
    (setStateInformation J (some state) e).highBypassParam =
      (if state.hasProperty HIGH_BYPASS_ID then (state.getProperty HIGH_BYPASS_ID).toBool J
      else e.highBypassParam) := by
  refine ⟨?_, ?_, ?_, ?_, ?_, ?_, ?_, ?_⟩
  · simp only [setStateInformation, restoreLowGain, restoreLowMidGain, restoreMidGain,
      restoreHighGain, restoreLowBypass, restoreLowMidBypass, restoreMidBypass,
      restoreHighBypass, apply_ite Engine.lowGainParam, ite_self]
  · simp only [setStateInformation, restoreLowGain, restoreLowMidGain, restoreMidGain,
      restoreHighGain, restoreLowBypass, restoreLowMidBypass, restoreMidBypass,
      restoreHighBypass, apply_ite Engine.lowMidGainParam, ite_self]
  · simp only [setStateInformation, restoreLowGain, restoreLowMidGain, restoreMidGain,
      restoreHighGain, restoreLowBypass, restoreLowMidBypass, restoreMidBypass,
      restoreHighBypass, apply_ite Engine.midGainParam, ite_self]
  · simp only [setStateInformation, restoreLowGain, restoreLowMidGain, restoreMidGain,
      restoreHighGain, restoreLowBypass, restoreLowMidBypass, restoreMidBypass,
      restoreHighBypass, apply_ite Engine.highGainParam, ite_self]
  · simp only [setStateInformation, restoreLowGain, restoreLowMidGain, restoreMidGain,
      restoreHighGain, restoreLowBypass, restoreLowMidBypass, restoreMidBypass,
      restoreHighBypass, apply_ite Engine.lowBypassParam, ite_self, assignBool_eq]
  · simp only [setStateInformation, restoreLowGain, restoreLowMidGain, restoreMidGain,
      restoreHighGain, restoreLowBypass, restoreLowMidBypass, restoreMidBypass,
      restoreHighBypass, apply_ite Engine.lowMidBypassParam, ite_self, assignBool_eq]
  · simp only [setStateInformation, restoreLowGain, restoreLowMidGain, restoreMidGain,
      restoreHighGain, restoreLowBypass, restoreLowMidBypass, restoreMidBypass,
      restoreHighBypass, apply_ite Engine.midBypassParam, ite_self, assignBool_eq]
  · simp only [setStateInformation, restoreLowGain, restoreLowMidGain, restoreMidGain,
      restoreHighGain, restoreLowBypass, restoreLowMidBypass, restoreMidBypass,
      restoreHighBypass, apply_ite Engine.highBypassParam, ite_self, assignBool_eq]

/-- A decoded tree whose present keys convert to the current parameter values is applied
without any change to the processor. -/
theorem setStateInformation_of_current (J : Juce α γ σ) (state : ValueTree α) (e : Engine α γ σ)
    (h1 : state.hasProperty LOW_GAIN_ID = true →
      (state.getProperty LOW_GAIN_ID).toFloat J = e.lowGainParam)
    (h2 : state.hasProperty LOWMID_GAIN_ID = true →
      (state.getProperty LOWMID_GAIN_ID).toFloat J = e.lowMidGainParam)
    (h3 : state.hasProperty MID_GAIN_ID = true →
      (state.getProperty MID_GAIN_ID).toFloat J = e.midGainParam)
    (h4 : state.hasProperty HIGH_GAIN_ID = true →
      (state.getProperty HIGH_GAIN_ID).toFloat J = e.highGainParam)
    (h5 : state.hasProperty LOW_BYPASS_ID = true →
      (state.getProperty LOW_BYPASS_ID).toBool J = e.lowBypassParam)
    (h6 : state.hasProperty LOWMID_BYPASS_ID = true →
      (state.getProperty LOWMID_BYPASS_ID).toBool J = e.lowMidBypassParam)
    (h7 : state.hasProperty MID_BYPASS_ID = true →
      (state.getProperty MID_BYPASS_ID).toBool J = e.midBypassParam)
    (h8 : state.hasProperty HIGH_BYPASS_ID = true →
      (state.getProperty HIGH_BYPASS_ID).toBool J = e.highBypassParam) :
    setStateInformation J (some state) e = e := by
  have s1 : restoreLowGain J state e = e := by
    unfold restoreLowGain; split
    · rename_i h; rw [h1 h, assign_self]
    · rfl
  have s2 : restoreLowMidGain J state e = e := by
    unfold restoreLowMidGain; split
    · rename_i h; rw [h2 h, assign_self]
    · rfl
  have s3 : restoreMidGain J state e = e := by
    unfold restoreMidGain; split
    · rename_i h; rw [h3 h, assign_self]
    · rfl
  have s4 : restoreHighGain J state e = e := by
    unfold restoreHighGain; split
    · rename_i h; rw [h4 h, assign_self]
    · rfl
  have s5 : restoreLowBypass J state e = e := by
    unfold restoreLowBypass; split
    · rename_i h; rw [h5 h, assignBool_eq]
    · rfl
  have s6 : restoreLowMidBypass J state e = e := by
    unfold restoreLowMidBypass; split
    · rename_i h; rw [h6 h, assignBool_eq]
    · rfl
  have s7 : restoreMidBypass J state e = e := by
    unfold restoreMidBypass; split
    · rename_i h; rw [h7 h, assignBool_eq]
    · rfl
  have s8 : restoreHighBypass J state e = e := by
    unfold restoreHighBypass; split
    · rename_i h; rw [h8 h, assignBool_eq]
    · rfl
  simp only [setStateInformation, s1, s2, s3, s4, s5, s6, s7, s8]

/-- The tree built by `getStateInformation`. -/
theorem stateTree_properties (e : Engine α γ σ) :
    (stateTree e).properties =
      [("low_gain", Var.number e.lowGainParam), ("lowmid_gain", Var.number e.lowMidGainParam),
        ("mid_gain", Var.number e.midGainParam), ("high_gain", Var.number e.highGainParam),
        ("low_bypass", Var.boolean e.lowBypassParam),
        ("lowmid_bypass", Var.boolean e.lowMidBypassParam),
        ("mid_bypass", Var.boolean e.midBypassParam),
        ("high_bypass", Var.boolean e.highBypassParam)] := by
  simp [stateTree, ValueTree.setProperty, ValueTree.hasProperty, List.lookup,
    LOW_GAIN_ID, LOWMID_GAIN_ID, MID_GAIN_ID, HIGH_GAIN_ID, LOW_BYPASS_ID, LOWMID_BYPASS_ID,
    MID_BYPASS_ID, HIGH_BYPASS_ID]

/-- The block that `getStateInformation` leaves is the written document cut or padded to the
size the block had at entry. -/
theorem getStateInformation_eq (codec : StateCodec α) (e : Engine α γ σ) (destData : List Nat) :
    getStateInformation codec e destData =
      (codec.copyXmlToBinary (stateTree e)).take destData.length ++
        List.replicate (destData.length - (codec.copyXmlToBinary (stateTree e)).length) 0 :=
  rfl

/-- C6, at the failing input: `getStateInformation` leaves the block at the size it had on
entry, whatever the processor holds.  Called on an empty block, as a host does, it leaves the
block empty: the document with the eight keys that `copyXmlToBinary` wrote is cut away when the
stream declared in the first statement is destroyed, the block is the same for every processor
state, and `setStateInformation` on it is `setStateInformation` on no data at all. -/
theorem getStateInformation_keeps_entry_size (J : Juce α γ σ) (codec : StateCodec α)
    (e : Engine α γ σ) :
    (∀ destData : List Nat, (getStateInformation codec e destData).length = destData.length) ∧
    getStateInformation codec e [] = [] ∧
    (∀ other : Engine α γ σ, getStateInformation codec other [] = getStateInformation codec e []) ∧
    ∀ restored : Engine α γ σ,
      setStateInformation J (codec.getXmlFromBinary (getStateInformation codec e [])) restored =
        setStateInformation J (codec.getXmlFromBinary []) restored := by
  have hempty : ∀ st : Engine α γ σ, getStateInformation codec st [] = [] := by
    intro st
    simp [getStateInformation, MemoryBlock.setSize, vectorResize]
  refine ⟨fun destData => ?_, hempty e, fun other => ?_, fun restored => ?_⟩
  · simp only [getStateInformation, MemoryBlock.setSize, vectorResize, List.length_append,
      List.length_take, List.length_replicate]
    omega
  · rw [hempty other, hempty e]
  · rw [hempty e]

/-- C5, amended: when the data does not decode to a document, `setStateInformation` returns
the processor unchanged, all eight parameters included.  A decoded document is applied
without any validation: each key that is present is assigned the value its property converts
to, whatever the property holds, and only the keys that are absent keep their prior value. -/
theorem setStateInformation_absent_or_decoded (J : Juce α γ σ) (e : Engine α γ σ) :
    setStateInformation J none e = e ∧
    ∀ state : ValueTree α,
      (setStateInformation J (some state) e).lowGainParam =
        (if state.hasProperty LOW_GAIN_ID then
          AudioParameterFloat.assign J gainRange e.lowGainParam
            ((state.getProperty LOW_GAIN_ID).toFloat J)
        else e.lowGainParam) ∧
      (setStateInformation J (some state) e).lowMidGainParam =
        (if state.hasProperty LOWMID_GAIN_ID then
          AudioParameterFloat.assign J gainRange e.lowMidGainParam
            ((state.getProperty LOWMID_GAIN_ID).toFloat J)
        else e.lowMidGainParam) ∧
      (setStateInformation J (some state) e).midGainParam =
        (if state.hasProperty MID_GAIN_ID then
          AudioParameterFloat.assign J gainRange e.midGainParam
            ((state.getProperty MID_GAIN_ID).toFloat J)
        else e.midGainParam) ∧
      (setStateInformation J (some state) e).highGainParam =
        (if state.hasProperty HIGH_GAIN_ID then
          AudioParameterFloat.assign J gainRange e.highGainParam
            ((state.getProperty HIGH_GAIN_ID).toFloat J)
        else e.highGainParam) ∧
      (setStateInformation J (some state) e).lowBypassParam =
        (if state.hasProperty LOW_BYPASS_ID then (state.getProperty LOW_BYPASS_ID).toBool J
        else e.lowBypassParam) ∧
      (setStateInformation J (some state) e).lowMidBypassParam =
        (if state.hasProperty LOWMID_BYPASS_ID then (state.getProperty LOWMID_BYPASS_ID).toBool J
        else e.lowMidBypassParam) ∧
      (setStateInformation J (some state) e).midBypassParam =
        (if state.hasProperty MID_BYPASS_ID then (state.getProperty MID_BYPASS_ID).toBool J
        else e.midBypassParam) ∧
      (setStateInformation J (some state) e).highBypassParam =
        (if state.hasProperty HIGH_BYPASS_ID then (state.getProperty HIGH_BYPASS_ID).toBool J
        else e.highBypassParam) :=
  ⟨rfl, fun state => setStateInformation_params J state e⟩

/-- The statics always hold the six coefficient sets of one sample rate: the rate they
record, or 44100 Hz while they still record the initial 0. -/
theorem reachable_cache_design (J : Juce α γ σ) (cache : CoefficientCache α γ)
    (h : CoefficientCache.Reachable J cache) :
    ∃ rate : α, cache = CoefficientCache.design J cache.lastSampleRate rate ∧
      (cache.lastSampleRate ≠ 0 → rate = cache.lastSampleRate) := by
  induction h with
  | init => exact ⟨44100, rfl, fun h => absurd rfl h⟩
  | update cache e _ ih =>
    obtain ⟨rate, hd, hr⟩ := ih
    unfold updateFilters
    by_cases hne : e.processSpec.sampleRate ≠ cache.lastSampleRate
    · simp only [if_pos hne]
      exact ⟨e.processSpec.sampleRate, rfl, fun _ => rfl⟩
    · simp only [if_neg hne]
      exact ⟨rate, hd, hr⟩

/-- After `updateFilters` the statics record the current sample rate. -/
theorem updateFilters_lastSampleRate (J : Juce α γ σ) (cache : CoefficientCache α γ)
    (e : Engine α γ σ) :
    (updateFilters J cache e).1.lastSampleRate = e.processSpec.sampleRate := by
  unfold updateFilters
  by_cases hne : e.processSpec.sampleRate ≠ cache.lastSampleRate
  · simp only [if_pos hne]; rfl
  · simp only [if_neg hne]; exact (not_not.mp hne).symm

/-- C8: with the statics in a state they can reach, after `updateFilters` every chain of the
Low band holds (low-pass 200 Hz, low-pass 200 Hz), of the Low-Mid band (high-pass 200 Hz,
low-pass 750 Hz), of the Mid band (high-pass 750 Hz, low-pass 3000 Hz) and of the High band
(high-pass 3000 Hz, high-pass 3000 Hz), all designed for one sample rate (the current one when
it is not 0), so the channels of a band hold equal coefficients; no chain is added or removed. -/
theorem updateFilters_band_sections (J : Juce α γ σ) (cache : CoefficientCache α γ)
    (e : Engine α γ σ) (h : CoefficientCache.Reachable J cache) :
    ∃ rate : α, (e.processSpec.sampleRate ≠ 0 → rate = e.processSpec.sampleRate) ∧
      (updateFilters J cache e).2.lowPassFilters.length = e.lowPassFilters.length ∧
      (updateFilters J cache e).2.lowMidFilters.length = e.lowMidFilters.length ∧
      (updateFilters J cache e).2.midFilters.length = e.midFilters.length ∧
      (updateFilters J cache e).2.highPassFilters.length = e.highPassFilters.length ∧
      (∀ chain ∈ (updateFilters J cache e).2.lowPassFilters,
        chain.first.coefficients = J.makeLowPass rate 200 ∧
        chain.second.coefficients = J.makeLowPass rate 200) ∧
      (∀ chain ∈ (updateFilters J cache e).2.lowMidFilters,
        chain.first.coefficients = J.makeHighPass rate 200 ∧
        chain.second.coefficients = J.makeLowPass rate 750) ∧
      (∀ chain ∈ (updateFilters J cache e).2.midFilters,
        chain.first.coefficients = J.makeHighPass rate 750 ∧
        chain.second.coefficients = J.makeLowPass rate 3000) ∧
      (∀ chain ∈ (updateFilters J cache e).2.highPassFilters,
        chain.first.coefficients = J.makeHighPass rate 3000 ∧
        chain.second.coefficients = J.makeHighPass rate 3000) := by
  obtain ⟨rate, hd, hr⟩ := reachable_cache_design J _
    (CoefficientCache.Reachable.update cache e h)
  refine ⟨rate, ?_, ?_, ?_, ?_, ?_, ?_, ?_, ?_, ?_⟩
  · intro hsr
    rw [updateFilters_lastSampleRate] at hr
    exact hr hsr
  · simp [updateFilters]
  · simp [updateFilters]
  · simp [updateFilters]
  · simp [updateFilters]
  · intro chain hmem
    have hc : (updateFilters J cache e).1.cachedLowPassCoeff = J.makeLowPass rate 200 := by
      rw [hd]; rfl
    simp only [updateFilters, List.mem_map] at hmem hc
    obtain ⟨c0, _, rfl⟩ := hmem
    exact ⟨hc, hc⟩
  · intro chain hmem
    have hc1 : (updateFilters J cache e).1.cachedLowMidHighPassCoeff = J.makeHighPass rate 200 := by
      rw [hd]; rfl
    have hc2 : (updateFilters J cache e).1.cachedLowMidLowPassCoeff = J.makeLowPass rate 750 := by
      rw [hd]; rfl
    simp only [updateFilters, List.mem_map] at hmem hc1 hc2
    obtain ⟨c0, _, rfl⟩ := hmem
    exact ⟨hc1, hc2⟩
  · intro chain hmem
    have hc1 : (updateFilters J cache e).1.cachedMidHighPassCoeff = J.makeHighPass rate 750 := by
      rw [hd]; rfl
    have hc2 : (updateFilters J cache e).1.cachedMidLowPassCoeff = J.makeLowPass rate 3000 := by
      rw [hd]; rfl
    simp only [updateFilters, List.mem_map] at hmem hc1 hc2
    obtain ⟨c0, _, rfl⟩ := hmem
    exact ⟨hc1, hc2⟩
  · intro chain hmem
    have hc : (updateFilters J cache e).1.cachedHighPassCoeff = J.makeHighPass rate 3000 := by
      rw [hd]; rfl
    simp only [updateFilters, List.mem_map] at hmem hc
    obtain ⟨c0, _, rfl⟩ := hmem
    exact ⟨hc, hc⟩

/-- The band sections after `updateFilters` on two freshly prepared stereo chains. -/
theorem updateFilters_band_sections_witness :
    ∃ rate : Int,
      ((prepareFilters Juce.sample (Engine.init : Engine Int Int Int) 2).processSpec.sampleRate ≠ 0 →
        rate = (prepareFilters Juce.sample (Engine.init : Engine Int Int Int) 2).processSpec.sampleRate) ∧
      (updateFilters Juce.sample (CoefficientCache.init Juce.sample)
        (prepareFilters Juce.sample (Engine.init : Engine Int Int Int) 2)).2.lowPassFilters.length =
        (prepareFilters Juce.sample (Engine.init : Engine Int Int Int) 2).lowPassFilters.length ∧
      (∀ chain ∈ (updateFilters Juce.sample (CoefficientCache.init Juce.sample)
          (prepareFilters Juce.sample (Engine.init : Engine Int Int Int) 2)).2.lowMidFilters,
        chain.first.coefficients = Juce.sample.makeHighPass rate 200 ∧
        chain.second.coefficients = Juce.sample.makeLowPass rate 750) := by
  obtain ⟨rate, h1, h2, _, _, _, _, h7, _, _⟩ :=
    updateFilters_band_sections Juce.sample (CoefficientCache.init Juce.sample)
      (prepareFilters Juce.sample (Engine.init : Engine Int Int Int) 2)
      CoefficientCache.Reachable.init
  exact ⟨rate, h1, h2, h7⟩

/-- Writing `v` at every index below `k` of a list. -/
theorem foldl_set_fill {β : Type} (v : β) (k : Nat) (l : List β) (hk : k ≤ l.length) :
    (List.range k).foldl (fun (acc : List β) c => acc.set c v) l =
      List.replicate k v ++ l.drop k := by
  induction k with
  | zero => simp
  | succ k ih =>
    have hk1 : k < l.length := hk
    rw [List.range_succ, List.foldl_append, ih (Nat.le_of_lt hk1)]
    simp only [List.foldl_cons, List.foldl_nil]
    apply List.ext_getElem
    · simp; omega
    · intro i h1 h2
      simp only [List.getElem_set, List.getElem_append, List.length_replicate,
        List.getElem_replicate, List.getElem_drop]
      by_cases hik : k = i
      · subst hik; simp
      · simp only [hik, if_false]
        by_cases hlt : i < k
        · have : i < k + 1 := by omega
          simp [hlt, this]
        · have h3 : ¬ i < k + 1 := by omega
          simp only [hlt, h3, dite_false]
          congr 1; omega

/-- The length of a resized vector. -/
theorem vectorResize_length {β : Type} (v : List β) (n : Nat) (d : β) :
    (vectorResize v n d).length = n := by
  simp [vectorResize]; omega

/-- Resizing to `n` and then writing `v` at every index below `n`. -/
theorem foldl_set_vectorResize {β : Type} (l : List β) (n : Nat) (d v : β) :
    (List.range n).foldl (fun (acc : List β) c => acc.set c v) (vectorResize l n d) =
      List.replicate n v := by
  rw [foldl_set_fill v n _ (by rw [vectorResize_length])]
  have : (vectorResize l n d).drop n = [] := by
    apply List.drop_eq_nil_of_le; rw [vectorResize_length]
  rw [this, List.append_nil]

/-- `prepareFilters` leaves `numChannels` freshly created and prepared chains in every band
and nothing else changed. -/
theorem prepareFilters_eq (J : Juce α γ σ) (e : Engine α γ σ) (numChannels : Nat) :
    prepareFilters J e numChannels =
      { e with
        lowPassFilters := List.replicate numChannels ((ProcessorChain.init J).prepare J)
        lowMidFilters := List.replicate numChannels ((ProcessorChain.init J).prepare J)
        midFilters := List.replicate numChannels ((ProcessorChain.init J).prepare J)
        highPassFilters := List.replicate numChannels ((ProcessorChain.init J).prepare J) } := by
  unfold prepareFilters
  induction numChannels with
  | zero => rfl
  | succ k ih =>
    rw [List.range_succ, List.foldl_append, ih]
    have hset : ∀ (a b : ProcessorChain γ σ),
        (List.replicate k a ++ [b]).set k ((((List.replicate k a ++ [b]).getD k b)).prepare J)
          = List.replicate k a ++ [b.prepare J] := by
      intro a b
      have hlen : (List.replicate k a).length = k := List.length_replicate _ _
      have hget : (List.replicate k a ++ [b]).getD k b = b := by
        simp [List.getD_eq_getElem?_getD, List.getElem?_append_right, hlen]
      rw [hget]
      conv_lhs => rw [show k = (List.replicate k a).length from hlen.symm]
      simp [List.set_append_right]
    simp only [List.foldl_cons, List.foldl_nil, hset, List.replicate_succ']

/-- The smoothers, curves and DC blocker state that `prepareToPlay` leaves. -/
theorem prepareToPlay_controls (J : Juce α γ σ) (cache : CoefficientCache α γ)
    (e : Engine α γ σ) (sampleRate : α) (samplesPerBlock : Nat) :
    ((prepareToPlay J cache e sampleRate samplesPerBlock).2.smoothedLowGain.SettledAt
        e.lowGainParam ∧
      (prepareToPlay J cache e sampleRate samplesPerBlock).2.smoothedLowMidGain.SettledAt
        e.lowMidGainParam ∧
      (prepareToPlay J cache e sampleRate samplesPerBlock).2.smoothedMidGain.SettledAt
        e.midGainParam ∧
      (prepareToPlay J cache e sampleRate samplesPerBlock).2.smoothedHighGain.SettledAt
        e.highGainParam) ∧
    ((prepareToPlay J cache e sampleRate samplesPerBlock).2.smoothedLowBypass.SettledAt
        (if e.lowBypassParam then 0 else 1) ∧
      (prepareToPlay J cache e sampleRate samplesPerBlock).2.smoothedLowMidBypass.SettledAt
        (if e.lowMidBypassParam then 0 else 1) ∧
      (prepareToPlay J cache e sampleRate samplesPerBlock).2.smoothedMidBypass.SettledAt
        (if e.midBypassParam then 0 else 1) ∧
      (prepareToPlay J cache e sampleRate samplesPerBlock).2.smoothedHighBypass.SettledAt
        (if e.highBypassParam then 0 else 1)) ∧
    ((prepareToPlay J cache e sampleRate samplesPerBlock).2.dcPrevXLow =
        List.replicate e.getTotalNumOutputChannels 0 ∧
      (prepareToPlay J cache e sampleRate samplesPerBlock).2.dcPrevYLow =
        List.replicate e.getTotalNumOutputChannels 0) ∧
    ((prepareToPlay J cache e sampleRate samplesPerBlock).2.lowGainCurve =
        List.replicate samplesPerBlock 1 ∧
      (prepareToPlay J cache e sampleRate samplesPerBlock).2.lowMidGainCurve =
        List.replicate samplesPerBlock 1 ∧
      (prepareToPlay J cache e sampleRate samplesPerBlock).2.midGainCurve =
        List.replicate samplesPerBlock 1 ∧
      (prepareToPlay J cache e sampleRate samplesPerBlock).2.highGainCurve =
        List.replicate samplesPerBlock 1 ∧
      (prepareToPlay J cache e sampleRate samplesPerBlock).2.lowBypassCurve =
        List.replicate samplesPerBlock 1 ∧
      (prepareToPlay J cache e sampleRate samplesPerBlock).2.lowMidBypassCurve =
        List.replicate samplesPerBlock 1 ∧
      (prepareToPlay J cache e sampleRate samplesPerBlock).2.midBypassCurve =
        List.replicate samplesPerBlock 1 ∧
      (prepareToPlay J cache e sampleRate samplesPerBlock).2.highBypassCurve =
        List.replicate samplesPerBlock 1) := by
  refine ⟨⟨?_, ?_, ?_, ?_⟩, ⟨?_, ?_, ?_, ?_⟩, ⟨?_, ?_⟩, ?_, ?_, ?_, ?_, ?_, ?_, ?_, ?_⟩ <;>
    (simp only [prepareToPlay, prepareFilters_eq, updateFilters, SmoothedValue.SettledAt]
     try first | rfl | exact ⟨rfl, rfl, rfl⟩)

/-- The filter chains that `prepareToPlay` leaves, in terms of the statics after the call. -/
theorem prepareToPlay_filters (J : Juce α γ σ) (cache : CoefficientCache α γ)
    (e : Engine α γ σ) (sampleRate : α) (samplesPerBlock : Nat) :
    (prepareToPlay J cache e sampleRate samplesPerBlock).2.lowPassFilters =
      List.replicate e.getTotalNumOutputChannels
        ⟨⟨(prepareToPlay J cache e sampleRate samplesPerBlock).1.cachedLowPassCoeff, J.silent⟩,
          ⟨(prepareToPlay J cache e sampleRate samplesPerBlock).1.cachedLowPassCoeff, J.silent⟩⟩ ∧
    (prepareToPlay J cache e sampleRate samplesPerBlock).2.lowMidFilters =
      List.replicate e.getTotalNumOutputChannels
        ⟨⟨(prepareToPlay J cache e sampleRate samplesPerBlock).1.cachedLowMidHighPassCoeff, J.silent⟩,
          ⟨(prepareToPlay J cache e sampleRate samplesPerBlock).1.cachedLowMidLowPassCoeff, J.silent⟩⟩ ∧
    (prepareToPlay J cache e sampleRate samplesPerBlock).2.midFilters =
      List.replicate e.getTotalNumOutputChannels
        ⟨⟨(prepareToPlay J cache e sampleRate samplesPerBlock).1.cachedMidHighPassCoeff, J.silent⟩,
          ⟨(prepareToPlay J cache e sampleRate samplesPerBlock).1.cachedMidLowPassCoeff, J.silent⟩⟩ ∧
    (prepareToPlay J cache e sampleRate samplesPerBlock).2.highPassFilters =
      List.replicate e.getTotalNumOutputChannels
        ⟨⟨(prepareToPlay J cache e sampleRate samplesPerBlock).1.cachedHighPassCoeff, J.silent⟩,
          ⟨(prepareToPlay J cache e sampleRate samplesPerBlock).1.cachedHighPassCoeff, J.silent⟩⟩ := by
  simp only [prepareToPlay, prepareFilters_eq, updateFilters, List.map_replicate]
  exact ⟨rfl, rfl, rfl, rfl⟩

/-- With reachable statics and a sample rate other than 0, `updateFilters` leaves the statics
holding the coefficient sets of the current sample rate. -/
theorem updateFilters_cache_of_reachable (J : Juce α γ σ) (cache : CoefficientCache α γ)
    (e : Engine α γ σ) (h : CoefficientCache.Reachable J cache)
    (hrate : e.processSpec.sampleRate ≠ 0) :
    (updateFilters J cache e).1 =
      CoefficientCache.design J e.processSpec.sampleRate e.processSpec.sampleRate := by
  obtain ⟨rate, hd, hr⟩ := reachable_cache_design J _
    (CoefficientCache.Reachable.update cache e h)
  rw [updateFilters_lastSampleRate] at hd hr
  rw [hd, hr hrate]

/-- The statics after `prepareToPlay` with reachable statics and a sample rate other than 0. -/
theorem prepareToPlay_cache (J : Juce α γ σ) (cache : CoefficientCache α γ)
    (e : Engine α γ σ) (sampleRate : α) (samplesPerBlock : Nat)
    (h : CoefficientCache.Reachable J cache) (hrate : sampleRate ≠ 0) :
    (prepareToPlay J cache e sampleRate samplesPerBlock).1 =
      CoefficientCache.design J sampleRate sampleRate := by
  have := updateFilters_cache_of_reachable J cache
    (prepareFilters J
      { e with
        processSpec :=
          { sampleRate := sampleRate
            maximumBlockSize := samplesPerBlock
            numChannels := e.getTotalNumOutputChannels } }
      e.getTotalNumOutputChannels) h (by rw [prepareFilters_eq]; exact hrate)
  rw [prepareFilters_eq] at this
  simp only [prepareToPlay, prepareFilters_eq]
  exact this

/-- The DSP state after `prepareToPlay` is determined by the parameters, the channel count
and the arguments. -/
theorem prepareToPlay_dspState_congr (J : Juce α γ σ) (c1 c2 : CoefficientCache α γ)
    (e1 e2 : Engine α γ σ) (sampleRate : α) (samplesPerBlock : Nat)
    (hc1 : CoefficientCache.Reachable J c1) (hc2 : CoefficientCache.Reachable J c2)
    (hrate : sampleRate ≠ 0)
    (hgain : e1.lowGainParam = e2.lowGainParam ∧ e1.lowMidGainParam = e2.lowMidGainParam ∧
      e1.midGainParam = e2.midGainParam ∧ e1.highGainParam = e2.highGainParam)
    (hbypass : e1.lowBypassParam = e2.lowBypassParam ∧
      e1.lowMidBypassParam = e2.lowMidBypassParam ∧ e1.midBypassParam = e2.midBypassParam ∧
      e1.highBypassParam = e2.highBypassParam)
    (hch : e1.getTotalNumOutputChannels = e2.getTotalNumOutputChannels) :
    (prepareToPlay J c1 e1 sampleRate samplesPerBlock).2.dspState =
      (prepareToPlay J c2 e2 sampleRate samplesPerBlock).2.dspState := by
  obtain ⟨f1, f2, f3, f4⟩ := prepareToPlay_filters J c1 e1 sampleRate samplesPerBlock
  obtain ⟨g1, g2, g3, g4⟩ := prepareToPlay_filters J c2 e2 sampleRate samplesPerBlock
  rw [prepareToPlay_cache J c1 e1 sampleRate samplesPerBlock hc1 hrate] at f1 f2 f3 f4
  rw [prepareToPlay_cache J c2 e2 sampleRate samplesPerBlock hc2 hrate] at g1 g2 g3 g4
  obtain ⟨p1, p2, p3, p4⟩ := hgain
  obtain ⟨b1, b2, b3, b4⟩ := hbypass
  unfold Engine.dspState
  rw [f1, f2, f3, f4, g1, g2, g3, g4, hch]
  simp only [prepareToPlay, prepareFilters_eq, updateFilters, foldl_set_vectorResize,
    SmoothedValue.ramp, SmoothedValue.reset, SmoothedValue.resetSteps,
    SmoothedValue.setCurrentAndTargetValue, lt_irrefl, if_false]
  simp only [Engine.getTotalNumOutputChannels] at hch
  simp only [Engine.getTotalNumOutputChannels, p1, p2, p3, p4, b1, b2, b3, b4, hch]

/-- The statics stay reachable across `prepareToPlay`. -/
theorem prepareToPlay_reachable (J : Juce α γ σ) (cache : CoefficientCache α γ)
    (e : Engine α γ σ) (sampleRate : α) (samplesPerBlock : Nat)
    (h : CoefficientCache.Reachable J cache) :
    CoefficientCache.Reachable J (prepareToPlay J cache e sampleRate samplesPerBlock).1 :=
  CoefficientCache.Reachable.update cache _ h

/-- C9: `prepareToPlay` resets the engine.  For two processors that agree on the eight
parameters and the channel count, with the statics in states they can reach and a sample rate
other than 0, the DSP state after `prepareToPlay (sampleRate, samplesPerBlock)` is the same
whatever either processed before.  In that state each gain smoother rests at its gain
parameter, each bypass smoother rests at 0 when bypassed and at 1 otherwise, every band has
one freshly created chain per channel with silent delay state, the DC blocker's previous x and
previous y are 0 for every channel, and the eight curves are `samplesPerBlock` ones. -/
theorem prepareToPlay_full_reset (J : Juce α γ σ) (c1 c2 : CoefficientCache α γ)
    (e1 e2 : Engine α γ σ) (sampleRate : α) (samplesPerBlock : Nat)
    (hc1 : CoefficientCache.Reachable J c1) (hc2 : CoefficientCache.Reachable J c2)
    (hrate : sampleRate ≠ 0)
    (hgain : e1.lowGainParam = e2.lowGainParam ∧ e1.lowMidGainParam = e2.lowMidGainParam ∧
      e1.midGainParam = e2.midGainParam ∧ e1.highGainParam = e2.highGainParam)
    (hbypass : e1.lowBypassParam = e2.lowBypassParam ∧
      e1.lowMidBypassParam = e2.lowMidBypassParam ∧ e1.midBypassParam = e2.midBypassParam ∧
      e1.highBypassParam = e2.highBypassParam)
    (hch : e1.getTotalNumOutputChannels = e2.getTotalNumOutputChannels) :
    (prepareToPlay J c1 e1 sampleRate samplesPerBlock).2.dspState =
      (prepareToPlay J c2 e2 sampleRate samplesPerBlock).2.dspState ∧
    ((prepareToPlay J c1 e1 sampleRate samplesPerBlock).2.smoothedLowGain.SettledAt
        e1.lowGainParam ∧
      (prepareToPlay J c1 e1 sampleRate samplesPerBlock).2.smoothedLowMidGain.SettledAt
        e1.lowMidGainParam ∧
      (prepareToPlay J c1 e1 sampleRate samplesPerBlock).2.smoothedMidGain.SettledAt
        e1.midGainParam ∧
      (prepareToPlay J c1 e1 sampleRate samplesPerBlock).2.smoothedHighGain.SettledAt
        e1.highGainParam) ∧
    ((prepareToPlay J c1 e1 sampleRate samplesPerBlock).2.smoothedLowBypass.SettledAt
        (if e1.lowBypassParam then 0 else 1) ∧
      (prepareToPlay J c1 e1 sampleRate samplesPerBlock).2.smoothedLowMidBypass.SettledAt
        (if e1.lowMidBypassParam then 0 else 1) ∧
      (prepareToPlay J c1 e1 sampleRate samplesPerBlock).2.smoothedMidBypass.SettledAt
        (if e1.midBypassParam then 0 else 1) ∧
      (prepareToPlay J c1 e1 sampleRate samplesPerBlock).2.smoothedHighBypass.SettledAt
        (if e1.highBypassParam then 0 else 1)) ∧
    (((prepareToPlay J c1 e1 sampleRate samplesPerBlock).2.lowPassFilters.length =
          e1.getTotalNumOutputChannels ∧
        ∀ chain ∈ (prepareToPlay J c1 e1 sampleRate samplesPerBlock).2.lowPassFilters,
          chain.Silent J) ∧
      ((prepareToPlay J c1 e1 sampleRate samplesPerBlock).2.lowMidFilters.length =
          e1.getTotalNumOutputChannels ∧
        ∀ chain ∈ (prepareToPlay J c1 e1 sampleRate samplesPerBlock).2.lowMidFilters,
          chain.Silent J) ∧
      ((prepareToPlay J c1 e1 sampleRate samplesPerBlock).2.midFilters.length =
          e1.getTotalNumOutputChannels ∧
        ∀ chain ∈ (prepareToPlay J c1 e1 sampleRate samplesPerBlock).2.midFilters,
          chain.Silent J) ∧
      ((prepareToPlay J c1 e1 sampleRate samplesPerBlock).2.highPassFilters.length =
          e1.getTotalNumOutputChannels ∧
        ∀ chain ∈ (prepareToPlay J c1 e1 sampleRate samplesPerBlock).2.highPassFilters,
          chain.Silent J)) ∧
    ((prepareToPlay J c1 e1 sampleRate samplesPerBlock).2.dcPrevXLow =
        List.replicate e1.getTotalNumOutputChannels 0 ∧
      (prepareToPlay J c1 e1 sampleRate samplesPerBlock).2.dcPrevYLow =
        List.replicate e1.getTotalNumOutputChannels 0) ∧
    ((prepareToPlay J c1 e1 sampleRate samplesPerBlock).2.lowGainCurve =
        List.replicate samplesPerBlock 1 ∧
      (prepareToPlay J c1 e1 sampleRate samplesPerBlock).2.lowMidGainCurve =
        List.replicate samplesPerBlock 1 ∧
      (prepareToPlay J c1 e1 sampleRate samplesPerBlock).2.midGainCurve =
        List.replicate samplesPerBlock 1 ∧
      (prepareToPlay J c1 e1 sampleRate samplesPerBlock).2.highGainCurve =
        List.replicate samplesPerBlock 1 ∧
      (prepareToPlay J c1 e1 sampleRate samplesPerBlock).2.lowBypassCurve =
        List.replicate samplesPerBlock 1 ∧
      (prepareToPlay J c1 e1 sampleRate samplesPerBlock).2.lowMidBypassCurve =
        List.replicate samplesPerBlock 1 ∧
      (prepareToPlay J c1 e1 sampleRate samplesPerBlock).2.midBypassCurve =
        List.replicate samplesPerBlock 1 ∧
      (prepareToPlay J c1 e1 sampleRate samplesPerBlock).2.highBypassCurve =
        List.replicate samplesPerBlock 1) := by
  obtain ⟨hg, hb, hdc, hcurves⟩ := prepareToPlay_controls J c1 e1 sampleRate samplesPerBlock
  obtain ⟨f1, f2, f3, f4⟩ := prepareToPlay_filters J c1 e1 sampleRate samplesPerBlock
  refine ⟨prepareToPlay_dspState_congr J c1 c2 e1 e2 sampleRate samplesPerBlock hc1 hc2 hrate
    hgain hbypass hch, hg, hb, ⟨⟨?_, ?_⟩, ⟨?_, ?_⟩, ⟨?_, ?_⟩, ⟨?_, ?_⟩⟩, hdc, hcurves⟩
  · rw [f1, List.length_replicate]
  · intro chain hmem
    rw [f1] at hmem
    rw [List.eq_of_mem_replicate hmem]
    exact ⟨rfl, rfl⟩
  · rw [f2, List.length_replicate]
  · intro chain hmem
    rw [f2] at hmem
    rw [List.eq_of_mem_replicate hmem]
    exact ⟨rfl, rfl⟩
  · rw [f3, List.length_replicate]
  · intro chain hmem
    rw [f3] at hmem
    rw [List.eq_of_mem_replicate hmem]
    exact ⟨rfl, rfl⟩
  · rw [f4, List.length_replicate]
  · intro chain hmem
    rw [f4] at hmem
    rw [List.eq_of_mem_replicate hmem]
    exact ⟨rfl, rfl⟩

/-- A fresh processor and one that has already played, prepared at 48000 Hz with blocks of 8. -/
theorem prepareToPlay_full_reset_witness :
    (prepareToPlay Juce.sample (CoefficientCache.init Juce.sample) Engine.sampleBoosted
        48000 8).2.dspState =
      (prepareToPlay Juce.sample CoefficientCache.samplePlayed Engine.samplePlayed
        48000 8).2.dspState ∧
    (prepareToPlay Juce.sample (CoefficientCache.init Juce.sample) Engine.sampleBoosted
        48000 8).2.smoothedLowGain.SettledAt 3 :=
  have h := prepareToPlay_full_reset Juce.sample (CoefficientCache.init Juce.sample)
    CoefficientCache.samplePlayed Engine.sampleBoosted Engine.samplePlayed 48000 8
    CoefficientCache.Reachable.init
    (prepareToPlay_reachable Juce.sample _ Engine.sampleBoosted 44100 4
      CoefficientCache.Reachable.init)
    (by decide) (by decide) (by decide) (by decide)
  ⟨h.1, h.2.1.1⟩

/-- The DC blocker writes one sample per input sample. -/
theorem dcBlocker_length (r prevX prevY : α) (xs : List α) :
    (dcBlocker r prevX prevY xs).1.length = xs.length := by
  induction xs generalizing prevX prevY with
  | nil => rfl
  | cons x xs ih => simp [dcBlocker, ih]

/-- The first output sample of the DC blocker. -/
theorem dcBlocker_getD_zero (r prevX prevY x : α) (xs : List α) :
    (dcBlocker r prevX prevY (x :: xs)).1.getD 0 0 = x - prevX + r * prevY := by
  simp [dcBlocker]

/-- The difference equation of the DC blocker at every sample. -/
theorem dcBlocker_recurrence (r prevX prevY : α) (xs : List α) (n : Nat) (hn : n < xs.length) :
    (dcBlocker r prevX prevY xs).1.getD n 0 =
      xs.getD n 0 - (if n = 0 then prevX else xs.getD (n - 1) 0) +
        r * (if n = 0 then prevY else (dcBlocker r prevX prevY xs).1.getD (n - 1) 0) := by
  induction xs generalizing prevX prevY n with
  | nil => simp at hn
  | cons x xs ih =>
    cases n with
    | zero => simp [dcBlocker]
    | succ m =>
      have hm : m < xs.length := by simpa using hn
      have h := ih x (x - prevX + r * prevY) m hm
      simp only [dcBlocker, List.getD_cons_succ, Nat.succ_ne_zero, if_false, Nat.add_sub_cancel]
      rw [h]
      cases m with
      | zero => simp
      | succ j => simp

/-- The last element of a non-empty list does not depend on the default. -/
theorem getLast?_getD_cons {β : Type} (a b y : β) (ys : List β) :
    (y :: ys).getLast?.getD a = (y :: ys).getLast?.getD b := by
  rw [List.getLast?_eq_getLast _ (List.cons_ne_nil _ _)]; rfl

/-- The state the DC blocker ends with: the last input and the last output. -/
theorem dcBlocker_final (r prevX prevY : α) (xs : List α) :
    (dcBlocker r prevX prevY xs).2.1 = xs.getLast?.getD prevX ∧
    (dcBlocker r prevX prevY xs).2.2 = (dcBlocker r prevX prevY xs).1.getLast?.getD prevY := by
  induction xs generalizing prevX prevY with
  | nil => simp [dcBlocker]
  | cons x xs ih =>
    obtain ⟨h1, h2⟩ := ih x (x - prevX + r * prevY)
    simp only [dcBlocker]
    constructor
    · rw [h1]
      cases xs with
      | nil => simp
      | cons y ys => simp only [List.getLast?_cons_cons]; exact getLast?_getD_cons _ _ _ _
    · rw [h2]
      cases xs with
      | nil => simp [dcBlocker]
      | cons y ys => simp only [dcBlocker, List.getLast?_cons_cons]; exact getLast?_getD_cons _ _ _ _

/-- The mixer loop keeps the length of the channel. -/
theorem mixLoop_length (e : Engine α γ σ) (lowData lowMidData midData highData : List α)
    (n : Nat) (channelData : List α) :
    (mixLoop e lowData lowMidData midData highData n channelData).length = channelData.length := by
  unfold mixLoop
  induction n with
  | zero => rfl
  | succ k ih => rw [List.range_succ, List.foldl_append]; simp [ih]

/-- The mixer loop writes `mixSample` at every index below `numSamples`. -/
theorem mixLoop_getD (e : Engine α γ σ) (lowData lowMidData midData highData : List α)
    (n : Nat) (channelData : List α) (i : Nat) (hi : i < n) (hlen : i < channelData.length) :
    (mixLoop e lowData lowMidData midData highData n channelData).getD i 0 =
      mixSample e lowData lowMidData midData highData i := by
  induction n with
  | zero => omega
  | succ k ih =>
    have hl := mixLoop_length e lowData lowMidData midData highData k channelData
    unfold mixLoop at ih hl ⊢
    rw [List.range_succ, List.foldl_append]
    simp only [List.foldl_cons, List.foldl_nil]
    by_cases hik : i = k
    · subst hik
      rw [List.getD_eq_getElem?_getD, List.getElem?_set_self (by rw [hl]; exact hlen)]; rfl
    · rw [List.getD_eq_getElem?_getD, List.getElem?_set_ne (fun h => hik h.symm),
        ← List.getD_eq_getElem?_getD]
      exact ih (by omega)

/-- `SameControls` is reflexive. -/
theorem sameControls_refl (e : Engine α γ σ) : SameControls e e :=
  ⟨rfl, rfl, rfl, rfl, rfl, rfl, rfl, rfl, rfl⟩

/-- `SameControls` is transitive. -/
theorem sameControls_trans {e1 e2 e3 : Engine α γ σ} (h1 : SameControls e1 e2)
    (h2 : SameControls e2 e3) : SameControls e1 e3 := by
  obtain ⟨a1, a2, a3, a4, a5, a6, a7, a8, a9⟩ := h1
  obtain ⟨b1, b2, b3, b4, b5, b6, b7, b8, b9⟩ := h2
  exact ⟨a1.trans b1, a2.trans b2, a3.trans b3, a4.trans b4, a5.trans b5, a6.trans b6,
    a7.trans b7, a8.trans b8, a9.trans b9⟩

/-- The mixer loop only reads the control curves of the processor. -/
theorem mixLoop_congr {e1 e2 : Engine α γ σ} (h : SameControls e1 e2)
    (lowData lowMidData midData highData : List α) (n : Nat) (channelData : List α) :
    mixLoop e1 lowData lowMidData midData highData n channelData =
      mixLoop e2 lowData lowMidData midData highData n channelData := by
  obtain ⟨a1, a2, a3, a4, a5, a6, a7, a8, _⟩ := h
  unfold mixLoop mixSample
  rw [a1, a2, a3, a4, a5, a6, a7, a8]

/-- What one pass of the channel loop writes, in terms of the band buffers of the channel. -/
theorem processChannel_fields (J : Juce α γ σ) (n : Nat) (st : Engine α γ σ × AudioBuffer α)
    (ch : Nat) :
    SameControls (processChannel J n st ch).1 st.1 ∧
    (processChannel J n st ch).2.numSamples = st.2.numSamples ∧
    (processChannel J n st ch).2.channels =
      st.2.channels.set ch
        (mixLoop st.1 (lowBlocked J st.1 st.2 n ch).1 (lowMidFiltered J st.1 st.2 n ch)
          (midFiltered J st.1 st.2 n ch) (highFiltered J st.1 st.2 n ch) n
          (st.2.channels.getD ch [])) ∧
    (processChannel J n st ch).1.dcPrevXLow =
      st.1.dcPrevXLow.set ch (lowBlocked J st.1 st.2 n ch).2.1 ∧
    (processChannel J n st ch).1.dcPrevYLow =
      st.1.dcPrevYLow.set ch (lowBlocked J st.1 st.2 n ch).2.2 ∧
    (∃ v, (processChannel J n st ch).1.lowPassFilters = st.1.lowPassFilters.set ch v) ∧
    (∃ v, (processChannel J n st ch).1.lowMidFilters = st.1.lowMidFilters.set ch v) ∧
    (∃ v, (processChannel J n st ch).1.midFilters = st.1.midFilters.set ch v) ∧
    (∃ v, (processChannel J n st ch).1.highPassFilters = st.1.highPassFilters.set ch v) := by
  have hc : SameControls (processChannel J n st ch).1 st.1 := by
    unfold processChannel growTempBuffers
    split <;> exact ⟨rfl, rfl, rfl, rfl, rfl, rfl, rfl, rfl, rfl⟩
  refine ⟨hc, ?_, ?_, ?_, ?_, ?_, ?_, ?_, ?_⟩
  · rfl
  · rw [← mixLoop_congr hc]
    unfold processChannel growTempBuffers lowBlocked lowMidFiltered midFiltered highFiltered
      lowFiltered bandInput
    split <;> rfl
  · unfold processChannel growTempBuffers lowBlocked lowFiltered bandInput
    split <;> rfl
  · unfold processChannel growTempBuffers lowBlocked lowFiltered bandInput
    split <;> rfl
  · unfold processChannel growTempBuffers
    split <;> exact ⟨_, rfl⟩
  · unfold processChannel growTempBuffers
    split <;> exact ⟨_, rfl⟩
  · unfold processChannel growTempBuffers
    split <;> exact ⟨_, rfl⟩
  · unfold processChannel growTempBuffers
    split <;> exact ⟨_, rfl⟩

/-- Reading an index other than the one written. -/
theorem getD_set_ne {β : Type} (l : List β) (i j : Nat) (v d : β) (h : i ≠ j) :
    (l.set i v).getD j d = l.getD j d := by
  rw [List.getD_eq_getElem?_getD, List.getElem?_set_ne h, ← List.getD_eq_getElem?_getD]

/-- Reading the index just written. -/
theorem getD_set_self {β : Type} (l : List β) (i : Nat) (v d : β) (h : i < l.length) :
    (l.set i v).getD i d = v := by
  rw [List.getD_eq_getElem?_getD, List.getElem?_set_self h]; rfl

/-- The band buffers of a channel only depend on that channel's data and the DC coefficient. -/
theorem bands_congr (J : Juce α γ σ) (n ch : Nat) (s1 s2 : Engine α γ σ × AudioBuffer α)
    (hr : s1.1.dcBlockerR = s2.1.dcBlockerR) (h : SameChannel J ch s1 s2) :
    lowBlocked J s1.1 s1.2 n ch = lowBlocked J s2.1 s2.2 n ch ∧
    lowMidFiltered J s1.1 s1.2 n ch = lowMidFiltered J s2.1 s2.2 n ch ∧
    midFiltered J s1.1 s1.2 n ch = midFiltered J s2.1 s2.2 n ch ∧
    highFiltered J s1.1 s1.2 n ch = highFiltered J s2.1 s2.2 n ch := by
  obtain ⟨h1, h2, h3, h4, h5, h6, h7⟩ := h
  unfold lowBlocked lowFiltered lowMidFiltered midFiltered highFiltered bandInput
  rw [h1, h2, h3, h4, h5, h6, h7, hr]
  exact ⟨rfl, rfl, rfl, rfl⟩

/-- The channel loop of `processBlock` after `k` channels: the controls are untouched, the
channels not yet processed hold their initial data, and each processed channel holds what a
single pass over the initial data writes. -/
theorem channelLoop_invariant (J : Juce α γ σ) (n : Nat) (c : Engine α γ σ) (b : AudioBuffer α)
    (k : Nat) :
    SameControls ((List.range k).foldl (processChannel J n) (c, b)).1 c ∧
    ((List.range k).foldl (processChannel J n) (c, b)).2.numSamples = b.numSamples ∧
    ((List.range k).foldl (processChannel J n) (c, b)).2.channels.length = b.channels.length ∧
    ((List.range k).foldl (processChannel J n) (c, b)).1.dcPrevXLow.length =
      c.dcPrevXLow.length ∧
    ((List.range k).foldl (processChannel J n) (c, b)).1.dcPrevYLow.length =
      c.dcPrevYLow.length ∧
    (∀ ch, k ≤ ch → SameChannel J ch ((List.range k).foldl (processChannel J n) (c, b)) (c, b)) ∧
    (∀ ch, ch < k →
      (ch < b.channels.length →
        ((List.range k).foldl (processChannel J n) (c, b)).2.channels.getD ch [] =
          mixLoop c (lowBlocked J c b n ch).1 (lowMidFiltered J c b n ch)
            (midFiltered J c b n ch) (highFiltered J c b n ch) n (b.channels.getD ch [])) ∧
      (ch < c.dcPrevXLow.length →
        ((List.range k).foldl (processChannel J n) (c, b)).1.dcPrevXLow.getD ch 0 =
          (lowBlocked J c b n ch).2.1) ∧
      (ch < c.dcPrevYLow.length →
        ((List.range k).foldl (processChannel J n) (c, b)).1.dcPrevYLow.getD ch 0 =
          (lowBlocked J c b n ch).2.2)) := by
  induction k with
  | zero =>
    refine ⟨sameControls_refl c, rfl, rfl, rfl, rfl, fun ch _ => ⟨rfl, rfl, rfl, rfl, rfl, rfl, rfl⟩,
      fun ch h => absurd h (Nat.not_lt_zero ch)⟩
  | succ k ih =>
    rw [List.range_succ, List.foldl_append]
    simp only [List.foldl_cons, List.foldl_nil]
    generalize (List.range k).foldl (processChannel J n) (c, b) = st at ih ⊢
    obtain ⟨ic, ins, il, ilx, ily, isame, idone⟩ := ih
    obtain ⟨pc, pns, pch, px, py, ⟨v1, p1⟩, ⟨v2, p2⟩, ⟨v3, p3⟩, ⟨v4, p4⟩⟩ :=
      processChannel_fields J n st k
    have hk := isame k (Nat.le_refl k)
    obtain ⟨q1, q2, q3, q4⟩ := bands_congr J n k st (c, b) ic.2.2.2.2.2.2.2.2 hk
    simp only at q1 q2 q3 q4
    refine ⟨sameControls_trans pc ic, pns.trans ins, ?_, ?_, ?_, ?_, ?_⟩
    · rw [pch, List.length_set, il]
    · rw [px, List.length_set, ilx]
    · rw [py, List.length_set, ily]
    · intro ch hch
      have hne : k ≠ ch := by omega
      obtain ⟨s1, s2, s3, s4, s5, s6, s7⟩ := isame ch (by omega)
      refine ⟨?_, ?_, ?_, ?_, ?_, ?_, ?_⟩
      · rw [p1, getD_set_ne _ _ _ _ _ hne]; exact s1
      · rw [p2, getD_set_ne _ _ _ _ _ hne]; exact s2
      · rw [p3, getD_set_ne _ _ _ _ _ hne]; exact s3
      · rw [p4, getD_set_ne _ _ _ _ _ hne]; exact s4
      · rw [px, getD_set_ne _ _ _ _ _ hne]; exact s5
      · rw [py, getD_set_ne _ _ _ _ _ hne]; exact s6
      · rw [pch, getD_set_ne _ _ _ _ _ hne]; exact s7
    · intro ch hch
      by_cases hlt : ch < k
      · have hne : k ≠ ch := by omega
        obtain ⟨d1, d2, d3⟩ := idone ch hlt
        refine ⟨fun h => ?_, fun h => ?_, fun h => ?_⟩
        · rw [pch, getD_set_ne _ _ _ _ _ hne]; exact d1 h
        · rw [px, getD_set_ne _ _ _ _ _ hne]; exact d2 h
        · rw [py, getD_set_ne _ _ _ _ _ hne]; exact d3 h
      · have heq : ch = k := by omega
        subst heq
        refine ⟨fun h => ?_, fun h => ?_, fun h => ?_⟩
        · rw [pch, getD_set_self _ _ _ _ (by rw [il]; exact h), mixLoop_congr ic, q1, q2, q3, q4,
            hk.2.2.2.2.2.2]
        · rw [px, getD_set_self _ _ _ _ (by rw [ilx]; exact h), q1]
        · rw [py, getD_set_self _ _ _ _ (by rw [ily]; exact h), q1]

/-- The clearing loop keeps the shape of the buffer and every input channel. -/
theorem clearUnusedOutputs_frame (nIn nOut n : Nat) (b : AudioBuffer α) :
    (clearUnusedOutputs nIn nOut n b).numSamples = b.numSamples ∧
    (clearUnusedOutputs nIn nOut n b).channels.length = b.channels.length ∧
    ∀ ch, ch < nIn →
      (clearUnusedOutputs nIn nOut n b).channels.getD ch [] = b.channels.getD ch [] := by
  unfold clearUnusedOutputs
  generalize nOut - nIn = m
  induction m with
  | zero => exact ⟨rfl, rfl, fun _ _ => rfl⟩
  | succ m ih =>
    rw [List.range_succ, List.foldl_append]
    simp only [List.foldl_cons, List.foldl_nil]
    obtain ⟨h1, h2, h3⟩ := ih
    refine ⟨h1, ?_, ?_⟩
    · simp only [AudioBuffer.clear, List.length_set]; exact h2
    · intro ch hch
      simp only [AudioBuffer.clear]
      rw [getD_set_ne _ _ _ _ _ (by omega)]
      exact h3 ch hch

/-- The curve generation loop leaves the filter chains and the DC blocker alone. -/
theorem generateCurveSample_foldl_frame (J : Juce α γ σ) (l : List Nat) (e : Engine α γ σ) :
    (l.foldl (generateCurveSample J) e).lowPassFilters = e.lowPassFilters ∧
    (l.foldl (generateCurveSample J) e).lowMidFilters = e.lowMidFilters ∧
    (l.foldl (generateCurveSample J) e).midFilters = e.midFilters ∧
    (l.foldl (generateCurveSample J) e).highPassFilters = e.highPassFilters ∧
    (l.foldl (generateCurveSample J) e).dcPrevXLow = e.dcPrevXLow ∧
    (l.foldl (generateCurveSample J) e).dcPrevYLow = e.dcPrevYLow ∧
    (l.foldl (generateCurveSample J) e).dcBlockerR = e.dcBlockerR := by
  induction l generalizing e with
  | nil => exact ⟨rfl, rfl, rfl, rfl, rfl, rfl, rfl⟩
  | cons i l ih =>
    simp only [List.foldl_cons]
    obtain ⟨h1, h2, h3, h4, h5, h6, h7⟩ := ih (generateCurveSample J e i)
    exact ⟨h1, h2, h3, h4, h5, h6, h7⟩

/-- The curve block of `processBlock` leaves the filter chains and the DC blocker alone. -/
theorem generateCurves_frame (J : Juce α γ σ) (e : Engine α γ σ) (n : Nat) :
    (generateCurves J (setTargets e) n).lowPassFilters = e.lowPassFilters ∧
    (generateCurves J (setTargets e) n).lowMidFilters = e.lowMidFilters ∧
    (generateCurves J (setTargets e) n).midFilters = e.midFilters ∧
    (generateCurves J (setTargets e) n).highPassFilters = e.highPassFilters ∧
    (generateCurves J (setTargets e) n).dcPrevXLow = e.dcPrevXLow ∧
    (generateCurves J (setTargets e) n).dcPrevYLow = e.dcPrevYLow ∧
    (generateCurves J (setTargets e) n).dcBlockerR = e.dcBlockerR := by
  unfold generateCurves
  exact generateCurveSample_foldl_frame J _ _

/-- A block that is not fast-pathed, channel by channel: the samples written to an input
channel, and the DC blocker state stored for it, in terms of the band buffers computed from
the processor and the buffer at block entry. -/
theorem processBlock_channel (J : Juce α γ σ) (e : Engine α γ σ) (buffer : AudioBuffer α)
    (hslow : allBandsAtZero e = false) (ch : Nat) (hch : ch < e.getTotalNumInputChannels) :
    (ch < buffer.channels.length →
      (processBlock J e buffer).2.channels.getD ch [] =
        mixLoop (processBlock J e buffer).1 (lowBlocked J e buffer buffer.numSamples ch).1
          (lowMidFiltered J e buffer buffer.numSamples ch)
          (midFiltered J e buffer buffer.numSamples ch)
          (highFiltered J e buffer buffer.numSamples ch) buffer.numSamples
          (buffer.channels.getD ch [])) ∧
    (ch < e.dcPrevXLow.length →
      (processBlock J e buffer).1.dcPrevXLow.getD ch 0 =
        (lowBlocked J e buffer buffer.numSamples ch).2.1) ∧
    (ch < e.dcPrevYLow.length →
      (processBlock J e buffer).1.dcPrevYLow.getD ch 0 =
        (lowBlocked J e buffer buffer.numSamples ch).2.2) ∧
    (processBlock J e buffer).1.dcBlockerR = e.dcBlockerR := by
  obtain ⟨c1, c2, c3⟩ := clearUnusedOutputs_frame e.getTotalNumInputChannels
    e.getTotalNumOutputChannels buffer.getNumSamples buffer
  obtain ⟨g1, g2, g3, g4, g5, g6, g7⟩ := generateCurves_frame J e buffer.getNumSamples
  obtain ⟨ic, _, _, _, _, _, idone⟩ := channelLoop_invariant J buffer.getNumSamples
    (generateCurves J (setTargets e) buffer.getNumSamples)
    (clearUnusedOutputs e.getTotalNumInputChannels e.getTotalNumOutputChannels
      buffer.getNumSamples buffer) e.getTotalNumInputChannels
  obtain ⟨d1, d2, d3⟩ := idone ch hch
  have hsame : SameChannel J ch
      (generateCurves J (setTargets e) buffer.getNumSamples,
        clearUnusedOutputs e.getTotalNumInputChannels e.getTotalNumOutputChannels
          buffer.getNumSamples buffer) (e, buffer) := by
    refine ⟨?_, ?_, ?_, ?_, ?_, ?_, c3 ch hch⟩
    · simp only [g1]
    · simp only [g2]
    · simp only [g3]
    · simp only [g4]
    · simp only [g5]
    · simp only [g6]
  obtain ⟨q1, q2, q3, q4⟩ := bands_congr J buffer.getNumSamples ch _ (e, buffer) g7 hsame
  simp only at q1 q2 q3 q4
  have hpb : processBlock J e buffer =
      (List.range e.getTotalNumInputChannels).foldl (processChannel J buffer.getNumSamples)
        (generateCurves J (setTargets e) buffer.getNumSamples,
          clearUnusedOutputs e.getTotalNumInputChannels e.getTotalNumOutputChannels
            buffer.getNumSamples buffer) := by
    simp only [processBlock, hslow, Bool.false_eq_true, if_false]
  rw [hpb]
  rw [q1, q2, q3, q4, c2, c3 ch hch] at d1
  rw [q1, g5] at d2
  rw [q1, g6] at d3
  refine ⟨fun h => ?_, d2, d3, ic.2.2.2.2.2.2.2.2.trans g7⟩
  rw [mixLoop_congr ic]
  exact d1 h

/-- A filter writes one sample per input sample. -/
theorem filter_process_length (J : Juce α γ σ) (f : Filter γ σ) (xs : List α) :
    (f.process J xs).2.length = xs.length := by
  induction xs generalizing f with
  | nil => rfl
  | cons x xs ih => simp [Filter.process, ih]

/-- A chain writes one sample per input sample. -/
theorem chain_process_length (J : Juce α γ σ) (c : ProcessorChain γ σ) (xs : List α) :
    (c.process J xs).2.length = xs.length := by
  simp [ProcessorChain.process, filter_process_length]

/-- In a well-formed buffer every channel read with `getD` has `numSamples` samples. -/
theorem wellFormed_length_getD {b : AudioBuffer α} (h : b.WellFormed) (ch : Nat)
    (hch : ch < b.channels.length) : (b.channels.getD ch []).length = b.numSamples := by
  rw [List.getD_eq_getElem _ _ hch]
  exact h _ (List.getElem_mem hch)

/-- The low band's filter output has one sample per sample of the block. -/
theorem lowFiltered_length (J : Juce α γ σ) (e : Engine α γ σ) (buffer : AudioBuffer α)
    (hwf : buffer.WellFormed) (ch : Nat) (hch : ch < buffer.channels.length) :
    (lowFiltered J e buffer buffer.numSamples ch).length = buffer.numSamples := by
  unfold lowFiltered bandInput
  rw [chain_process_length, List.length_take, wellFormed_length_getD hwf ch hch]
  exact Nat.min_self _

/-- C3: in a block that is not fast-pathed, for every processed channel and every sample index
`i < numSamples`, the output sample is
`low[i]*lowGainCurve[i]*lowBypassCurve[i] + lowMid[i]*lowMidGainCurve[i]*lowMidBypassCurve[i]
+ mid[i]*midGainCurve[i]*midBypassCurve[i] + high[i]*highGainCurve[i]*highBypassCurve[i]`,
summed left to right, where `low` is the DC-blocked output of the low chain and the other
three are the raw outputs of their chains on the same input; only index `i` of the band
buffers and curves occurs. -/
theorem processBlock_mixer_output (J : Juce α γ σ) (e : Engine α γ σ) (buffer : AudioBuffer α)
    (hslow : allBandsAtZero e = false) (hwf : buffer.WellFormed) (ch i : Nat)
    (hch : ch < e.getTotalNumInputChannels) (hbuf : ch < buffer.channels.length)
    (hi : i < buffer.numSamples) :
    ((processBlock J e buffer).2.channels.getD ch []).getD i 0 =
      ((lowBlocked J e buffer buffer.numSamples ch).1.getD i 0 *
          (processBlock J e buffer).1.lowGainCurve.getD i 0 *
          (processBlock J e buffer).1.lowBypassCurve.getD i 0) +
        ((lowMidFiltered J e buffer buffer.numSamples ch).getD i 0 *
          (processBlock J e buffer).1.lowMidGainCurve.getD i 0 *
          (processBlock J e buffer).1.lowMidBypassCurve.getD i 0) +
        ((midFiltered J e buffer buffer.numSamples ch).getD i 0 *
          (processBlock J e buffer).1.midGainCurve.getD i 0 *
          (processBlock J e buffer).1.midBypassCurve.getD i 0) +
        ((highFiltered J e buffer buffer.numSamples ch).getD i 0 *
          (processBlock J e buffer).1.highGainCurve.getD i 0 *
          (processBlock J e buffer).1.highBypassCurve.getD i 0) := by
  rw [(processBlock_channel J e buffer hslow ch hch).1 hbuf,
    mixLoop_getD _ _ _ _ _ _ _ i hi (by rw [wellFormed_length_getD hwf ch hbuf]; exact hi)]
  rfl

/-- The mixer formula at sample 2 of channel 1 of a stereo block. -/
theorem processBlock_mixer_output_witness :
    ((processBlock Juce.sample Engine.samplePrepared AudioBuffer.sample).2.channels.getD 1
        []).getD 2 0 =
      ((lowBlocked Juce.sample Engine.samplePrepared AudioBuffer.sample
            AudioBuffer.sample.numSamples 1).1.getD 2 0 *
          (processBlock Juce.sample Engine.samplePrepared
            AudioBuffer.sample).1.lowGainCurve.getD 2 0 *
          (processBlock Juce.sample Engine.samplePrepared
            AudioBuffer.sample).1.lowBypassCurve.getD 2 0) +
        ((lowMidFiltered Juce.sample Engine.samplePrepared AudioBuffer.sample
            AudioBuffer.sample.numSamples 1).getD 2 0 *
          (processBlock Juce.sample Engine.samplePrepared
            AudioBuffer.sample).1.lowMidGainCurve.getD 2 0 *
          (processBlock Juce.sample Engine.samplePrepared
            AudioBuffer.sample).1.lowMidBypassCurve.getD 2 0) +
        ((midFiltered Juce.sample Engine.samplePrepared AudioBuffer.sample
            AudioBuffer.sample.numSamples 1).getD 2 0 *
          (processBlock Juce.sample Engine.samplePrepared
            AudioBuffer.sample).1.midGainCurve.getD 2 0 *
          (processBlock Juce.sample Engine.samplePrepared
            AudioBuffer.sample).1.midBypassCurve.getD 2 0) +
        ((highFiltered Juce.sample Engine.samplePrepared AudioBuffer.sample
            AudioBuffer.sample.numSamples 1).getD 2 0 *
          (processBlock Juce.sample Engine.samplePrepared
            AudioBuffer.sample).1.highGainCurve.getD 2 0 *
          (processBlock Juce.sample Engine.samplePrepared
            AudioBuffer.sample).1.highBypassCurve.getD 2 0) :=
  processBlock_mixer_output Juce.sample Engine.samplePrepared AudioBuffer.sample
    (by decide) (by decide) 1 2 (by decide) (by decide) (by decide)

/-- C10: in a block that is not fast-pathed the low band buffer `y` of a channel satisfies
`y[n] = x[n] - x[n-1] + r * y[n-1]` at every sample `n`, where `x` is the output of the low
chain and `x[-1]`, `y[-1]` are the channel's stored previous x and previous y at block entry;
after the block the stored state is the last `x` and the last `y`; and the mixer reads the
blocked samples for the low band only, the other three bands being the raw chain outputs. -/
theorem processBlock_dc_blocker (J : Juce α γ σ) (e : Engine α γ σ) (buffer : AudioBuffer α)
    (hslow : allBandsAtZero e = false) (hwf : buffer.WellFormed) (ch : Nat)
    (hch : ch < e.getTotalNumInputChannels) (hbuf : ch < buffer.channels.length)
    (hx : ch < e.dcPrevXLow.length) (hy : ch < e.dcPrevYLow.length) :
    (lowBlocked J e buffer buffer.numSamples ch).1.length = buffer.numSamples ∧
    (∀ n, n < buffer.numSamples →
      (lowBlocked J e buffer buffer.numSamples ch).1.getD n 0 =
        (lowFiltered J e buffer buffer.numSamples ch).getD n 0 -
          (if n = 0 then e.dcPrevXLow.getD ch 0
            else (lowFiltered J e buffer buffer.numSamples ch).getD (n - 1) 0) +
          e.dcBlockerR *
            (if n = 0 then e.dcPrevYLow.getD ch 0
              else (lowBlocked J e buffer buffer.numSamples ch).1.getD (n - 1) 0)) ∧
    (processBlock J e buffer).1.dcPrevXLow.getD ch 0 =
      (lowFiltered J e buffer buffer.numSamples ch).getLast?.getD (e.dcPrevXLow.getD ch 0) ∧
    (processBlock J e buffer).1.dcPrevYLow.getD ch 0 =
      (lowBlocked J e buffer buffer.numSamples ch).1.getLast?.getD (e.dcPrevYLow.getD ch 0) ∧
    (processBlock J e buffer).2.channels.getD ch [] =
      mixLoop (processBlock J e buffer).1 (lowBlocked J e buffer buffer.numSamples ch).1
        (lowMidFiltered J e buffer buffer.numSamples ch)
        (midFiltered J e buffer buffer.numSamples ch)
        (highFiltered J e buffer buffer.numSamples ch) buffer.numSamples
        (buffer.channels.getD ch []) := by
  obtain ⟨h1, h2, h3, _⟩ := processBlock_channel J e buffer hslow ch hch
  have hlen := lowFiltered_length J e buffer hwf ch hbuf
  have hfin := dcBlocker_final e.dcBlockerR (e.dcPrevXLow.getD ch 0) (e.dcPrevYLow.getD ch 0)
    (lowFiltered J e buffer buffer.numSamples ch)
  refine ⟨?_, ?_, ?_, ?_, h1 hbuf⟩
  · unfold lowBlocked; rw [dcBlocker_length, hlen]
  · intro n hn
    exact dcBlocker_recurrence _ _ _ _ n (by rw [hlen]; exact hn)
  · rw [h2 hx]; exact hfin.1
  · rw [h3 hy]; exact hfin.2

/-- The DC blocker state stored for channel 1 after a stereo block. -/
theorem processBlock_dc_blocker_witness :
    (processBlock Juce.sample Engine.samplePrepared AudioBuffer.sample).1.dcPrevXLow.getD 1 0 =
      (lowFiltered Juce.sample Engine.samplePrepared AudioBuffer.sample
        AudioBuffer.sample.numSamples 1).getLast?.getD (Engine.samplePrepared.dcPrevXLow.getD 1 0) ∧
    (processBlock Juce.sample Engine.samplePrepared AudioBuffer.sample).1.dcPrevYLow.getD 1 0 =
      (lowBlocked Juce.sample Engine.samplePrepared AudioBuffer.sample
        AudioBuffer.sample.numSamples 1).1.getLast?.getD
          (Engine.samplePrepared.dcPrevYLow.getD 1 0) :=
  have h := processBlock_dc_blocker Juce.sample Engine.samplePrepared AudioBuffer.sample
    (by decide) (by decide) 1 (by decide) (by decide) (by decide) (by decide)
  ⟨h.2.2.1, h.2.2.2.1⟩

/-- C1: when all four gain parameters are exactly 0 dB and all four bypass parameters are false
at block entry, `processBlock` returns the buffer it was given, sample for sample in every
channel, in every layout the processor supports; in any layout whatever, every input channel
is returned as given. -/
theorem processBlock_fast_path_output (J : Juce α γ σ) (e : Engine α γ σ) (buffer : AudioBuffer α)
    (hgain : e.lowGainParam = 0 ∧ e.lowMidGainParam = 0 ∧ e.midGainParam = 0 ∧ e.highGainParam = 0)
    (hbypass : e.lowBypassParam = false ∧ e.lowMidBypassParam = false ∧
      e.midBypassParam = false ∧ e.highBypassParam = false) :
    (isBusesLayoutSupported false false e.busesLayout = true →
      (processBlock J e buffer).2 = buffer) ∧
    (∀ ch, ch < e.getTotalNumInputChannels →
      (processBlock J e buffer).2.channels.getD ch [] = buffer.channels.getD ch []) := by
  have hz : allBandsAtZero e = true := (allBandsAtZero_iff e).2 ⟨hgain, hbypass⟩
  have hpb : (processBlock J e buffer).2 =
      clearUnusedOutputs e.getTotalNumInputChannels e.getTotalNumOutputChannels
        buffer.getNumSamples buffer := by
    simp only [processBlock, hz, if_true]
  rw [hpb]
  refine ⟨fun hlayout => ?_, (clearUnusedOutputs_frame _ _ _ buffer).2.2⟩
  have hio := supported_layout_channels e.busesLayout hlayout
  have hle : e.getTotalNumOutputChannels ≤ e.getTotalNumInputChannels := by
    simp [Engine.getTotalNumOutputChannels, Engine.getTotalNumInputChannels, hio]
  exact clearUnusedOutputs_of_le _ _ _ _ hle

/-- The fast path at the freshly constructed stereo processor. -/
theorem processBlock_fast_path_output_witness :
    (processBlock Juce.sample (Engine.init : Engine Int Int Int) AudioBuffer.sample).2
      = AudioBuffer.sample :=
  (processBlock_fast_path_output Juce.sample Engine.init AudioBuffer.sample
    (by decide) (by decide)).1 (by decide)

/-- `setTargetValue` respects `ramp`: smoothers with the same ramp have the same ramp after
the same target is set. -/
theorem ramp_setTargetValue (s1 s2 : SmoothedValue α) (v : α) (h : s1.ramp = s2.ramp) :
    (s1.setTargetValue v).ramp = (s2.setTargetValue v).ramp := by
  simp only [SmoothedValue.ramp, Prod.mk.injEq] at h
  obtain ⟨h1, h2, h3, h4, h5⟩ := h
  unfold SmoothedValue.setTargetValue
  rw [h2, h4]
  by_cases ht : v = s2.target
  · simp only [ht, if_true, SmoothedValue.ramp, Prod.mk.injEq]
    exact ⟨h1, h2, h3, h4, h5⟩
  · simp only [ht, if_false]
    by_cases hs : s2.stepsToTarget ≤ 0
    · simp only [hs, if_true, SmoothedValue.setCurrentAndTargetValue, SmoothedValue.ramp, h4,
        lt_irrefl, if_false]
    · simp only [hs, if_false, SmoothedValue.setStepSize, SmoothedValue.ramp, h1, h4]

/-- `getNextValue` respects `ramp`: smoothers with the same ramp return the same value and
have the same ramp afterwards. -/
theorem ramp_getNextValue (s1 s2 : SmoothedValue α) (h : s1.ramp = s2.ramp) :
    s1.getNextValue.1 = s2.getNextValue.1 ∧ s1.getNextValue.2.ramp = s2.getNextValue.2.ramp := by
  simp only [SmoothedValue.ramp, Prod.mk.injEq] at h
  obtain ⟨h1, h2, h3, h4, h5⟩ := h
  unfold SmoothedValue.getNextValue SmoothedValue.isSmoothing
  rw [h3] at h5 ⊢
  by_cases hc : 0 < s2.countdown
  · simp only [hc, if_true, Option.some.injEq] at h5
    simp only [hc, decide_True, Bool.true_eq_false, if_false]
    by_cases hc2 : 0 < s2.countdown - 1
    · simp only [hc2, decide_True, if_true, SmoothedValue.ramp, h1, h2, h4, h5, and_self]
    · simp only [hc2, decide_False, Bool.false_eq_true, if_false, SmoothedValue.ramp, h2, h4,
        and_self]
  · simp only [hc, decide_False, if_true, SmoothedValue.ramp, h1, h2, h3, h4, if_false, and_self]

/-- A processor differs from itself in nothing. -/
theorem outsideChannels_refl (e : Engine α γ σ) : OutsideChannels e e := rfl

/-- Differences confined to the per-channel members compose. -/
theorem outsideChannels_trans {e1 e2 e3 : Engine α γ σ} (h1 : OutsideChannels e1 e2)
    (h2 : OutsideChannels e2 e3) : OutsideChannels e1 e3 := by
  unfold OutsideChannels at *
  rw [h2] at h1
  exact h1

/-- A processor differs from itself in no curve and no smoother. -/
theorem outsideControls_refl (e : Engine α γ σ) : OutsideControls e e := rfl

/-- Differences confined to the curves and smoothers compose. -/
theorem outsideControls_trans {e1 e2 e3 : Engine α γ σ} (h1 : OutsideControls e1 e2)
    (h2 : OutsideControls e2 e3) : OutsideControls e1 e3 := by
  unfold OutsideControls at *
  rw [h2] at h1
  exact h1

/-- One pass of the channel loop writes per-channel members only. -/
theorem processChannel_outside (J : Juce α γ σ) (n : Nat) (st : Engine α γ σ × AudioBuffer α)
    (ch : Nat) : OutsideChannels (processChannel J n st ch).1 st.1 := by
  unfold OutsideChannels processChannel growTempBuffers
  split <;> rfl

/-- The channel loop writes per-channel members only. -/
theorem channelLoop_outside (J : Juce α γ σ) (n : Nat) (st : Engine α γ σ × AudioBuffer α)
    (l : List Nat) : OutsideChannels (l.foldl (processChannel J n) st).1 st.1 := by
  induction l generalizing st with
  | nil => exact outsideChannels_refl _
  | cons ch l ih =>
    simp only [List.foldl_cons]
    exact outsideChannels_trans (ih _) (processChannel_outside J n st ch)

/-- One iteration of the curve generation loop, band by band. -/
theorem generateCurveSample_band (J : Juce α γ σ) (e : Engine α γ σ) (i : Nat) (band : Band) :
    (generateCurveSample J e i).gainSmoother band = (e.gainSmoother band).getNextValue.2 ∧
    (generateCurveSample J e i).bypassSmoother band = (e.bypassSmoother band).getNextValue.2 ∧
    (generateCurveSample J e i).gainCurve band =
      (e.gainCurve band).set i (decibelsToGain J (e.gainSmoother band).getNextValue.1) ∧
    (generateCurveSample J e i).bypassCurve band =
      (e.bypassCurve band).set i (smoothStep (e.bypassSmoother band).getNextValue.1) := by
  cases band <;> exact ⟨rfl, rfl, rfl, rfl⟩

/-- One iteration of the curve generation loop touches the curves and smoothers only. -/
theorem generateCurveSample_outside (J : Juce α γ σ) (e : Engine α γ σ) (i : Nat) :
    OutsideControls (generateCurveSample J e i) e := rfl

/-- The curve generation loop after `k` iterations. -/
theorem curveLoop_band (J : Juce α γ σ) (e : Engine α γ σ) (k : Nat) (band : Band) :
    ((List.range k).foldl (generateCurveSample J) e).gainSmoother band =
      (e.gainSmoother band).advance k ∧
    ((List.range k).foldl (generateCurveSample J) e).bypassSmoother band =
      (e.bypassSmoother band).advance k ∧
    (((List.range k).foldl (generateCurveSample J) e).gainCurve band).length =
      (e.gainCurve band).length ∧
    (((List.range k).foldl (generateCurveSample J) e).bypassCurve band).length =
      (e.bypassCurve band).length ∧
    (∀ i, i < k → i < (e.gainCurve band).length →
      (((List.range k).foldl (generateCurveSample J) e).gainCurve band).getD i 0 =
        decibelsToGain J ((e.gainSmoother band).sample i)) ∧
    (∀ i, i < k → i < (e.bypassCurve band).length →
      (((List.range k).foldl (generateCurveSample J) e).bypassCurve band).getD i 0 =
        smoothStep ((e.bypassSmoother band).sample i)) ∧
    (∀ i, k ≤ i →
      (((List.range k).foldl (generateCurveSample J) e).gainCurve band).getD i 0 =
        (e.gainCurve band).getD i 0) ∧
    (∀ i, k ≤ i →
      (((List.range k).foldl (generateCurveSample J) e).bypassCurve band).getD i 0 =
        (e.bypassCurve band).getD i 0) := by
  induction k with
  | zero =>
    exact ⟨rfl, rfl, rfl, rfl, fun i h => absurd h (Nat.not_lt_zero i),
      fun i h => absurd h (Nat.not_lt_zero i), fun _ _ => rfl, fun _ _ => rfl⟩
  | succ k ih =>
    rw [List.range_succ, List.foldl_append]
    simp only [List.foldl_cons, List.foldl_nil]
    generalize (List.range k).foldl (generateCurveSample J) e = st at ih ⊢
    obtain ⟨i1, i2, i3, i4, i5, i6, i7, i8⟩ := ih
    obtain ⟨s1, s2, s3, s4⟩ := generateCurveSample_band J st k band
    refine ⟨?_, ?_, ?_, ?_, ?_, ?_, ?_, ?_⟩
    · rw [s1, i1]; rfl
    · rw [s2, i2]; rfl
    · rw [s3, List.length_set, i3]
    · rw [s4, List.length_set, i4]
    · intro i hi hlen
      rw [s3]
      by_cases hik : i = k
      · subst hik
        rw [getD_set_self _ _ _ _ (by rw [i3]; exact hlen), i1]; rfl
      · rw [getD_set_ne _ _ _ _ _ (fun h => hik h.symm)]
        exact i5 i (by omega) hlen
    · intro i hi hlen
      rw [s4]
      by_cases hik : i = k
      · subst hik
        rw [getD_set_self _ _ _ _ (by rw [i4]; exact hlen), i2]; rfl
      · rw [getD_set_ne _ _ _ _ _ (fun h => hik h.symm)]
        exact i6 i (by omega) hlen
    · intro i hi
      rw [s3, getD_set_ne _ _ _ _ _ (by omega)]
      exact i7 i (by omega)
    · intro i hi
      rw [s4, getD_set_ne _ _ _ _ _ (by omega)]
      exact i8 i (by omega)

/-- The curve generation loop touches the curves and smoothers only. -/
theorem curveLoop_outside (J : Juce α γ σ) (l : List Nat) (e : Engine α γ σ) :
    OutsideControls (l.foldl (generateCurveSample J) e) e := by
  induction l generalizing e with
  | nil => exact outsideControls_refl _
  | cons i l ih =>
    simp only [List.foldl_cons]
    exact outsideControls_trans (ih _) (generateCurveSample_outside J e i)

/-- The length of a vector after `ensureSize`. -/
theorem ensureSize_length (n : Nat) (v : List α) :
    (ensureSize n v).length = max v.length n := by
  unfold ensureSize
  split
  · rw [vectorResize_length]; omega
  · omega

/-- The target values `processBlock` sets, band by band. -/
theorem setTargets_band (e : Engine α γ σ) (band : Band) :
    (setTargets e).gainSmoother band = (e.gainSmoother band).setTargetValue (e.gainParam band) ∧
    (setTargets e).bypassSmoother band =
      (e.bypassSmoother band).setTargetValue (bypassTarget (e.bypassParam band)) ∧
    (setTargets e).gainCurve band = e.gainCurve band ∧
    (setTargets e).bypassCurve band = e.bypassCurve band := by
  cases band <;> exact ⟨rfl, rfl, rfl, rfl⟩

/-- The curve block of `processBlock`, band by band: each smoother is advanced `numSamples`
times, each curve holds at least `numSamples` values, and value `i` of a curve is computed
from the value returned by call `i + 1` of its smoother. -/
theorem generateCurves_band (J : Juce α γ σ) (e : Engine α γ σ) (n : Nat) (band : Band) :
    (generateCurves J e n).gainSmoother band = (e.gainSmoother band).advance n ∧
    (generateCurves J e n).bypassSmoother band = (e.bypassSmoother band).advance n ∧
    ((generateCurves J e n).gainCurve band).length = max (e.gainCurve band).length n ∧
    ((generateCurves J e n).bypassCurve band).length = max (e.bypassCurve band).length n ∧
    (∀ i, i < n →
      ((generateCurves J e n).gainCurve band).getD i 0 =
        decibelsToGain J ((e.gainSmoother band).sample i)) ∧
    (∀ i, i < n →
      ((generateCurves J e n).bypassCurve band).getD i 0 =
        smoothStep ((e.bypassSmoother band).sample i)) := by
  unfold generateCurves
  obtain ⟨h1, h2, h3, h4, h5, h6, _, _⟩ := curveLoop_band J
    ({ e with
      lowGainCurve := ensureSize n e.lowGainCurve
      lowMidGainCurve := ensureSize n e.lowMidGainCurve
      midGainCurve := ensureSize n e.midGainCurve
      highGainCurve := ensureSize n e.highGainCurve
      lowBypassCurve := ensureSize n e.lowBypassCurve
      lowMidBypassCurve := ensureSize n e.lowMidBypassCurve
      midBypassCurve := ensureSize n e.midBypassCurve
      highBypassCurve := ensureSize n e.highBypassCurve } : Engine α γ σ) n band
  have hg : ∀ b : Band, (({ e with
      lowGainCurve := ensureSize n e.lowGainCurve
      lowMidGainCurve := ensureSize n e.lowMidGainCurve
      midGainCurve := ensureSize n e.midGainCurve
      highGainCurve := ensureSize n e.highGainCurve
      lowBypassCurve := ensureSize n e.lowBypassCurve
      lowMidBypassCurve := ensureSize n e.lowMidBypassCurve
      midBypassCurve := ensureSize n e.midBypassCurve
      highBypassCurve := ensureSize n e.highBypassCurve } : Engine α γ σ).gainCurve b =
        ensureSize n (e.gainCurve b)) ∧
      (({ e with
      lowGainCurve := ensureSize n e.lowGainCurve
      lowMidGainCurve := ensureSize n e.lowMidGainCurve
      midGainCurve := ensureSize n e.midGainCurve
      highGainCurve := ensureSize n e.highGainCurve
      lowBypassCurve := ensureSize n e.lowBypassCurve
      lowMidBypassCurve := ensureSize n e.lowMidBypassCurve
      midBypassCurve := ensureSize n e.midBypassCurve
      highBypassCurve := ensureSize n e.highBypassCurve } : Engine α γ σ).bypassCurve b =
        ensureSize n (e.bypassCurve b)) ∧
      (({ e with
      lowGainCurve := ensureSize n e.lowGainCurve
      lowMidGainCurve := ensureSize n e.lowMidGainCurve
      midGainCurve := ensureSize n e.midGainCurve
      highGainCurve := ensureSize n e.highGainCurve
      lowBypassCurve := ensureSize n e.lowBypassCurve
      lowMidBypassCurve := ensureSize n e.lowMidBypassCurve
      midBypassCurve := ensureSize n e.midBypassCurve
      highBypassCurve := ensureSize n e.highBypassCurve } : Engine α γ σ).gainSmoother b =
        e.gainSmoother b) ∧
      (({ e with
      lowGainCurve := ensureSize n e.lowGainCurve
      lowMidGainCurve := ensureSize n e.lowMidGainCurve
      midGainCurve := ensureSize n e.midGainCurve
      highGainCurve := ensureSize n e.highGainCurve
      lowBypassCurve := ensureSize n e.lowBypassCurve
      lowMidBypassCurve := ensureSize n e.lowMidBypassCurve
      midBypassCurve := ensureSize n e.midBypassCurve
      highBypassCurve := ensureSize n e.highBypassCurve } : Engine α γ σ).bypassSmoother b =
        e.bypassSmoother b) := by
    intro b; cases b <;> exact ⟨rfl, rfl, rfl, rfl⟩
  obtain ⟨g1, g2, g3, g4⟩ := hg band
  rw [g1, ensureSize_length] at h3 h5
  rw [g2, ensureSize_length] at h4 h6
  rw [g3] at h1 h5
  rw [g4] at h2 h6
  exact ⟨h1, h2, h3, h4, fun i hi => h5 i hi (by omega), fun i hi => h6 i hi (by omega)⟩

/-- The members outside the per-channel ones, read by band. -/
theorem outsideChannels_band {e1 e2 : Engine α γ σ} (h : OutsideChannels e1 e2) (band : Band) :
    e1.gainParam band = e2.gainParam band ∧ e1.bypassParam band = e2.bypassParam band ∧
    e1.gainSmoother band = e2.gainSmoother band ∧
    e1.bypassSmoother band = e2.bypassSmoother band ∧
    e1.gainCurve band = e2.gainCurve band ∧ e1.bypassCurve band = e2.bypassCurve band := by
  unfold OutsideChannels at h
  cases band <;> refine ⟨?_, ?_, ?_, ?_, ?_, ?_⟩ <;> rw [h] <;> rfl

/-- The layout, process spec and DC coefficient are outside the per-channel members. -/
theorem outsideChannels_settings {e1 e2 : Engine α γ σ} (h : OutsideChannels e1 e2) :
    e1.busesLayout = e2.busesLayout ∧ e1.processSpec = e2.processSpec ∧
    e1.dcBlockerR = e2.dcBlockerR := by
  unfold OutsideChannels at h
  refine ⟨?_, ?_, ?_⟩ <;> rw [h]

/-- The parameters and scratch buffer sizes are outside the curves and smoothers. -/
theorem outsideControls_band {e1 e2 : Engine α γ σ} (h : OutsideControls e1 e2) (band : Band) :
    e1.gainParam band = e2.gainParam band ∧ e1.bypassParam band = e2.bypassParam band ∧
    e1.tempBuffers band = e2.tempBuffers band := by
  unfold OutsideControls at h
  cases band <;> refine ⟨?_, ?_, ?_⟩ <;> rw [h] <;> rfl

/-- The layout, process spec and DC coefficient are outside the curves and smoothers. -/
theorem outsideControls_settings {e1 e2 : Engine α γ σ} (h : OutsideControls e1 e2) :
    e1.busesLayout = e2.busesLayout ∧ e1.processSpec = e2.processSpec ∧
    e1.dcBlockerR = e2.dcBlockerR := by
  unfold OutsideControls at h
  refine ⟨?_, ?_, ?_⟩ <;> rw [h]

/-- The fast-path test in terms of the parameters by band. -/
theorem allBandsAtZero_congr (e1 e2 : Engine α γ σ)
    (h : ∀ band, e1.gainParam band = e2.gainParam band ∧
      e1.bypassParam band = e2.bypassParam band) :
    allBandsAtZero e1 = allBandsAtZero e2 := by
  have h1 := h Band.low
  have h2 := h Band.lowMid
  have h3 := h Band.mid
  have h4 := h Band.high
  simp only [Engine.gainParam, Engine.bypassParam] at h1 h2 h3 h4
  unfold allBandsAtZero
  rw [h1.1, h1.2, h2.1, h2.2, h3.1, h3.2, h4.1, h4.2]

/-- A block that is not fast-pathed is the channel loop run on the curve block's result. -/
theorem processBlock_slow (J : Juce α γ σ) (e : Engine α γ σ) (buffer : AudioBuffer α)
    (hslow : allBandsAtZero e = false) :
    processBlock J e buffer =
      (List.range e.getTotalNumInputChannels).foldl (processChannel J buffer.numSamples)
        (generateCurves J (setTargets e) buffer.numSamples,
          clearUnusedOutputs e.getTotalNumInputChannels e.getTotalNumOutputChannels
            buffer.numSamples buffer) := by
  simp only [processBlock, hslow, Bool.false_eq_true, if_false, AudioBuffer.getNumSamples]

/-- Whatever path `processBlock` takes, it leaves the parameters, the layout, the process
spec and the DC coefficient as they were. -/
theorem processBlock_settings (J : Juce α γ σ) (e : Engine α γ σ) (buffer : AudioBuffer α) :
    (∀ band, (processBlock J e buffer).1.gainParam band = e.gainParam band ∧
      (processBlock J e buffer).1.bypassParam band = e.bypassParam band) ∧
    (processBlock J e buffer).1.busesLayout = e.busesLayout ∧
    (processBlock J e buffer).1.processSpec = e.processSpec ∧
    (processBlock J e buffer).1.dcBlockerR = e.dcBlockerR := by
  by_cases hz : allBandsAtZero e = true
  · have : (processBlock J e buffer).1 = e := by simp only [processBlock, hz, if_true]
    rw [this]
    exact ⟨fun _ => ⟨rfl, rfl⟩, rfl, rfl, rfl⟩
  · have hslow : allBandsAtZero e = false := by simpa using hz
    rw [processBlock_slow J e buffer hslow]
    have h1 := channelLoop_outside J buffer.numSamples
      (generateCurves J (setTargets e) buffer.numSamples,
        clearUnusedOutputs e.getTotalNumInputChannels e.getTotalNumOutputChannels
          buffer.numSamples buffer) (List.range e.getTotalNumInputChannels)
    have h2 : OutsideControls (generateCurves J (setTargets e) buffer.numSamples) e := by
      unfold generateCurves
      exact outsideControls_trans (curveLoop_outside J _ _) rfl
    obtain ⟨a1, a2, a3⟩ := outsideChannels_settings h1
    obtain ⟨b1, b2, b3⟩ := outsideControls_settings h2
    refine ⟨fun band => ?_, a1.trans b1, a2.trans b2, a3.trans b3⟩
    obtain ⟨c1, c2, _⟩ := outsideChannels_band h1 band
    obtain ⟨d1, d2, _⟩ := outsideControls_band h2 band
    exact ⟨c1.trans d1, c2.trans d2⟩

/-- A block that is not fast-pathed, band by band: each gain and bypass smoother gets its
target set once and is then advanced `numSamples` times, and value `i` of each curve is
computed from the value returned by call `i + 1` of its smoother. -/
theorem processBlock_controls (J : Juce α γ σ) (e : Engine α γ σ) (buffer : AudioBuffer α)
    (hslow : allBandsAtZero e = false) (band : Band) :
    (processBlock J e buffer).1.gainSmoother band =
      ((e.gainSmoother band).setTargetValue (e.gainParam band)).advance buffer.numSamples ∧
    (processBlock J e buffer).1.bypassSmoother band =
      ((e.bypassSmoother band).setTargetValue (bypassTarget (e.bypassParam band))).advance
        buffer.numSamples ∧
    ((processBlock J e buffer).1.gainCurve band).length =
      max (e.gainCurve band).length buffer.numSamples ∧
    ((processBlock J e buffer).1.bypassCurve band).length =
      max (e.bypassCurve band).length buffer.numSamples ∧
    (∀ i, i < buffer.numSamples →
      ((processBlock J e buffer).1.gainCurve band).getD i 0 =
        decibelsToGain J
          (((e.gainSmoother band).setTargetValue (e.gainParam band)).sample i)) ∧
    (∀ i, i < buffer.numSamples →
      ((processBlock J e buffer).1.bypassCurve band).getD i 0 =
        smoothStep
          (((e.bypassSmoother band).setTargetValue
            (bypassTarget (e.bypassParam band))).sample i)) := by
  rw [processBlock_slow J e buffer hslow]
  have h1 := channelLoop_outside J buffer.numSamples
    (generateCurves J (setTargets e) buffer.numSamples,
      clearUnusedOutputs e.getTotalNumInputChannels e.getTotalNumOutputChannels
        buffer.numSamples buffer) (List.range e.getTotalNumInputChannels)
  obtain ⟨_, _, c3, c4, c5, c6⟩ := outsideChannels_band h1 band
  obtain ⟨g1, g2, g3, g4, g5, g6⟩ := generateCurves_band J (setTargets e) buffer.numSamples band
  obtain ⟨s1, s2, s3, s4⟩ := setTargets_band e band
  rw [s1] at g1 g5
  rw [s2] at g2 g6
  rw [s3] at g3
  rw [s4] at g4
  rw [c3, c4, c5, c6]
  exact ⟨g1, g2, g3, g4, g5, g6⟩

/-- Advancing `m` times and then `n` times is advancing `m + n` times. -/
theorem advance_add (s : SmoothedValue α) (m n : Nat) :
    (s.advance m).advance n = s.advance (m + n) := by
  induction n with
  | zero => rfl
  | succ n ih =>
    show ((s.advance m).advance n).getNextValue.2 = (s.advance (m + n)).getNextValue.2
    rw [ih]

/-- Call `i + 1` after `m` earlier calls is call `m + i + 1`. -/
theorem sample_advance (s : SmoothedValue α) (m i : Nat) :
    (s.advance m).sample i = s.sample (m + i) := by
  unfold SmoothedValue.sample
  rw [advance_add]

/-- `getNextValue` changes neither the target nor the ramp length. -/
theorem getNextValue_target (s : SmoothedValue α) :
    s.getNextValue.2.target = s.target ∧ s.getNextValue.2.stepsToTarget = s.stepsToTarget := by
  unfold SmoothedValue.getNextValue
  split
  · exact ⟨rfl, rfl⟩
  · dsimp only
    split <;> exact ⟨rfl, rfl⟩

/-- Advancing changes neither the target nor the ramp length. -/
theorem advance_target (s : SmoothedValue α) (n : Nat) :
    (s.advance n).target = s.target ∧ (s.advance n).stepsToTarget = s.stepsToTarget := by
  induction n with
  | zero => exact ⟨rfl, rfl⟩
  | succ n ih =>
    obtain ⟨h1, h2⟩ := getNextValue_target (s.advance n)
    exact ⟨h1.trans ih.1, h2.trans ih.2⟩

/-- After `setTargetValue (v)` the target is `v` and the ramp length is as before. -/
theorem setTargetValue_target (s : SmoothedValue α) (v : α) :
    (s.setTargetValue v).target = v ∧ (s.setTargetValue v).stepsToTarget = s.stepsToTarget := by
  unfold SmoothedValue.setTargetValue
  split
  · rename_i h; exact ⟨h.symm, rfl⟩
  · split <;> exact ⟨rfl, rfl⟩

/-- Setting the target it already has leaves a smoother as it is. -/
theorem setTargetValue_of_target (s : SmoothedValue α) (v : α) (h : s.target = v) :
    s.setTargetValue v = s := by
  unfold SmoothedValue.setTargetValue
  rw [if_pos h.symm]

/-- Setting the same target again at a later block start changes nothing. -/
theorem setTargetValue_advance (s : SmoothedValue α) (v : α) (m : Nat) :
    ((s.setTargetValue v).advance m).setTargetValue v = (s.setTargetValue v).advance m :=
  setTargetValue_of_target _ v
    ((advance_target (s.setTargetValue v) m).1.trans (setTargetValue_target s v).1)

/-- A smoother at rest returns its target and stays at rest. -/
theorem getNextValue_settled (s : SmoothedValue α) (v : α) (h : s.SettledAt v) :
    s.getNextValue = (v, s) := by
  obtain ⟨_, h2, h3⟩ := h
  unfold SmoothedValue.getNextValue SmoothedValue.isSmoothing
  rw [h3, h2]
  rfl

/-- A smoother at rest stays as it is however often it is advanced. -/
theorem advance_settled (s : SmoothedValue α) (v : α) (h : s.SettledAt v) (n : Nat) :
    s.advance n = s := by
  induction n with
  | zero => rfl
  | succ n ih =>
    show (s.advance n).getNextValue.2 = s
    rw [ih, getNextValue_settled s v h]

/-- Every value a smoother at rest returns is its resting value. -/
theorem sample_settled (s : SmoothedValue α) (v : α) (h : s.SettledAt v) (i : Nat) :
    s.sample i = v := by
  unfold SmoothedValue.sample
  rw [advance_settled s v h, getNextValue_settled s v h]

/-- The number of samples of a sequence of buffers extended by one buffer. -/
theorem totalSamples_append (buffers : List (AudioBuffer α)) (buffer : AudioBuffer α) :
    totalSamples (buffers ++ [buffer]) = totalSamples buffers + buffer.numSamples := by
  simp [totalSamples]

/-- A sequence of blocks extended by one block. -/
theorem processBlocks_append (J : Juce α γ σ) (e : Engine α γ σ)
    (buffers : List (AudioBuffer α)) (buffer : AudioBuffer α) :
    processBlocks J e (buffers ++ [buffer]) =
      (processBlock J (processBlocks J e buffers) buffer).1 := by
  simp [processBlocks]

/-- A sequence of blocks leaves the parameters as they were, so a sequence that starts
outside the fast path stays outside it. -/
theorem processBlocks_params (J : Juce α γ σ) (e : Engine α γ σ)
    (buffers : List (AudioBuffer α)) :
    (∀ band, (processBlocks J e buffers).gainParam band = e.gainParam band ∧
      (processBlocks J e buffers).bypassParam band = e.bypassParam band) ∧
    allBandsAtZero (processBlocks J e buffers) = allBandsAtZero e := by
  have h : ∀ band, (processBlocks J e buffers).gainParam band = e.gainParam band ∧
      (processBlocks J e buffers).bypassParam band = e.bypassParam band := by
    induction buffers using List.reverseRecOn with
    | nil => exact fun _ => ⟨rfl, rfl⟩
    | append_singleton buffers buffer ih =>
      intro band
      rw [processBlocks_append]
      obtain ⟨h1, h2⟩ := (processBlock_settings J (processBlocks J e buffers) buffer).1 band
      exact ⟨h1.trans (ih band).1, h2.trans (ih band).2⟩
  exact ⟨h, allBandsAtZero_congr _ _ h⟩

/-- Across a sequence of blocks that are not fast-pathed and during which the parameters
do not change, each smoother is where one `setTargetValue` and one `getNextValue` per sample
processed so far take it. -/
theorem processBlocks_controls (J : Juce α γ σ) (e : Engine α γ σ)
    (buffers : List (AudioBuffer α)) (hslow : allBandsAtZero e = false) (band : Band) :
    ((processBlocks J e buffers).gainSmoother band).setTargetValue (e.gainParam band) =
      ((e.gainSmoother band).setTargetValue (e.gainParam band)).advance
        (totalSamples buffers) ∧
    ((processBlocks J e buffers).bypassSmoother band).setTargetValue
        (bypassTarget (e.bypassParam band)) =
      ((e.bypassSmoother band).setTargetValue (bypassTarget (e.bypassParam band))).advance
        (totalSamples buffers) := by
  induction buffers using List.reverseRecOn with
  | nil => exact ⟨rfl, rfl⟩
  | append_singleton buffers buffer ih =>
    obtain ⟨hp, hz⟩ := processBlocks_params J e buffers
    rw [hslow] at hz
    obtain ⟨c1, c2, _⟩ := processBlock_controls J (processBlocks J e buffers) buffer hz band
    rw [(hp band).1, ih.1, advance_add] at c1
    rw [(hp band).2, ih.2, advance_add] at c2
    rw [processBlocks_append, totalSamples_append, c1, c2]
    exact ⟨setTargetValue_advance _ _ _, setTargetValue_advance _ _ _⟩

/-- The curves of a block that follows a sequence of blocks, none fast-pathed and the
parameters unchanged throughout: value `i` of each curve is computed from the value its
smoother returns at call `m + i + 1` after the one `setTargetValue`, where `m` is the number of
samples processed before the block. -/
theorem processBlocks_curves (J : Juce α γ σ) (e : Engine α γ σ)
    (buffers : List (AudioBuffer α)) (buffer : AudioBuffer α)
    (hslow : allBandsAtZero e = false) (band : Band) (i : Nat) (hi : i < buffer.numSamples) :
    ((processBlock J (processBlocks J e buffers) buffer).1.gainCurve band).getD i 0 =
      decibelsToGain J
        (((e.gainSmoother band).setTargetValue (e.gainParam band)).sample
          (totalSamples buffers + i)) ∧
    ((processBlock J (processBlocks J e buffers) buffer).1.bypassCurve band).getD i 0 =
      smoothStep
        (((e.bypassSmoother band).setTargetValue (bypassTarget (e.bypassParam band))).sample
          (totalSamples buffers + i)) := by
  obtain ⟨hp, hz⟩ := processBlocks_params J e buffers
  rw [hslow] at hz
  obtain ⟨_, _, _, _, c5, c6⟩ := processBlock_controls J (processBlocks J e buffers) buffer hz band
  obtain ⟨b1, b2⟩ := processBlocks_controls J e buffers hslow band
  rw [c5 i hi, c6 i hi, (hp band).1, (hp band).2, b1, b2, sample_advance, sample_advance]
  exact ⟨rfl, rfl⟩

/-- C19: in a block that is not fast-pathed, each of the eight gain and bypass smoothers ends
where one `setTargetValue` followed by `numSamples` calls of `getNextValue` take it; this does
not depend on the layout or the channels (a processor with the same parameters and smoothers
ends with the same smoothers on any buffer of that many samples); and every processed channel
is mixed with the same eight curves, those the processor holds after the call. -/
theorem processBlock_controls_once (J : Juce α γ σ) (e : Engine α γ σ) (buffer : AudioBuffer α)
    (hslow : allBandsAtZero e = false) :
    (∀ band,
      (processBlock J e buffer).1.gainSmoother band =
        ((e.gainSmoother band).setTargetValue (e.gainParam band)).advance buffer.numSamples ∧
      (processBlock J e buffer).1.bypassSmoother band =
        ((e.bypassSmoother band).setTargetValue (bypassTarget (e.bypassParam band))).advance
          buffer.numSamples) ∧
    (∀ (e2 : Engine α γ σ) (buffer2 : AudioBuffer α),
      (∀ band, e2.gainParam band = e.gainParam band ∧ e2.bypassParam band = e.bypassParam band ∧
        e2.gainSmoother band = e.gainSmoother band ∧
        e2.bypassSmoother band = e.bypassSmoother band) →
      buffer2.numSamples = buffer.numSamples →
      ∀ band,
        (processBlock J e2 buffer2).1.gainSmoother band =
          (processBlock J e buffer).1.gainSmoother band ∧
        (processBlock J e2 buffer2).1.bypassSmoother band =
          (processBlock J e buffer).1.bypassSmoother band) ∧
    (∀ ch, ch < e.getTotalNumInputChannels → ch < buffer.channels.length →
      (processBlock J e buffer).2.channels.getD ch [] =
        mixLoop (processBlock J e buffer).1 (lowBlocked J e buffer buffer.numSamples ch).1
          (lowMidFiltered J e buffer buffer.numSamples ch)
          (midFiltered J e buffer buffer.numSamples ch)
          (highFiltered J e buffer buffer.numSamples ch) buffer.numSamples
          (buffer.channels.getD ch [])) := by
  refine ⟨fun band => ?_, fun e2 buffer2 hsame hn band => ?_, fun ch hch hbuf => ?_⟩
  · obtain ⟨h1, h2, _⟩ := processBlock_controls J e buffer hslow band
    exact ⟨h1, h2⟩
  · have hz : allBandsAtZero e2 = false := by
      rw [allBandsAtZero_congr e2 e (fun b => ⟨(hsame b).1, (hsame b).2.1⟩)]; exact hslow
    obtain ⟨h1, h2, _⟩ := processBlock_controls J e buffer hslow band
    obtain ⟨k1, k2, _⟩ := processBlock_controls J e2 buffer2 hz band
    obtain ⟨p1, p2, p3, p4⟩ := hsame band
    rw [h1, h2, k1, k2, p1, p2, p3, p4, hn]
    exact ⟨rfl, rfl⟩
  · exact (processBlock_channel J e buffer hslow ch hch).1 hbuf

/-- The low gain smoother and the high bypass smoother after a stereo block of three
samples. -/
theorem processBlock_controls_once_witness :
    (processBlock Juce.sample Engine.samplePrepared AudioBuffer.sample).1.gainSmoother Band.low =
      ((Engine.samplePrepared.gainSmoother Band.low).setTargetValue
        (Engine.samplePrepared.gainParam Band.low)).advance AudioBuffer.sample.numSamples ∧
    (processBlock Juce.sample Engine.samplePrepared AudioBuffer.sample).1.bypassSmoother
        Band.high =
      ((Engine.samplePrepared.bypassSmoother Band.high).setTargetValue
        (bypassTarget (Engine.samplePrepared.bypassParam Band.high))).advance
          AudioBuffer.sample.numSamples :=
  ⟨((processBlock_controls_once Juce.sample Engine.samplePrepared AudioBuffer.sample
      (by decide)).1 Band.low).1,
    ((processBlock_controls_once Juce.sample Engine.samplePrepared AudioBuffer.sample
      (by decide)).1 Band.high).2⟩

/-- Running the DC blocker over two consecutive pieces of input. -/
theorem dcBlocker_append (r prevX prevY : α) (xs ys : List α) :
    dcBlocker r prevX prevY (xs ++ ys) =
      ((dcBlocker r prevX prevY xs).1 ++
          (dcBlocker r (dcBlocker r prevX prevY xs).2.1 (dcBlocker r prevX prevY xs).2.2 ys).1,
        (dcBlocker r (dcBlocker r prevX prevY xs).2.1 (dcBlocker r prevX prevY xs).2.2 ys).2) := by
  induction xs generalizing prevX prevY with
  | nil => rfl
  | cons x xs ih =>
    have h := ih x (x - prevX + r * prevY)
    show dcBlocker r prevX prevY (x :: (xs ++ ys)) = _
    simp only [dcBlocker]
    rw [h]
    rfl

/-- C17: for every DC blocker state and every input sequence, running the DC blocker on the
first `n` samples and then, from the state it ended in, on the remaining samples gives the
same outputs and the same final previous x and previous y as running it once on all of them. -/
theorem dcBlocker_block_split (r prevX prevY : α) (x : List α) (n : Nat) :
    (dcBlocker r prevX prevY x).1 =
      (dcBlocker r prevX prevY (x.take n)).1 ++
        (dcBlocker r (dcBlocker r prevX prevY (x.take n)).2.1
          (dcBlocker r prevX prevY (x.take n)).2.2 (x.drop n)).1 ∧
    (dcBlocker r prevX prevY x).2 =
      (dcBlocker r (dcBlocker r prevX prevY (x.take n)).2.1
        (dcBlocker r prevX prevY (x.take n)).2.2 (x.drop n)).2 := by
  have h := dcBlocker_append r prevX prevY (x.take n) (x.drop n)
  rw [List.take_append_drop] at h
  rw [h]
  exact ⟨rfl, rfl⟩

/-- What `prepareToPlay` leaves, band by band: the parameters are untouched, each smoother
rests at its parameter's value with the ramp length of its band, the curves are
`samplesPerBlock` ones and there is one scratch buffer of `samplesPerBlock` samples per output
channel. -/
theorem prepareToPlay_band (J : Juce α γ σ) (cache : CoefficientCache α γ) (e : Engine α γ σ)
    (sampleRate : α) (samplesPerBlock : Nat) (band : Band) :
    ((prepareToPlay J cache e sampleRate samplesPerBlock).2.gainParam band = e.gainParam band ∧
      (prepareToPlay J cache e sampleRate samplesPerBlock).2.bypassParam band =
        e.bypassParam band) ∧
    (((prepareToPlay J cache e sampleRate samplesPerBlock).2.gainSmoother band).SettledAt
        (e.gainParam band) ∧
      ((prepareToPlay J cache e sampleRate samplesPerBlock).2.gainSmoother band).stepsToTarget =
        J.floorToInt (gainRampSeconds band * sampleRate)) ∧
    (((prepareToPlay J cache e sampleRate samplesPerBlock).2.bypassSmoother band).SettledAt
        (bypassTarget (e.bypassParam band)) ∧
      ((prepareToPlay J cache e sampleRate samplesPerBlock).2.bypassSmoother band).stepsToTarget =
        J.floorToInt (bypassRampSeconds band * sampleRate)) ∧
    ((prepareToPlay J cache e sampleRate samplesPerBlock).2.gainCurve band =
        List.replicate samplesPerBlock 1 ∧
      (prepareToPlay J cache e sampleRate samplesPerBlock).2.bypassCurve band =
        List.replicate samplesPerBlock 1) ∧
    (prepareToPlay J cache e sampleRate samplesPerBlock).2.tempBuffers band =
      List.replicate e.getTotalNumOutputChannels samplesPerBlock ∧
    (prepareToPlay J cache e sampleRate samplesPerBlock).2.busesLayout = e.busesLayout := by
  cases band <;>
    refine ⟨⟨?_, ?_⟩, ⟨⟨?_, ?_, ?_⟩, ?_⟩, ⟨⟨?_, ?_, ?_⟩, ?_⟩, ⟨?_, ?_⟩, ?_, ?_⟩ <;>
    (simp only [prepareToPlay, prepareFilters_eq, updateFilters, foldl_set_vectorResize]
     try rfl)

/-- The scratch buffer check does nothing for a channel whose buffers are large enough. -/
theorem growTempBuffers_of_le (n : Nat) (e : Engine α γ σ) (ch : Nat)
    (h : n ≤ e.lowTempBuffers.getD ch 0) : growTempBuffers n e ch = e := by
  unfold growTempBuffers
  rw [if_neg (Nat.not_lt.mpr h)]

/-- One pass of the channel loop leaves the scratch buffer sizes as the size check at its
head leaves them. -/
theorem processChannel_tempBuffers (J : Juce α γ σ) (n : Nat)
    (st : Engine α γ σ × AudioBuffer α) (ch : Nat) (band : Band) :
    (processChannel J n st ch).1.tempBuffers band =
      (growTempBuffers n st.1 ch).tempBuffers band := by
  cases band <;> rfl

/-- The channel loop leaves the scratch buffer sizes alone when every channel it visits has
buffers of at least `n` samples. -/
theorem channelLoop_tempBuffers (J : Juce α γ σ) (n : Nat) (l : List Nat)
    (st : Engine α γ σ × AudioBuffer α)
    (h : ∀ ch ∈ l, n ≤ st.1.lowTempBuffers.getD ch 0) (band : Band) :
    (l.foldl (processChannel J n) st).1.tempBuffers band = st.1.tempBuffers band := by
  induction l generalizing st with
  | nil => rfl
  | cons ch l ih =>
    simp only [List.foldl_cons]
    have hch : n ≤ st.1.lowTempBuffers.getD ch 0 := h ch (List.mem_cons_self ch l)
    have hstep : ∀ b : Band, (processChannel J n st ch).1.tempBuffers b = st.1.tempBuffers b := by
      intro b
      rw [processChannel_tempBuffers, growTempBuffers_of_le n st.1 ch hch]
    have hlow : (processChannel J n st ch).1.lowTempBuffers = st.1.lowTempBuffers :=
      hstep Band.low
    rw [ih (processChannel J n st ch) (fun c hc => by
      rw [hlow]; exact h c (List.mem_cons_of_mem ch hc))]
    exact hstep band

/-- `prepareToPlay (sampleRate, samplesPerBlock)` sizes the curves and the scratch buffers
for blocks of `samplesPerBlock` samples. -/
theorem prepareToPlay_preparedFor (J : Juce α γ σ) (cache : CoefficientCache α γ)
    (e : Engine α γ σ) (sampleRate : α) (samplesPerBlock : Nat) :
    (prepareToPlay J cache e sampleRate samplesPerBlock).2.PreparedFor samplesPerBlock := by
  intro band
  obtain ⟨_, _, _, ⟨h1, h2⟩, h3, h4⟩ := prepareToPlay_band J cache e sampleRate samplesPerBlock band
  rw [h1, h2, h3]
  unfold Engine.getTotalNumOutputChannels
  rw [h4]
  exact ⟨List.length_replicate _ _, List.length_replicate _ _, rfl⟩

/-- C16: no buffer is resized inside `processBlock` within the negotiated block size.  For a
processor whose buffers have the sizes `prepareToPlay (sampleRate, samplesPerBlock)` gives them,
in a supported layout, a `processBlock` call with `numSamples ≤ samplesPerBlock` leaves the
lengths of the eight control curves and the sizes of all scratch buffers of every band as they
were, so the processor is still sized for `samplesPerBlock` after the call; and `prepareToPlay`
leaves the processor so sized. -/
theorem processBlock_no_resize (J : Juce α γ σ) (e : Engine α γ σ) (buffer : AudioBuffer α)
    (samplesPerBlock : Nat) (hprepared : e.PreparedFor samplesPerBlock)
    (hlayout : isBusesLayoutSupported false false e.busesLayout = true)
    (hn : buffer.numSamples ≤ samplesPerBlock) :
    (∀ band : Band,
      ((processBlock J e buffer).1.gainCurve band).length = (e.gainCurve band).length ∧
      ((processBlock J e buffer).1.bypassCurve band).length = (e.bypassCurve band).length ∧
      (processBlock J e buffer).1.tempBuffers band = e.tempBuffers band) ∧
    (processBlock J e buffer).1.PreparedFor samplesPerBlock ∧
    (∀ (cache : CoefficientCache α γ) (e0 : Engine α γ σ) (sampleRate : α),
      (prepareToPlay J cache e0 sampleRate samplesPerBlock).2.PreparedFor samplesPerBlock ∧
      (prepareToPlay J cache e0 sampleRate samplesPerBlock).2.busesLayout = e0.busesLayout) := by
  have hsame : ∀ band : Band,
      ((processBlock J e buffer).1.gainCurve band).length = (e.gainCurve band).length ∧
      ((processBlock J e buffer).1.bypassCurve band).length = (e.bypassCurve band).length ∧
      (processBlock J e buffer).1.tempBuffers band = e.tempBuffers band := by
    intro band
    by_cases hz : allBandsAtZero e = true
    · have : (processBlock J e buffer).1 = e := by simp only [processBlock, hz, if_true]
      rw [this]
      exact ⟨rfl, rfl, rfl⟩
    · have hslow : allBandsAtZero e = false := by simpa using hz
      obtain ⟨_, _, c3, c4, _, _⟩ := processBlock_controls J e buffer hslow band
      obtain ⟨p1, p2, _⟩ := hprepared band
      refine ⟨?_, ?_, ?_⟩
      · rw [c3, p1]; exact Nat.max_eq_left hn
      · rw [c4, p2]; exact Nat.max_eq_left hn
      · rw [processBlock_slow J e buffer hslow]
        have h2 : OutsideControls (generateCurves J (setTargets e) buffer.numSamples) e := by
          unfold generateCurves
          exact outsideControls_trans (curveLoop_outside J _ _) rfl
        have hcur : ∀ b : Band,
            (generateCurves J (setTargets e) buffer.numSamples).tempBuffers b =
              e.tempBuffers b := fun b => (outsideControls_band h2 b).2.2
        have hlow : (generateCurves J (setTargets e) buffer.numSamples).lowTempBuffers =
            List.replicate e.getTotalNumOutputChannels samplesPerBlock :=
          (hcur Band.low).trans (hprepared Band.low).2.2
        have hio : e.getTotalNumInputChannels = e.getTotalNumOutputChannels := by
          unfold Engine.getTotalNumInputChannels Engine.getTotalNumOutputChannels
          rw [supported_layout_channels e.busesLayout hlayout]
        rw [channelLoop_tempBuffers J buffer.numSamples _ _ (fun ch hch => by
          show buffer.numSamples ≤
            (generateCurves J (setTargets e) buffer.numSamples).lowTempBuffers.getD ch 0
          rw [hlow]
          have hlt : ch < e.getTotalNumOutputChannels := by
            rw [← hio]; exact List.mem_range.mp hch
          rw [List.getD_eq_getElem _ _ (by rw [List.length_replicate]; exact hlt),
            List.getElem_replicate]
          exact hn) band]
        exact hcur band
  refine ⟨hsame, fun band => ?_, fun cache e0 sampleRate =>
    ⟨prepareToPlay_preparedFor J cache e0 sampleRate samplesPerBlock,
      (prepareToPlay_band J cache e0 sampleRate samplesPerBlock Band.low).2.2.2.2.2⟩⟩
  obtain ⟨s1, s2, s3⟩ := hsame band
  obtain ⟨p1, p2, p3⟩ := hprepared band
  have hl : (processBlock J e buffer).1.getTotalNumOutputChannels =
      e.getTotalNumOutputChannels := by
    unfold Engine.getTotalNumOutputChannels
    rw [(processBlock_settings J e buffer).2.1]
  rw [hl]
  exact ⟨s1.trans p1, s2.trans p2, s3.trans p3⟩

/-- The processor `Engine.samplePrepared`, prepared for blocks of 4, keeps its buffer sizes
over a block of 3 samples: the low gain curve and the scratch buffers of the high band. -/
theorem processBlock_no_resize_witness :
    ((processBlock Juce.sample Engine.samplePrepared AudioBuffer.sample).1.gainCurve
      Band.low).length = 4 ∧
    (processBlock Juce.sample Engine.samplePrepared AudioBuffer.sample).1.tempBuffers Band.high =
      [4, 4] := by
  have hprep : Engine.samplePrepared.PreparedFor 4 :=
    prepareToPlay_preparedFor Juce.sample (CoefficientCache.init Juce.sample)
      Engine.sampleBoosted 44100 4
  have h := processBlock_no_resize Juce.sample Engine.samplePrepared AudioBuffer.sample 4 hprep
    (by decide) (by decide)
  exact ⟨(h.1 Band.low).1.trans (hprep Band.low).1,
    ((h.1 Band.high).2.2.trans (hprep Band.high).2.2).trans (by decide)⟩

/-- Filtering a block leaves the coefficient object of a filter alone. -/
theorem filter_process_coefficients (J : Juce α γ σ) (f : Filter γ σ) (xs : List α) :
    (f.process J xs).1.coefficients = f.coefficients := by
  induction xs generalizing f with
  | nil => rfl
  | cons x xs ih =>
    simp only [Filter.process]
    rw [ih]

/-- Filtering a block leaves the coefficient objects of a chain alone. -/
theorem chain_process_coefficients (J : Juce α γ σ) (c : ProcessorChain γ σ) (xs : List α) :
    (c.process J xs).1.coefficients = c.coefficients := by
  unfold ProcessorChain.process ProcessorChain.coefficients
  simp only [filter_process_coefficients]

/-- Writing back an element with the same image leaves the mapped list as it was. -/
theorem map_set_getD {β δ : Type} (f : β → δ) (l : List β) (i : Nat) (v d : β)
    (h : f v = f (l.getD i d)) : (l.set i v).map f = l.map f := by
  induction l generalizing i with
  | nil => rfl
  | cons a l ih =>
    cases i with
    | zero =>
      simp only [List.set_cons_zero, List.map_cons]
      rw [h]
      rfl
    | succ i =>
      simp only [List.set_cons_succ, List.map_cons]
      rw [ih i (by simpa using h)]

/-- One pass of the channel loop leaves every coefficient object as it was. -/
theorem processChannel_coefficients (J : Juce α γ σ) (n : Nat)
    (st : Engine α γ σ × AudioBuffer α) (ch : Nat) :
    (processChannel J n st ch).1.coefficients = st.1.coefficients := by
  have hset : ∀ (l : List (ProcessorChain γ σ)) (xs : List α),
      (l.set ch ((l.getD ch (ProcessorChain.init J)).process J xs).1).map
        ProcessorChain.coefficients = l.map ProcessorChain.coefficients :=
    fun l xs => map_set_getD _ l ch _ _ (chain_process_coefficients J _ xs)
  unfold Engine.coefficients processChannel growTempBuffers
  split <;> simp only [hset]

/-- The channel loop leaves every coefficient object as it was. -/
theorem channelLoop_coefficients (J : Juce α γ σ) (n : Nat) (l : List Nat)
    (st : Engine α γ σ × AudioBuffer α) :
    (l.foldl (processChannel J n) st).1.coefficients = st.1.coefficients := by
  induction l generalizing st with
  | nil => rfl
  | cons ch l ih =>
    simp only [List.foldl_cons]
    rw [ih, processChannel_coefficients]

/-- Whatever path `processBlock` takes, every coefficient object is as it was. -/
theorem processBlock_coefficients (J : Juce α γ σ) (e : Engine α γ σ)
    (buffer : AudioBuffer α) : (processBlock J e buffer).1.coefficients = e.coefficients := by
  by_cases hz : allBandsAtZero e = true
  · have : (processBlock J e buffer).1 = e := by simp only [processBlock, hz, if_true]
    rw [this]
  · have hslow : allBandsAtZero e = false := by simpa using hz
    rw [processBlock_slow J e buffer hslow, channelLoop_coefficients]
    obtain ⟨g1, g2, g3, g4, _⟩ := generateCurves_frame J e buffer.numSamples
    unfold Engine.coefficients
    rw [g1, g2, g3, g4]

/-- C21: `updateFilters` replaces the six cached coefficient sets by the designs for the
current `processSpec.sampleRate` when that rate differs from the cached last-seen rate, and
leaves the statics (coefficient sets and last-seen rate) exactly as they were when the two are
equal; in both cases every chain gets the coefficients the statics hold after the call, and
nothing but coefficients changes in a chain.  `processBlock`, which does not have the statics
among its inputs, leaves the coefficient objects of every chain of every band as they were. -/
theorem updateFilters_recompute_iff (J : Juce α γ σ) (cache : CoefficientCache α γ)
    (e : Engine α γ σ) (buffer : AudioBuffer α) :
    ((e.processSpec.sampleRate ≠ cache.lastSampleRate →
        (updateFilters J cache e).1 =
          CoefficientCache.design J e.processSpec.sampleRate e.processSpec.sampleRate) ∧
      (e.processSpec.sampleRate = cache.lastSampleRate → (updateFilters J cache e).1 = cache)) ∧
    ((updateFilters J cache e).2.lowPassFilters =
        e.lowPassFilters.map (fun chain =>
          { first := { chain.first with
              coefficients := (updateFilters J cache e).1.cachedLowPassCoeff }
            second := { chain.second with
              coefficients := (updateFilters J cache e).1.cachedLowPassCoeff } }) ∧
      (updateFilters J cache e).2.lowMidFilters =
        e.lowMidFilters.map (fun chain =>
          { first := { chain.first with
              coefficients := (updateFilters J cache e).1.cachedLowMidHighPassCoeff }
            second := { chain.second with
              coefficients := (updateFilters J cache e).1.cachedLowMidLowPassCoeff } }) ∧
      (updateFilters J cache e).2.midFilters =
        e.midFilters.map (fun chain =>
          { first := { chain.first with
              coefficients := (updateFilters J cache e).1.cachedMidHighPassCoeff }
            second := { chain.second with
              coefficients := (updateFilters J cache e).1.cachedMidLowPassCoeff } }) ∧
      (updateFilters J cache e).2.highPassFilters =
        e.highPassFilters.map (fun chain =>
          { first := { chain.first with
              coefficients := (updateFilters J cache e).1.cachedHighPassCoeff }
            second := { chain.second with
              coefficients := (updateFilters J cache e).1.cachedHighPassCoeff } })) ∧
    (processBlock J e buffer).1.coefficients = e.coefficients ∧
    (∀ buffers : List (AudioBuffer α), (processBlocks J e buffers).coefficients =
      e.coefficients) := by
  refine ⟨⟨fun hne => ?_, fun heq => ?_⟩, ⟨rfl, rfl, rfl, rfl⟩,
    processBlock_coefficients J e buffer, fun buffers => ?_⟩
  · unfold updateFilters
    simp only [if_pos hne]
  · unfold updateFilters
    simp only [if_neg (not_not.mpr heq)]
  · induction buffers using List.reverseRecOn with
    | nil => rfl
    | append_singleton buffers last ih =>
      rw [processBlocks_append, processBlock_coefficients, ih]

/-- The statics after a sequence of `updateFilters` calls are in a state they can reach. -/
theorem updateFilters_foldl_reachable (J : Juce α γ σ) (calls : List (Engine α γ σ)) :
    CoefficientCache.Reachable J
      (calls.foldl (fun cache call => (updateFilters J cache call).1)
        (CoefficientCache.init J)) := by
  induction calls using List.reverseRecOn with
  | nil => exact CoefficientCache.Reachable.init
  | append_singleton calls call ih =>
    rw [List.foldl_append]
    exact CoefficientCache.Reachable.update _ call ih

/-- With the statics in a state they can reach, a call of `updateFilters` at a sample rate
other than 0 leaves the designs for that rate in the statics. -/
theorem updateFilters_design_of_ne_zero (J : Juce α γ σ) (cache : CoefficientCache α γ)
    (e : Engine α γ σ) (h : CoefficientCache.Reachable J cache)
    (hrate : e.processSpec.sampleRate ≠ 0) :
    (updateFilters J cache e).1 =
      CoefficientCache.design J e.processSpec.sampleRate e.processSpec.sampleRate := by
  obtain ⟨rate, hd, hr⟩ := reachable_cache_design J _
    (CoefficientCache.Reachable.update cache e h)
  rw [updateFilters_lastSampleRate] at hd hr
  rw [hd, hr hrate]

/-- The output sample of a block that is not fast-pathed is the sum of the four band
addends, summed from Low to High. -/
theorem processBlock_output_terms (J : Juce α γ σ) (e : Engine α γ σ) (buffer : AudioBuffer α)
    (hslow : allBandsAtZero e = false) (hwf : buffer.WellFormed) (ch i : Nat)
    (hch : ch < e.getTotalNumInputChannels) (hbuf : ch < buffer.channels.length)
    (hi : i < buffer.numSamples) :
    ((processBlock J e buffer).2.channels.getD ch []).getD i 0 =
      bandTerm J e (processBlock J e buffer).1 buffer ch i Band.low +
      bandTerm J e (processBlock J e buffer).1 buffer ch i Band.lowMid +
      bandTerm J e (processBlock J e buffer).1 buffer ch i Band.mid +
      bandTerm J e (processBlock J e buffer).1 buffer ch i Band.high := by
  rw [(processBlock_channel J e buffer hslow ch hch).1 hbuf,
    mixLoop_getD _ _ _ _ _ _ _ i hi (by rw [wellFormed_length_getD hwf ch hbuf]; exact hi)]
  rfl

/-- One pass of the channel loop keeps the per-channel vectors allocated. -/
theorem processChannel_allocated (J : Juce α γ σ) (n : Nat) (st : Engine α γ σ × AudioBuffer α)
    (ch numChannels : Nat) (h : st.1.AllocatedFor numChannels) :
    (processChannel J n st ch).1.AllocatedFor numChannels := by
  obtain ⟨⟨a1, a2, a3, a4⟩, ⟨b1, b2⟩, c1, c2, c3, c4⟩ := h
  unfold Engine.AllocatedFor processChannel growTempBuffers
  split <;>
    simp only [List.length_set, a1, a2, a3, a4, b1, b2, c1, c2, c3, c4, and_self]

/-- The channel loop keeps the per-channel vectors allocated. -/
theorem channelLoop_allocated (J : Juce α γ σ) (n : Nat) (l : List Nat)
    (st : Engine α γ σ × AudioBuffer α) (numChannels : Nat)
    (h : st.1.AllocatedFor numChannels) :
    (l.foldl (processChannel J n) st).1.AllocatedFor numChannels := by
  induction l generalizing st with
  | nil => exact h
  | cons ch l ih =>
    simp only [List.foldl_cons]
    exact ih _ (processChannel_allocated J n st ch numChannels h)

/-- The curve block of `processBlock` keeps the per-channel vectors as they are. -/
theorem generateCurves_allocated (J : Juce α γ σ) (e : Engine α γ σ) (n numChannels : Nat)
    (h : e.AllocatedFor numChannels) :
    (generateCurves J (setTargets e) n).AllocatedFor numChannels := by
  obtain ⟨g1, g2, g3, g4, g5, g6, _⟩ := generateCurves_frame J e n
  have h2 : OutsideControls (generateCurves J (setTargets e) n) e := by
    unfold generateCurves
    exact outsideControls_trans (curveLoop_outside J _ _) rfl
  have t1 : (generateCurves J (setTargets e) n).lowTempBuffers = e.lowTempBuffers :=
    (outsideControls_band h2 Band.low).2.2
  have t2 : (generateCurves J (setTargets e) n).lowMidTempBuffers = e.lowMidTempBuffers :=
    (outsideControls_band h2 Band.lowMid).2.2
  have t3 : (generateCurves J (setTargets e) n).midTempBuffers = e.midTempBuffers :=
    (outsideControls_band h2 Band.mid).2.2
  have t4 : (generateCurves J (setTargets e) n).highTempBuffers = e.highTempBuffers :=
    (outsideControls_band h2 Band.high).2.2
  unfold Engine.AllocatedFor
  rw [g1, g2, g3, g4, g5, g6, t1, t2, t3, t4]
  exact h

/-- Whatever path `processBlock` takes, it keeps the per-channel vectors allocated. -/
theorem processBlock_allocated (J : Juce α γ σ) (e : Engine α γ σ) (buffer : AudioBuffer α)
    (numChannels : Nat) (h : e.AllocatedFor numChannels) :
    (processBlock J e buffer).1.AllocatedFor numChannels := by
  by_cases hz : allBandsAtZero e = true
  · have : (processBlock J e buffer).1 = e := by simp only [processBlock, hz, if_true]
    rw [this]
    exact h
  · have hslow : allBandsAtZero e = false := by simpa using hz
    rw [processBlock_slow J e buffer hslow]
    exact channelLoop_allocated J _ _ _ numChannels
      (generateCurves_allocated J e buffer.numSamples numChannels h)

/-- `prepareToPlay` allocates the per-channel vectors for the output channels. -/
theorem prepareToPlay_allocated (J : Juce α γ σ) (cache : CoefficientCache α γ)
    (e : Engine α γ σ) (sampleRate : α) (samplesPerBlock : Nat) :
    (prepareToPlay J cache e sampleRate samplesPerBlock).2.AllocatedFor
      e.getTotalNumOutputChannels := by
  obtain ⟨f1, f2, f3, f4⟩ := prepareToPlay_filters J cache e sampleRate samplesPerBlock
  obtain ⟨_, _, ⟨x1, x2⟩, _⟩ := prepareToPlay_controls J cache e sampleRate samplesPerBlock
  have t1 : (prepareToPlay J cache e sampleRate samplesPerBlock).2.lowTempBuffers = _ :=
    (prepareToPlay_band J cache e sampleRate samplesPerBlock Band.low).2.2.2.2.1
  have t2 : (prepareToPlay J cache e sampleRate samplesPerBlock).2.lowMidTempBuffers = _ :=
    (prepareToPlay_band J cache e sampleRate samplesPerBlock Band.lowMid).2.2.2.2.1
  have t3 : (prepareToPlay J cache e sampleRate samplesPerBlock).2.midTempBuffers = _ :=
    (prepareToPlay_band J cache e sampleRate samplesPerBlock Band.mid).2.2.2.2.1
  have t4 : (prepareToPlay J cache e sampleRate samplesPerBlock).2.highTempBuffers = _ :=
    (prepareToPlay_band J cache e sampleRate samplesPerBlock Band.high).2.2.2.2.1
  unfold Engine.AllocatedFor
  rw [f1, f2, f3, f4, x1, x2, t1, t2, t3, t4]
  simp only [List.length_replicate, and_self]

/-- After the size check at the head of a pass of the channel loop, each of the four scratch
buffers of the channel holds at least `n` samples. -/
theorem growTempBuffers_size (n : Nat) (e : Engine α γ σ) (ch numChannels : Nat)
    (h : e.AllocatedFor numChannels) (hch : ch < numChannels) (band : Band) :
    n ≤ ((growTempBuffers n e ch).tempBuffers band).getD ch 0 := by
  obtain ⟨_, _, c1, c2, c3, c4⟩ := h
  have hlt : ch < e.lowTempBuffers.length := by rw [c1]; exact hch
  unfold growTempBuffers
  split
  · cases band <;>
      simp only [Engine.tempBuffers, c2, c3, c4, getD_set_self _ _ _ _ hlt, le_refl]
  · rename_i hge
    cases band <;> simp only [Engine.tempBuffers, c2, c3, c4] <;> exact Nat.not_lt.mp hge

/-- C23: index safety of `processBlock`.  For a processor whose per-channel vectors are
allocated for `numChannels` channels, as `prepareToPlay` leaves them for the output channels,
and whose input channel count is at most `numChannels`, in a block of any `numSamples` that is
not fast-pathed: after the curve block each of the eight control curves holds at least
`numSamples` values, and so it does at every pass of the channel loop; at the pass for channel
`ch` the filter chain vectors, the DC blocker state vectors and the scratch buffer vectors of
all bands have more than `ch` entries, and after the size check each of the four scratch buffers
of the channel holds at least `numSamples` samples.  Every `processBlock` call keeps the vectors
so allocated for the next call. -/
theorem processBlock_index_safety (J : Juce α γ σ) (e : Engine α γ σ) (buffer : AudioBuffer α)
    (numChannels : Nat) (halloc : e.AllocatedFor numChannels)
    (hin : e.getTotalNumInputChannels ≤ numChannels) :
    (allBandsAtZero e = false →
      (∀ band : Band,
        buffer.numSamples ≤
          ((generateCurves J (setTargets e) buffer.numSamples).gainCurve band).length ∧
        buffer.numSamples ≤
          ((generateCurves J (setTargets e) buffer.numSamples).bypassCurve band).length) ∧
      (∀ ch, ch < e.getTotalNumInputChannels →
        (∀ band : Band,
          buffer.numSamples ≤
            ((((List.range ch).foldl (processChannel J buffer.numSamples)
              (generateCurves J (setTargets e) buffer.numSamples,
                clearUnusedOutputs e.getTotalNumInputChannels e.getTotalNumOutputChannels
                  buffer.numSamples buffer)).1).gainCurve band).length ∧
          buffer.numSamples ≤
            ((((List.range ch).foldl (processChannel J buffer.numSamples)
              (generateCurves J (setTargets e) buffer.numSamples,
                clearUnusedOutputs e.getTotalNumInputChannels e.getTotalNumOutputChannels
                  buffer.numSamples buffer)).1).bypassCurve band).length ∧
          ch < ((((List.range ch).foldl (processChannel J buffer.numSamples)
              (generateCurves J (setTargets e) buffer.numSamples,
                clearUnusedOutputs e.getTotalNumInputChannels e.getTotalNumOutputChannels
                  buffer.numSamples buffer)).1).tempBuffers band).length ∧
          buffer.numSamples ≤
            ((growTempBuffers buffer.numSamples
              ((List.range ch).foldl (processChannel J buffer.numSamples)
                (generateCurves J (setTargets e) buffer.numSamples,
                  clearUnusedOutputs e.getTotalNumInputChannels e.getTotalNumOutputChannels
                    buffer.numSamples buffer)).1 ch).tempBuffers band).getD ch 0) ∧
        (((List.range ch).foldl (processChannel J buffer.numSamples)
            (generateCurves J (setTargets e) buffer.numSamples,
              clearUnusedOutputs e.getTotalNumInputChannels e.getTotalNumOutputChannels
                buffer.numSamples buffer)).1).AllocatedFor numChannels ∧
        ch < numChannels)) ∧
    (processBlock J e buffer).1.AllocatedFor numChannels ∧
    (processBlock J e buffer).1.getTotalNumInputChannels = e.getTotalNumInputChannels ∧
    (∀ (cache : CoefficientCache α γ) (e0 : Engine α γ σ) (sampleRate : α)
        (samplesPerBlock : Nat),
      (prepareToPlay J cache e0 sampleRate samplesPerBlock).2.AllocatedFor
        e0.getTotalNumOutputChannels) := by
  have hcurves : ∀ band : Band,
      buffer.numSamples ≤
        ((generateCurves J (setTargets e) buffer.numSamples).gainCurve band).length ∧
      buffer.numSamples ≤
        ((generateCurves J (setTargets e) buffer.numSamples).bypassCurve band).length := by
    intro band
    obtain ⟨_, _, h3, h4, _⟩ := generateCurves_band J (setTargets e) buffer.numSamples band
    rw [h3, h4]
    exact ⟨Nat.le_max_right _ _, Nat.le_max_right _ _⟩
  refine ⟨fun _ => ⟨hcurves, fun ch hch => ?_⟩, processBlock_allocated J e buffer numChannels halloc,
    ?_, fun cache e0 sampleRate samplesPerBlock =>
      prepareToPlay_allocated J cache e0 sampleRate samplesPerBlock⟩
  · have hchC : ch < numChannels := Nat.lt_of_lt_of_le hch hin
    have hst := channelLoop_allocated J buffer.numSamples (List.range ch)
      (generateCurves J (setTargets e) buffer.numSamples,
        clearUnusedOutputs e.getTotalNumInputChannels e.getTotalNumOutputChannels
          buffer.numSamples buffer) numChannels
      (generateCurves_allocated J e buffer.numSamples numChannels halloc)
    have hout := channelLoop_outside J buffer.numSamples
      (generateCurves J (setTargets e) buffer.numSamples,
        clearUnusedOutputs e.getTotalNumInputChannels e.getTotalNumOutputChannels
          buffer.numSamples buffer) (List.range ch)
    refine ⟨fun band => ?_, hst, hchC⟩
    obtain ⟨_, _, _, _, k5, k6⟩ := outsideChannels_band hout band
    rw [k5, k6]
    refine ⟨(hcurves band).1, (hcurves band).2, ?_,
      growTempBuffers_size buffer.numSamples _ ch numChannels hst hchC band⟩
    obtain ⟨_, _, c1, c2, c3, c4⟩ := hst
    cases band <;> simp only [Engine.tempBuffers, c2, c3, c4, c1] <;> exact hchC
  · unfold Engine.getTotalNumInputChannels
    rw [(processBlock_settings J e buffer).2.1]

/-- The processor `Engine.samplePrepared`, prepared for two channels and blocks of 4, is given
a stereo block of 6 samples: the low gain curve is grown to 6 values, the scratch buffers of
channel 1 are grown to 6 samples, and the vectors stay allocated for two channels. -/
theorem processBlock_index_safety_witness :
    6 ≤ ((generateCurves Juce.sample (setTargets Engine.samplePrepared) 6).gainCurve
      Band.low).length ∧
    6 ≤ ((growTempBuffers 6
      ((List.range 1).foldl (processChannel Juce.sample 6)
        (generateCurves Juce.sample (setTargets Engine.samplePrepared) 6,
          clearUnusedOutputs Engine.samplePrepared.getTotalNumInputChannels
            Engine.samplePrepared.getTotalNumOutputChannels 6
            ⟨6, [[1, 2, 3, 4, 5, 6], [6, 5, 4, 3, 2, 1]]⟩)).1 1).tempBuffers
        Band.high).getD 1 0 ∧
    (processBlock Juce.sample Engine.samplePrepared
      ⟨6, [[1, 2, 3, 4, 5, 6], [6, 5, 4, 3, 2, 1]]⟩).1.AllocatedFor 2 := by
  have halloc : Engine.samplePrepared.AllocatedFor 2 :=
    prepareToPlay_allocated Juce.sample (CoefficientCache.init Juce.sample)
      Engine.sampleBoosted 44100 4
  have h := processBlock_index_safety Juce.sample Engine.samplePrepared
    ⟨6, [[1, 2, 3, 4, 5, 6], [6, 5, 4, 3, 2, 1]]⟩ 2 halloc (by decide)
  obtain ⟨hslow, hkeep, _⟩ := h
  obtain ⟨hcurves, hpass⟩ := hslow (by decide)
  exact ⟨(hcurves Band.low).1, ((hpass 1 (by decide)).1 Band.high).2.2.2, hkeep⟩

/-- Clearing the two low bits of a natural number rounds it down to a multiple of 4. -/
theorem ldiff_three (n : Nat) : Nat.ldiff n 3 = 4 * (n / 4) := by
  have hshift : 4 * (n / 4) = (n >>> 2) <<< 2 := by
    rw [Nat.shiftLeft_eq, Nat.shiftRight_eq_div_pow]
    omega
  have hthree : (3 : Nat) = 2 ^ 2 - 1 := by decide
  apply Nat.eq_of_testBit_eq
  intro i
  rw [Nat.testBit_ldiff, hshift, Nat.testBit_shiftLeft, Nat.testBit_shiftRight, hthree,
    Nat.testBit_two_pow_sub_one]
  by_cases h : i < 2
  · simp [h, Nat.not_le.mpr h]
  · have h2 : 2 ≤ i := Nat.not_lt.mp h
    simp [h, h2, Nat.add_sub_cancel' h2]

/-- `numSamples & ~3` is the largest multiple of 4 that is at most `numSamples`. -/
theorem vectorizedEnd_eq (numSamples : Nat) : vectorizedEnd numSamples = 4 * (numSamples / 4) := by
  have h : Int.land (numSamples : Int) (Int.lnot 3) = ((Nat.ldiff numSamples 3 : Nat) : Int) :=
    rfl
  unfold vectorizedEnd
  rw [h, Int.toNat_natCast, ldiff_three]

/-- The remainder loop entered with index `i` makes the assignments for `i`, `i + 1`, ...,
`numSamples - 1`, in this order. -/
theorem mixBandsRemainder_eq (lowGain lowMidGain midGain highGain : α)
    (low lowMid mid high : List α) (numSamples i : Nat) (st : List α × List Nat) :
    mixBandsRemainder lowGain lowMidGain midGain highGain low lowMid mid high numSamples i st =
      (List.range' i (numSamples - i)).foldl
        (mixBandsStore lowGain lowMidGain midGain highGain low lowMid mid high) st := by
  generalize hd : numSamples - i = d
  induction d generalizing i st with
  | zero =>
    rw [mixBandsRemainder, dif_neg (by omega)]
    rfl
  | succ d ih =>
    rw [mixBandsRemainder, dif_pos (by omega), ih (i + 1) _ (by omega), List.range'_succ]
    rfl

/-- The unrolled loop entered with index `4 * k` and bound `4 * q` makes the assignments for
`4 * k`, `4 * k + 1`, ..., `4 * q - 1`, in this order, and is left with index `4 * q`. -/
theorem mixBandsUnrolled_eq (lowGain lowMidGain midGain highGain : α)
    (low lowMid mid high : List α) (q k : Nat) (hk : k ≤ q) (st : List α × List Nat) :
    mixBandsUnrolled lowGain lowMidGain midGain highGain low lowMid mid high (4 * q) (4 * k) st =
      (4 * q, (List.range' (4 * k) (4 * q - 4 * k)).foldl
        (mixBandsStore lowGain lowMidGain midGain highGain low lowMid mid high) st) := by
  generalize hd : q - k = d
  induction d generalizing k st with
  | zero =>
    have hkq : k = q := by omega
    subst hkq
    rw [mixBandsUnrolled, dif_neg (Nat.lt_irrefl _), Nat.sub_self]
    rfl
  | succ d ih =>
    have hlen : 4 * q - 4 * k = (4 * q - 4 * (k + 1)) + 1 + 1 + 1 + 1 := by omega
    rw [mixBandsUnrolled, dif_pos (by omega)]
    simp only []
    rw [show 4 * k + 4 = 4 * (k + 1) by omega, ih (k + 1) (by omega) _ (by omega), hlen,
      List.range'_succ, List.range'_succ, List.range'_succ, List.range'_succ]
    simp only [List.foldl_cons, Nat.add_zero]
    rw [show 4 * k + 1 + 1 = 4 * k + 2 by omega, show 4 * k + 2 + 1 = 4 * k + 3 by omega,
      show 4 * k + 3 + 1 = 4 * (k + 1) by omega]

/-- The assignments for the indices `0`, `1`, ..., `n - 1` in this order give the output of
the plain mixer and append these indices to the log. -/
theorem mixBandsStore_foldl (lowGain lowMidGain midGain highGain : α)
    (low lowMid mid high : List α) (n : Nat) (output : List α) (log : List Nat) :
    (List.range n).foldl
        (mixBandsStore lowGain lowMidGain midGain highGain low lowMid mid high) (output, log) =
      (mixBandsPlain lowGain lowMidGain midGain highGain n output low lowMid mid high,
        log ++ List.range n) := by
  induction n with
  | zero => simp [mixBandsPlain]
  | succ n ih =>
    unfold mixBandsPlain at ih ⊢
    rw [List.range_succ, List.foldl_append, List.foldl_append, ih]
    simp only [List.foldl_cons, List.foldl_nil, mixBandsStore, List.append_assoc]

/-- The two loops of `mixBandsOptimized` over one channel make the assignments of the plain
mixer, one for each index below `numSamples`, in increasing order. -/
theorem mixBandsChannel_eq (lowGain lowMidGain midGain highGain : α) (numSamples : Nat)
    (output low lowMid mid high : List α) :
    mixBandsChannel lowGain lowMidGain midGain highGain numSamples output low lowMid mid high =
      (mixBandsPlain lowGain lowMidGain midGain highGain numSamples output low lowMid mid high,
        List.range numSamples) := by
  have hle : 4 * (numSamples / 4) ≤ numSamples := by omega
  unfold mixBandsChannel
  simp only []
  rw [vectorizedEnd_eq,
    show (0 : Nat) = 4 * 0 by rfl,
    mixBandsUnrolled_eq lowGain lowMidGain midGain highGain low lowMid mid high
      (numSamples / 4) 0 (Nat.zero_le _) (output, [])]
  simp only [Nat.mul_zero, Nat.sub_zero]
  rw [mixBandsRemainder_eq, ← List.foldl_append]
  have happ : List.range' 0 (4 * (numSamples / 4)) ++
      List.range' (4 * (numSamples / 4)) (numSamples - 4 * (numSamples / 4)) =
      List.range numSamples := by
    have h := List.range'_append 0 (4 * (numSamples / 4))
      (numSamples - 4 * (numSamples / 4)) 1
    rw [Nat.one_mul, Nat.zero_add, Nat.sub_add_cancel hle] at h
    rw [h, List.range_eq_range']
  rw [happ, mixBandsStore_foldl]
  rfl

/-- The plain mixer keeps the length of the channel. -/
theorem mixBandsPlain_length (lowGain lowMidGain midGain highGain : α) (n : Nat)
    (output low lowMid mid high : List α) :
    (mixBandsPlain lowGain lowMidGain midGain highGain n output low lowMid mid high).length =
      output.length := by
  unfold mixBandsPlain
  induction n with
  | zero => rfl
  | succ k ih => rw [List.range_succ, List.foldl_append]; simp [ih]

/-- The plain mixer writes `mixBandsSample` at every index below `numSamples` and leaves the
other indices alone. -/
theorem mixBandsPlain_getD (lowGain lowMidGain midGain highGain : α) (n : Nat)
    (output low lowMid mid high : List α) (i : Nat) :
    (i < n → i < output.length →
      (mixBandsPlain lowGain lowMidGain midGain highGain n output low lowMid mid high).getD i 0 =
        mixBandsSample lowGain lowMidGain midGain highGain low lowMid mid high i) ∧
    (n ≤ i →
      (mixBandsPlain lowGain lowMidGain midGain highGain n output low lowMid mid high).getD i 0 =
        output.getD i 0) := by
  induction n with
  | zero => exact ⟨fun h => absurd h (Nat.not_lt_zero i), fun _ => rfl⟩
  | succ k ih =>
    have hl := mixBandsPlain_length lowGain lowMidGain midGain highGain k output low lowMid
      mid high
    have hstep : mixBandsPlain lowGain lowMidGain midGain highGain (k + 1) output low lowMid
        mid high =
        (mixBandsPlain lowGain lowMidGain midGain highGain k output low lowMid mid high).set k
          (mixBandsSample lowGain lowMidGain midGain highGain low lowMid mid high k) := by
      unfold mixBandsPlain
      rw [List.range_succ, List.foldl_append]
      rfl
    rw [hstep]
    constructor
    · intro hi hlen
      by_cases hik : i = k
      · subst hik
        exact getD_set_self _ _ _ _ (by rw [hl]; exact hlen)
      · rw [getD_set_ne _ _ _ _ _ (fun h => hik h.symm)]
        exact ih.1 (by omega) hlen
    · intro hi
      rw [getD_set_ne _ _ _ _ _ (by omega)]
      exact ih.2 (by omega)

/-- The channel loop of `mixBandsOptimized` after `k` channels: one log of the indices below
`numSamples` per channel visited, every visited channel holds the output of the plain mixer on
its initial data, and the other channels hold their initial data. -/
theorem mixBandsOptimized_invariant (lowGain lowMidGain midGain highGain : α)
    (channelData lowData lowMidData midData highData : List (List α)) (k numSamples : Nat) :
    (mixBandsOptimized lowGain lowMidGain midGain highGain channelData lowData lowMidData
        midData highData k numSamples).2 = List.replicate k (List.range numSamples) ∧
    (mixBandsOptimized lowGain lowMidGain midGain highGain channelData lowData lowMidData
        midData highData k numSamples).1.length = channelData.length ∧
    (∀ c, k ≤ c →
      (mixBandsOptimized lowGain lowMidGain midGain highGain channelData lowData lowMidData
        midData highData k numSamples).1.getD c [] = channelData.getD c []) ∧
    (∀ c, c < k → c < channelData.length →
      (mixBandsOptimized lowGain lowMidGain midGain highGain channelData lowData lowMidData
        midData highData k numSamples).1.getD c [] =
        mixBandsPlain lowGain lowMidGain midGain highGain numSamples (channelData.getD c [])
          (lowData.getD c []) (lowMidData.getD c []) (midData.getD c [])
          (highData.getD c [])) := by
  unfold mixBandsOptimized
  simp only [mixBandsChannel_eq]
  induction k with
  | zero =>
    exact ⟨rfl, rfl, fun c _ => rfl, fun c h => absurd h (Nat.not_lt_zero c)⟩
  | succ k ih =>
    rw [List.range_succ, List.foldl_append]
    simp only [List.foldl_cons, List.foldl_nil]
    obtain ⟨i1, i2, i3, i4⟩ := ih
    refine ⟨?_, ?_, fun c hc => ?_, fun c hc hlen => ?_⟩
    · rw [i1, List.replicate_succ']
    · rw [List.length_set, i2]
    · rw [getD_set_ne _ _ _ _ _ (by omega), i3 c (by omega)]
    · by_cases hck : c = k
      · subst hck
        rw [getD_set_self _ _ _ _ (by rw [i2]; exact hlen), i3 c (Nat.le_refl c)]
      · rw [getD_set_ne _ _ _ _ _ (fun h => hck h.symm), i4 c (by omega) hlen]

/-- Writing pointwise equal values at the indices below `n` gives equal lists. -/
theorem foldl_set_congr {β : Type} (f g : Nat → β) (n : Nat) (l : List β)
    (h : ∀ i, i < n → f i = g i) :
    (List.range n).foldl (fun out i => out.set i (f i)) l =
      (List.range n).foldl (fun out i => out.set i (g i)) l := by
  induction n with
  | zero => rfl
  | succ k ih =>
    rw [List.range_succ, List.foldl_append, List.foldl_append, ih (fun i hi => h i (by omega))]
    simp only [List.foldl_cons, List.foldl_nil]
    rw [h k (Nat.lt_succ_self k)]

end Theorems

section Exact

set_option linter.unusedSectionVars false

variable {α γ σ : Type} [LinearOrderedField α] [FloorRing α]

/-- `jlimit (0, 1, x)` is `x` on the unit interval. -/
theorem jlimit_unit_of_mem (x : α) (h0 : 0 ≤ x) (h1 : x ≤ 1) : jlimit 0 1 x = x := by
  unfold jlimit
  rw [if_neg (not_lt.mpr h0), if_neg (not_lt.mpr h1)]

/-- A legal gain value is a fixed point of `snapToLegalValue`. -/
theorem snapToLegalValue_legal (J : Juce α γ σ) (hfloor : ∀ x : α, J.floor x = ((⌊x⌋ : Int) : α))
    (v : α) (h : LegalGain v) : gainRange.snapToLegalValue J v = v := by
  obtain ⟨k, hk, rfl⟩ := h
  have hk2 : (k : α) ≤ 1240 := by exact_mod_cast hk
  have hk0 : (0 : α) ≤ k := Nat.cast_nonneg k
  have harg : ((-100 + (k : α) / 10) - (-100)) / (1 / 10) + 1 / 2 = (k : α) + 1 / 2 := by
    field_simp
    ring
  have hfl : ⌊(k : α) + 1 / 2⌋ = (k : ℤ) := by
    rw [Int.floor_eq_iff]
    constructor
    · push_cast; linarith
    · push_cast; linarith
  unfold NormalisableRange.snapToLegalValue
  simp only [gainRange, hfloor, harg, hfl]
  have hpos : (0 : α) < 1 / 10 := by norm_num
  rw [if_pos hpos]
  have hv : (-100 : α) + 1 / 10 * ((k : ℤ) : α) = -100 + (k : α) / 10 := by
    push_cast; ring
  rw [hv]
  by_cases h1 : -100 + (k : α) / 10 ≤ -100
  · rw [if_pos (Or.inl h1)]
    linarith
  · have h2 : ¬ ((-100 + (k : α) / 10 ≤ -100) ∨ ((24 : α) ≤ -100)) := by
      rintro (h | h)
      · exact h1 h
      · norm_num at h
    rw [if_neg h2]
    by_cases h3 : (24 : α) ≤ -100 + (k : α) / 10
    · rw [if_pos h3]; linarith
    · rw [if_neg h3]

/-- A legal gain value is stored as it is. -/
theorem store_legal (J : Juce α γ σ) (hfloor : ∀ x : α, J.floor x = ((⌊x⌋ : Int) : α))
    (v : α) (h : LegalGain v) : AudioParameterFloat.store J gainRange v = v := by
  have hs := snapToLegalValue_legal J hfloor v h
  obtain ⟨k, hk, hv⟩ := h
  have hk2 : (k : α) ≤ 1240 := by exact_mod_cast hk
  have hk0 : (0 : α) ≤ k := Nat.cast_nonneg k
  have hp0 : (0 : α) ≤ (v - (-100)) / (24 - (-100)) := by
    rw [hv]; apply div_nonneg <;> linarith
  have hp1 : (v - (-100)) / (24 - (-100)) ≤ (1 : α) := by
    rw [hv, div_le_one (by norm_num)]; linarith
  unfold AudioParameterFloat.store AudioParameterFloat.convertFrom0to1
    AudioParameterFloat.convertTo0to1
  rw [hs]
  unfold NormalisableRange.convertTo0to1 NormalisableRange.convertFrom0to1
  simp only [gainRange] at hs ⊢
  rw [jlimit_unit_of_mem _ hp0 hp1, jlimit_unit_of_mem _ hp0 hp1, jlimit_unit_of_mem _ hp0 hp1]
  have hback : (-100 : α) + (24 - (-100)) * ((v - (-100)) / (24 - (-100))) = v := by
    field_simp
  rw [hback]
  exact hs

/-- Assigning a legal gain value makes the parameter hold exactly that value. -/
theorem assign_legal (J : Juce α γ σ) (hfloor : ∀ x : α, J.floor x = ((⌊x⌋ : Int) : α))
    (value v : α) (h : LegalGain v) : AudioParameterFloat.assign J gainRange value v = v := by
  unfold AudioParameterFloat.assign
  by_cases hne : value ≠ v
  · rw [if_pos hne]; exact store_legal J hfloor v h
  · rw [if_neg hne]; exact not_not.mp hne

/-- The linear ramp at its ends and in between. -/
theorem rampDb_values (g0 g1 : α) (N : Nat) (hN : 1 ≤ N) :
    rampDb g0 g1 N 0 = g0 ∧
    (∀ k, k < N → rampDb g0 g1 N k = g0 + (k : α) * (g1 - g0) / (N : α)) ∧
    (∀ k, N ≤ k → rampDb g0 g1 N k = g1) := by
  refine ⟨?_, fun k hk => ?_, fun k hk => ?_⟩
  · unfold rampDb
    rw [if_pos (by omega)]
    simp
  · unfold rampDb
    rw [if_pos hk]
  · unfold rampDb
    rw [if_neg (by omega)]

/-- One step of the linear ramp is `(g1 - g0) / N` or nothing. -/
theorem rampDb_step (g0 g1 : α) (N : Nat) (hN : 1 ≤ N) (k : Nat) :
    rampDb g0 g1 N (k + 1) - rampDb g0 g1 N k =
      if k < N then (g1 - g0) / (N : α) else 0 := by
  have hNpos : (0 : α) < (N : α) := by exact_mod_cast hN
  have hNne : (N : α) ≠ 0 := ne_of_gt hNpos
  unfold rampDb
  by_cases h1 : k + 1 < N
  · have h2 : k < N := by omega
    rw [if_pos h1, if_pos h2, if_pos h2]
    push_cast
    field_simp
    ring
  · by_cases h2 : k < N
    · have h3 : k + 1 = N := by omega
      rw [if_neg h1, if_pos h2, if_pos h2]
      have h4 : (k : α) = (N : α) - 1 := by
        rw [← h3]; push_cast; ring
      rw [h4]
      field_simp
      ring
    · rw [if_neg h1, if_neg h2, if_neg h2]
      ring

/-- The smoother `k` calls of `getNextValue` after a new target `g1` was set while it rested
at `g0`, for a ramp of `N` steps. -/
theorem advance_ramp (s : SmoothedValue α) (g0 g1 : α) (N : Nat) (hN : 1 ≤ N)
    (hs : s.SettledAt g0) (hsteps : s.stepsToTarget = (N : Int)) (hne : g1 ≠ g0) (k : Nat) :
    (s.setTargetValue g1).advance k =
      { currentValue := rampDb g0 g1 N k
        target := g1
        countdown := ((N - k : Nat) : Int)
        step := (g1 - g0) / (N : α)
        stepsToTarget := (N : Int) } := by
  obtain ⟨h1, h2, h3⟩ := hs
  have hNpos : (0 : α) < (N : α) := by exact_mod_cast hN
  have hNne : (N : α) ≠ 0 := ne_of_gt hNpos
  induction k with
  | zero =>
    have hstart : s.setTargetValue g1 =
        { currentValue := g0, target := g1, countdown := (N : Int),
          step := (g1 - g0) / (N : α), stepsToTarget := (N : Int) } := by
      unfold SmoothedValue.setTargetValue
      rw [h2, if_neg hne, hsteps, if_neg (by omega)]
      simp only [SmoothedValue.setStepSize, h1, Int.cast_natCast]
    show s.setTargetValue g1 = _
    rw [hstart, (rampDb_values g0 g1 N hN).1]
    rfl
  | succ k ih =>
    show ((s.setTargetValue g1).advance k).getNextValue.2 = _
    rw [ih]
    unfold SmoothedValue.getNextValue SmoothedValue.isSmoothing
    by_cases hk : k < N
    · have hc : (0 : Int) < ((N - k : Nat) : Int) := by omega
      simp only [hc, decide_True, Bool.true_eq_false, if_false]
      by_cases hk1 : k + 1 < N
      · have hc1 : (0 : Int) < ((N - k : Nat) : Int) - 1 := by omega
        simp only [hc1, decide_True, if_true]
        have hstep := rampDb_step g0 g1 N hN k
        rw [if_pos hk] at hstep
        have hval : rampDb g0 g1 N k + (g1 - g0) / (N : α) = rampDb g0 g1 N (k + 1) := by
          rw [← hstep]; ring
        rw [hval]
        congr 1
        omega
      · have hc1 : ¬ (0 : Int) < ((N - k : Nat) : Int) - 1 := by omega
        simp only [hc1, decide_False, Bool.false_eq_true, if_false]
        rw [(rampDb_values g0 g1 N hN).2.2 (k + 1) (by omega)]
        congr 1
        omega
    · have hc : ¬ (0 : Int) < ((N - k : Nat) : Int) := by omega
      simp only [hc, decide_False, if_true]
      rw [(rampDb_values g0 g1 N hN).2.2 k (by omega),
        (rampDb_values g0 g1 N hN).2.2 (k + 1) (by omega)]
      congr 1
      omega

/-- The value returned by call `i + 1` of `getNextValue` on that ramp. -/
theorem sample_ramp (s : SmoothedValue α) (g0 g1 : α) (N : Nat) (hN : 1 ≤ N)
    (hs : s.SettledAt g0) (hsteps : s.stepsToTarget = (N : Int)) (hne : g1 ≠ g0) (i : Nat) :
    (s.setTargetValue g1).sample i = rampDb g0 g1 N (i + 1) := by
  have h0 := advance_ramp s g0 g1 N hN hs hsteps hne i
  have h1 := advance_ramp s g0 g1 N hN hs hsteps hne (i + 1)
  unfold SmoothedValue.sample
  have hfst : ∀ t : SmoothedValue α, t.getNextValue.1 =
      if t.isSmoothing = false then t.target else t.getNextValue.2.currentValue := by
    intro t
    unfold SmoothedValue.getNextValue
    split <;> rfl
  rw [hfst]
  split
  · rename_i hsm
    rw [h0] at hsm ⊢
    simp only [SmoothedValue.isSmoothing, decide_eq_false_iff_not] at hsm
    rw [(rampDb_values g0 g1 N hN).2.2 (i + 1) (by omega)]
  · have h2 : ((s.setTargetValue g1).advance i).getNextValue.2 =
        (s.setTargetValue g1).advance (i + 1) := rfl
    rw [h2, h1]

/-- On the unit interval `smoothStep (x)` is `x^2 * (3 - 2 * x)`. -/
theorem smoothStep_of_mem (x : α) (h0 : 0 ≤ x) (h1 : x ≤ 1) :
    smoothStep x = x ^ 2 * (3 - 2 * x) := by
  unfold smoothStep
  rw [jlimit_unit_of_mem x h0 h1]
  ring

/-- Below the unit interval `smoothStep` is 0. -/
theorem smoothStep_of_nonpos (x : α) (h : x ≤ 0) : smoothStep x = 0 := by
  unfold smoothStep jlimit
  by_cases hx : x < 0
  · rw [if_pos hx]; ring
  · have : x = 0 := le_antisymm h (not_lt.mp hx)
    subst this
    rw [if_neg (lt_irrefl 0), if_neg (not_lt.mpr zero_le_one)]; ring

/-- Above the unit interval `smoothStep` is 1. -/
theorem smoothStep_of_one_le (x : α) (h : 1 ≤ x) : smoothStep x = 1 := by
  unfold smoothStep jlimit
  have h0 : ¬ x < 0 := not_lt.mpr (le_trans zero_le_one h)
  rw [if_neg h0]
  by_cases hx : 1 < x
  · rw [if_pos hx]; ring
  · have : x = 1 := le_antisymm (not_lt.mp hx) h
    rw [if_neg hx, this]
    ring

/-- The clamped argument of `smoothStep` lies in the unit interval. -/
theorem jlimit_unit_mem (x : α) : 0 ≤ jlimit 0 1 x ∧ jlimit 0 1 x ≤ 1 := by
  unfold jlimit
  by_cases h0 : x < 0
  · rw [if_pos h0]; exact ⟨le_refl 0, zero_le_one⟩
  · rw [if_neg h0]
    by_cases h1 : 1 < x
    · rw [if_pos h1]; exact ⟨zero_le_one, le_refl 1⟩
    · rw [if_neg h1]; exact ⟨not_lt.mp h0, not_lt.mp h1⟩

/-- Every value of `smoothStep` lies in the unit interval. -/
theorem smoothStep_mem (x : α) : 0 ≤ smoothStep x ∧ smoothStep x ≤ 1 := by
  obtain ⟨h0, h1⟩ := jlimit_unit_mem x
  unfold smoothStep
  generalize jlimit 0 1 x = c at h0 h1
  show 0 ≤ c * c * (3 - 2 * c) ∧ c * c * (3 - 2 * c) ≤ 1
  constructor
  · have : 0 ≤ 3 - 2 * c := by linarith
    positivity
  · have h2 : (1 : α) - c * c * (3 - 2 * c) = (1 - c) ^ 2 * (1 + 2 * c) := by ring
    have h3 : 0 ≤ (1 - c) ^ 2 * (1 + 2 * c) := by
      have : 0 ≤ 1 + 2 * c := by linarith
      positivity
    linarith

/-- The resting values of a bypass smoother are fixed points of `smoothStep`. -/
theorem smoothStep_bypassTarget (b : Bool) :
    smoothStep (bypassTarget b : α) = bypassTarget b := by
  cases b
  · exact smoothStep_of_one_le 1 (le_refl 1)
  · exact smoothStep_of_nonpos 0 (le_refl 0)

/-- The ramp between the two resting values of a bypass smoother, up to its last step: it
falls as `1 - k / N` towards bypassed and rises as `k / N` towards active. -/
theorem rampDb_bypass (bypass : Bool) (N : Nat) (hN : 1 ≤ N) (k : Nat) (hk : k ≤ N) :
    rampDb (bypassTarget (!bypass) : α) (bypassTarget bypass) N k =
      (if bypass then 1 - (k : α) / (N : α) else (k : α) / (N : α)) ∧
    (0 : α) ≤ (k : α) / (N : α) ∧ (k : α) / (N : α) ≤ 1 := by
  have hNpos : (0 : α) < (N : α) := by exact_mod_cast hN
  have hNne : (N : α) ≠ 0 := ne_of_gt hNpos
  have hkN : (k : α) ≤ (N : α) := by exact_mod_cast hk
  refine ⟨?_, div_nonneg (Nat.cast_nonneg k) (le_of_lt hNpos), (div_le_one hNpos).mpr hkN⟩
  unfold rampDb
  by_cases hlt : k < N
  · rw [if_pos hlt]
    cases bypass
    · simp only [bypassTarget, Bool.not_false, if_true, Bool.false_eq_true, if_false]
      ring
    · simp only [bypassTarget, Bool.not_true, if_true, Bool.false_eq_true, if_false]
      ring
  · have hkeq : k = N := by omega
    rw [if_neg hlt, hkeq]
    cases bypass
    · simp only [bypassTarget, Bool.false_eq_true, if_false]
      rw [div_self hNne]
    · simp only [bypassTarget, if_true]
      rw [div_self hNne, sub_self]

/-- C12, amended: bypass transition.  Let `N ≥ 1` be the bypass ramp length of the band as
`prepareToPlay` gives it to the band's bypass smoother: the `floor` of `q` times the sample
rate, where `q` is the binary32 quotient of the band's bypass ramp time in milliseconds and
1000.  If that smoother rests at the value of the old switch position (1 for active,
0 for bypassed), the bypass parameter is at the new position `bypass` and stays there over
blocks that are not fast-pathed, then the `k`-th bypass curve sample after the switch, counted
across blocks, is `x ^ 2 * (3 - 2 * x)` for `1 ≤ k ≤ N`, where `x = 1 - k / N` when the band was
switched to bypassed and `x = k / N` when it was switched to active, and it is exactly 0,
respectively exactly 1, for every `k ≥ N`. -/
theorem processBlocks_bypass_transition (J : Juce α γ σ) (e : Engine α γ σ) (band : Band)
    (sampleRate : α) (N : Nat) (bypass : Bool)
    (hN : J.floorToInt (bypassRampSeconds band * sampleRate) = (N : Int)) (hN1 : 1 ≤ N)
    (hsteps : (e.bypassSmoother band).stepsToTarget =
      J.floorToInt (bypassRampSeconds band * sampleRate))
    (hsettled : (e.bypassSmoother band).SettledAt (bypassTarget (!bypass)))
    (hparam : e.bypassParam band = bypass) (hslow : allBandsAtZero e = false) :
    (∀ (buffers : List (AudioBuffer α)) (buffer : AudioBuffer α) (i k : Nat),
      i < buffer.numSamples → k = totalSamples buffers + i + 1 →
      (k ≤ N →
        ((processBlock J (processBlocks J e buffers) buffer).1.bypassCurve band).getD i 0 =
          (if bypass then (1 - (k : α) / (N : α)) ^ 2 * (3 - 2 * (1 - (k : α) / (N : α)))
          else ((k : α) / (N : α)) ^ 2 * (3 - 2 * ((k : α) / (N : α))))) ∧
      (N ≤ k →
        ((processBlock J (processBlocks J e buffers) buffer).1.bypassCurve band).getD i 0 =
          (if bypass then 0 else 1))) ∧
    (∀ (cache : CoefficientCache α γ) (e0 : Engine α γ σ) (samplesPerBlock : Nat),
      ((prepareToPlay J cache e0 sampleRate samplesPerBlock).2.bypassSmoother band).stepsToTarget =
        J.floorToInt (bypassRampSeconds band * sampleRate)) := by
  have hne : (bypassTarget bypass : α) ≠ bypassTarget (!bypass) := by
    cases bypass <;> simp [bypassTarget]
  refine ⟨fun buffers buffer i k hi hk => ?_, fun cache e0 samplesPerBlock =>
    (prepareToPlay_band J cache e0 sampleRate samplesPerBlock band).2.2.1.2⟩
  have hcurve := (processBlocks_curves J e buffers buffer hslow band i hi).2
  rw [hparam, sample_ramp (e.bypassSmoother band) _ _ N hN1 hsettled (hsteps.trans hN) hne,
    ← hk] at hcurve
  rw [hcurve]
  constructor
  · intro hkN
    obtain ⟨hr, h0, h1⟩ := @rampDb_bypass α _ _ bypass N hN1 k hkN
    rw [hr]
    cases bypass
    · simp only [Bool.false_eq_true, if_false]
      exact smoothStep_of_mem _ h0 h1
    · simp only [if_true]
      exact smoothStep_of_mem _ (by linarith) (by linarith)
  · intro hkN
    rw [(rampDb_values _ _ N hN1).2.2 k hkN, smoothStep_bypassTarget]
    rfl

/-- C18: no ramp at the start of playback.  After `prepareToPlay` with parameter values that
are not all neutral, in every following block that is processed with these values, every gain
curve sample of each band is `decibelsToGain` of the band's gain parameter and every bypass
curve sample is 1 for a band that is not bypassed and 0 for a bypassed band. -/
theorem prepareToPlay_no_ramp (J : Juce α γ σ) (cache : CoefficientCache α γ)
    (e0 : Engine α γ σ) (sampleRate : α) (samplesPerBlock : Nat)
    (hslow : allBandsAtZero e0 = false)
    (buffers : List (AudioBuffer α)) (buffer : AudioBuffer α) (band : Band) (i : Nat)
    (hi : i < buffer.numSamples) :
    ((processBlock J
        (processBlocks J (prepareToPlay J cache e0 sampleRate samplesPerBlock).2 buffers)
        buffer).1.gainCurve band).getD i 0 = decibelsToGain J (e0.gainParam band) ∧
    ((processBlock J
        (processBlocks J (prepareToPlay J cache e0 sampleRate samplesPerBlock).2 buffers)
        buffer).1.bypassCurve band).getD i 0 = (if e0.bypassParam band then 0 else 1) := by
  have hparams : ∀ b, (prepareToPlay J cache e0 sampleRate samplesPerBlock).2.gainParam b =
      e0.gainParam b ∧
      (prepareToPlay J cache e0 sampleRate samplesPerBlock).2.bypassParam b =
        e0.bypassParam b :=
    fun b => (prepareToPlay_band J cache e0 sampleRate samplesPerBlock b).1
  have hslow1 : allBandsAtZero (prepareToPlay J cache e0 sampleRate samplesPerBlock).2 = false := by
    rw [allBandsAtZero_congr _ _ hparams, hslow]
  obtain ⟨_, ⟨hg, _⟩, ⟨hb, _⟩, _⟩ := prepareToPlay_band J cache e0 sampleRate samplesPerBlock band
  obtain ⟨c1, c2⟩ := processBlocks_curves J _ buffers buffer hslow1 band i hi
  rw [c1, c2, (hparams band).1, (hparams band).2, setTargetValue_of_target _ _ hg.2.1,
    setTargetValue_of_target _ _ hb.2.1, sample_settled _ _ hg, sample_settled _ _ hb,
    smoothStep_bypassTarget]
  exact ⟨rfl, rfl⟩

/-- C13: every bypass curve sample that `processBlock` writes is `smoothStep` of the value the
band's bypass smoother returned and lies in the unit interval; for every `x`, also outside the
unit interval, `smoothStep x` is `c * c * (3 - 2 * c)` with `c` the value `x` clamped to the unit
interval, it lies between 0 and 1, it is 0 for `x ≤ 0` and 1 for `1 ≤ x`. -/
theorem processBlock_bypass_curve_unit (J : Juce α γ σ) (e : Engine α γ σ)
    (buffer : AudioBuffer α) (hslow : allBandsAtZero e = false) (band : Band) (i : Nat)
    (hi : i < buffer.numSamples) :
    (((processBlock J e buffer).1.bypassCurve band).getD i 0 =
        smoothStep (((e.bypassSmoother band).setTargetValue
          (bypassTarget (e.bypassParam band))).sample i) ∧
      0 ≤ ((processBlock J e buffer).1.bypassCurve band).getD i 0 ∧
      ((processBlock J e buffer).1.bypassCurve band).getD i 0 ≤ 1) ∧
    (∀ x : α,
      smoothStep x = jlimit 0 1 x * jlimit 0 1 x * (3 - 2 * jlimit 0 1 x) ∧
      (0 ≤ jlimit 0 1 x ∧ jlimit 0 1 x ≤ 1) ∧
      (0 ≤ smoothStep x ∧ smoothStep x ≤ 1) ∧
      (x ≤ 0 → smoothStep x = 0) ∧ (1 ≤ x → smoothStep x = 1)) := by
  obtain ⟨_, _, _, _, _, c6⟩ := processBlock_controls J e buffer hslow band
  refine ⟨⟨c6 i hi, ?_, ?_⟩, fun x =>
    ⟨rfl, jlimit_unit_mem x, smoothStep_mem x, smoothStep_of_nonpos x, smoothStep_of_one_le x⟩⟩
  · rw [c6 i hi]
    exact (smoothStep_mem _).1
  · rw [c6 i hi]
    exact (smoothStep_mem _).2

/-- Whatever it is given, `snapToLegalValue` of the gain range returns a value of the range. -/
theorem snapToLegalValue_mem (J : Juce α γ σ) (v : α) :
    -100 ≤ gainRange.snapToLegalValue J v ∧ gainRange.snapToLegalValue J v ≤ 24 := by
  unfold NormalisableRange.snapToLegalValue
  simp only [gainRange]
  generalize (if (0 : α) < 1 / 10 then
    (-100 : α) + 1 / 10 * J.floor ((v - -100) / (1 / 10) + 1 / 2) else v) = v1
  by_cases h1 : v1 ≤ -100 ∨ (24 : α) ≤ -100
  · rw [if_pos h1]
    exact ⟨le_refl _, by norm_num⟩
  · rw [if_neg h1]
    by_cases h2 : (24 : α) ≤ v1
    · rw [if_pos h2]
      exact ⟨by norm_num, le_refl _⟩
    · rw [if_neg h2]
      exact ⟨le_of_lt (not_le.mp (fun h => h1 (Or.inl h))), le_of_lt (not_le.mp h2)⟩

/-- A write of a normalised value leaves a value of the gain range in the parameter. -/
theorem convertFrom0to1_mem (J : Juce α γ σ) (v : α) :
    -100 ≤ AudioParameterFloat.convertFrom0to1 J gainRange v ∧
      AudioParameterFloat.convertFrom0to1 J gainRange v ≤ 24 :=
  snapToLegalValue_mem J _

/-- An assignment to a gain parameter that holds a value of the gain range leaves a value of
the gain range in it. -/
theorem assign_mem (J : Juce α γ σ) (value newValue : α)
    (h : -100 ≤ value ∧ value ≤ 24) :
    -100 ≤ AudioParameterFloat.assign J gainRange value newValue ∧
      AudioParameterFloat.assign J gainRange value newValue ≤ 24 := by
  unfold AudioParameterFloat.assign
  split
  · exact convertFrom0to1_mem J _
  · exact h

/-- Over an ordered field, where every value is a number: in every reachable state of the
processor each of the four gain parameters lies between -100 and 24, and so does the target
that a `processBlock` call that is not fast-pathed gives the band's gain smoother, which is the
parameter's value. -/
theorem reachable_gain_mem (J : Juce α γ σ) (e : Engine α γ σ)
    (hreach : Engine.Reachable J e) (band : Band) :
    (-100 ≤ e.gainParam band ∧ e.gainParam band ≤ 24) ∧
    (∀ buffer : AudioBuffer α, allBandsAtZero e = false →
      ((processBlock J e buffer).1.gainSmoother band).target = e.gainParam band ∧
      -100 ≤ ((processBlock J e buffer).1.gainSmoother band).target ∧
      ((processBlock J e buffer).1.gainSmoother band).target ≤ 24) := by
  have hrange : ∀ b : Band, -100 ≤ e.gainParam b ∧ e.gainParam b ≤ 24 := by
    induction hreach with
    | init =>
      intro b
      have h0 : (Engine.init : Engine α γ σ).gainParam b = 0 := by cases b <;> rfl
      rw [h0]
      exact ⟨by norm_num, by norm_num⟩
    | restore xmlState e _ ih =>
      intro b
      cases xmlState with
      | none => exact ih b
      | some state =>
        obtain ⟨p1, p2, p3, p4, _⟩ := setStateInformation_params J state e
        cases b
        · have hp : (setStateInformation J (some state) e).gainParam Band.low =
              (setStateInformation J (some state) e).lowGainParam := rfl
          rw [hp, p1]
          split
          · exact assign_mem J _ _ (ih Band.low)
          · exact ih Band.low
        · have hp : (setStateInformation J (some state) e).gainParam Band.lowMid =
              (setStateInformation J (some state) e).lowMidGainParam := rfl
          rw [hp, p2]
          split
          · exact assign_mem J _ _ (ih Band.lowMid)
          · exact ih Band.lowMid
        · have hp : (setStateInformation J (some state) e).gainParam Band.mid =
              (setStateInformation J (some state) e).midGainParam := rfl
          rw [hp, p3]
          split
          · exact assign_mem J _ _ (ih Band.mid)
          · exact ih Band.mid
        · have hp : (setStateInformation J (some state) e).gainParam Band.high =
              (setStateInformation J (some state) e).highGainParam := rfl
          rw [hp, p4]
          split
          · exact assign_mem J _ _ (ih Band.high)
          · exact ih Band.high
    | gainWrite written newValue e _ ih =>
      intro b
      cases written <;> cases b <;>
        first
        | exact convertFrom0to1_mem J newValue
        | exact ih Band.low
        | exact ih Band.lowMid
        | exact ih Band.mid
        | exact ih Band.high
    | bypassWrite written newValue e _ ih =>
      intro b
      cases written <;> cases b <;>
        first
        | exact ih Band.low
        | exact ih Band.lowMid
        | exact ih Band.mid
        | exact ih Band.high
    | layout layouts e _ _ ih =>
      intro b
      cases b <;>
        first
        | exact ih Band.low
        | exact ih Band.lowMid
        | exact ih Band.mid
        | exact ih Band.high
    | prepare cache sampleRate samplesPerBlock e _ ih =>
      intro b
      rw [(prepareToPlay_band J cache e sampleRate samplesPerBlock b).1.1]
      exact ih b
    | process buffer e _ ih =>
      intro b
      rw [((processBlock_settings J e buffer).1 b).1]
      exact ih b
  refine ⟨hrange band, fun buffer hslow => ?_⟩
  have htarget : ((processBlock J e buffer).1.gainSmoother band).target = e.gainParam band := by
    rw [(processBlock_controls J e buffer hslow band).1, (advance_target _ _).1,
      (setTargetValue_target _ _).1]
  rw [htarget]
  exact ⟨rfl, hrange band⟩

/-- The DC blocker fed the constant `c` from zero state: output `n` is `c * r ^ n`. -/
theorem dcBlocker_constant (r c : α) (m n : Nat) (hn : n < m) :
    (dcBlocker r 0 0 (List.replicate m c)).1.getD n 0 = c * r ^ n := by
  have hget : ∀ k, k < m → (List.replicate m c).getD k 0 = c := by
    intro k hk
    rw [List.getD_eq_getElem _ _ (by rw [List.length_replicate]; exact hk),
      List.getElem_replicate]
  induction n with
  | zero =>
    rw [dcBlocker_recurrence r 0 0 _ 0 (by rw [List.length_replicate]; exact hn), hget 0 hn]
    simp
  | succ n ih =>
    rw [dcBlocker_recurrence r 0 0 _ (n + 1) (by rw [List.length_replicate]; exact hn),
      hget (n + 1) hn]
    simp only [Nat.succ_ne_zero, if_false, Nat.add_sub_cancel]
    rw [hget n (by omega), ih (by omega)]
    ring

/-- C24: coefficient cache coherence.  Start from the initial statics, let `updateFilters` be
called any number of times, by processors in any state and at any sample rates, and then once
more by a processor whose `processSpec.sampleRate` is positive: after that call the statics hold
the six designs for that rate, and every chain of every band holds the designs for that rate at
the fixed crossover frequencies (200, 750 and 3000 Hz), never those of an earlier rate or of
the initial 44100 Hz. -/
theorem updateFilters_cache_coherent (J : Juce α γ σ) (calls : List (Engine α γ σ))
    (e : Engine α γ σ) (hrate : 0 < e.processSpec.sampleRate) :
    (updateFilters J
        (calls.foldl (fun cache call => (updateFilters J cache call).1)
          (CoefficientCache.init J)) e).1 =
      CoefficientCache.design J e.processSpec.sampleRate e.processSpec.sampleRate ∧
    (∀ chain ∈ (updateFilters J
        (calls.foldl (fun cache call => (updateFilters J cache call).1)
          (CoefficientCache.init J)) e).2.lowPassFilters,
      chain.first.coefficients = J.makeLowPass e.processSpec.sampleRate 200 ∧
      chain.second.coefficients = J.makeLowPass e.processSpec.sampleRate 200) ∧
    (∀ chain ∈ (updateFilters J
        (calls.foldl (fun cache call => (updateFilters J cache call).1)
          (CoefficientCache.init J)) e).2.lowMidFilters,
      chain.first.coefficients = J.makeHighPass e.processSpec.sampleRate 200 ∧
      chain.second.coefficients = J.makeLowPass e.processSpec.sampleRate 750) ∧
    (∀ chain ∈ (updateFilters J
        (calls.foldl (fun cache call => (updateFilters J cache call).1)
          (CoefficientCache.init J)) e).2.midFilters,
      chain.first.coefficients = J.makeHighPass e.processSpec.sampleRate 750 ∧
      chain.second.coefficients = J.makeLowPass e.processSpec.sampleRate 3000) ∧
    (∀ chain ∈ (updateFilters J
        (calls.foldl (fun cache call => (updateFilters J cache call).1)
          (CoefficientCache.init J)) e).2.highPassFilters,
      chain.first.coefficients = J.makeHighPass e.processSpec.sampleRate 3000 ∧
      chain.second.coefficients = J.makeHighPass e.processSpec.sampleRate 3000) := by
  have hd := updateFilters_design_of_ne_zero J _ e (updateFilters_foldl_reachable J calls)
    (ne_of_gt hrate)
  generalize calls.foldl (fun cache call => (updateFilters J cache call).1)
    (CoefficientCache.init J) = cache at hd
  have hchains : (updateFilters J cache e).2 =
      { e with
        lowPassFilters := e.lowPassFilters.map (fun chain =>
          { first := { chain.first with
              coefficients := (updateFilters J cache e).1.cachedLowPassCoeff }
            second := { chain.second with
              coefficients := (updateFilters J cache e).1.cachedLowPassCoeff } })
        lowMidFilters := e.lowMidFilters.map (fun chain =>
          { first := { chain.first with
              coefficients := (updateFilters J cache e).1.cachedLowMidHighPassCoeff }
            second := { chain.second with
              coefficients := (updateFilters J cache e).1.cachedLowMidLowPassCoeff } })
        midFilters := e.midFilters.map (fun chain =>
          { first := { chain.first with
              coefficients := (updateFilters J cache e).1.cachedMidHighPassCoeff }
            second := { chain.second with
              coefficients := (updateFilters J cache e).1.cachedMidLowPassCoeff } })
        highPassFilters := e.highPassFilters.map (fun chain =>
          { first := { chain.first with
              coefficients := (updateFilters J cache e).1.cachedHighPassCoeff }
            second := { chain.second with
              coefficients := (updateFilters J cache e).1.cachedHighPassCoeff } }) } := rfl
  rw [hchains, hd]
  refine ⟨rfl, ?_, ?_, ?_, ?_⟩ <;>
    · intro chain hmem
      simp only [List.mem_map] at hmem
      obtain ⟨c, _, rfl⟩ := hmem
      exact ⟨rfl, rfl⟩

/-- The addend of a band whose bypass curve value is 0 is 0. -/
theorem bandTerm_of_bypassed (J : Juce α γ σ) (e curves : Engine α γ σ)
    (buffer : AudioBuffer α) (ch i : Nat) (band : Band)
    (h : (curves.bypassCurve band).getD i 0 = 0) : bandTerm J e curves buffer ch i band = 0 := by
  cases band <;>
    · simp only [Engine.bypassCurve] at h
      simp only [bandTerm, h, mul_zero]

/-- C25: a fully bypassed band contributes exactly nothing.  In a block that is not
fast-pathed and in which the bypass smoother of a band is at rest at 0 (its state once the
block's `setTargetValue` call has been made), every bypass curve sample of that band is 0 and
every output sample of every processed channel is the sum of the addends of the other three
bands; when this holds for all four bands, every output sample of every processed channel
is 0. -/
theorem processBlock_bypassed_band_silent (J : Juce α γ σ) (e : Engine α γ σ)
    (buffer : AudioBuffer α) (hslow : allBandsAtZero e = false) (hwf : buffer.WellFormed)
    (band : Band)
    (hsettled : ((e.bypassSmoother band).setTargetValue
      (bypassTarget (e.bypassParam band))).SettledAt 0) :
    (∀ i, i < buffer.numSamples →
      ((processBlock J e buffer).1.bypassCurve band).getD i 0 = 0) ∧
    (∀ ch i, ch < e.getTotalNumInputChannels → ch < buffer.channels.length →
      i < buffer.numSamples →
      ((processBlock J e buffer).2.channels.getD ch []).getD i 0 =
        (if band = Band.low then 0
          else bandTerm J e (processBlock J e buffer).1 buffer ch i Band.low) +
        (if band = Band.lowMid then 0
          else bandTerm J e (processBlock J e buffer).1 buffer ch i Band.lowMid) +
        (if band = Band.mid then 0
          else bandTerm J e (processBlock J e buffer).1 buffer ch i Band.mid) +
        (if band = Band.high then 0
          else bandTerm J e (processBlock J e buffer).1 buffer ch i Band.high)) ∧
    ((∀ b : Band, ((e.bypassSmoother b).setTargetValue
        (bypassTarget (e.bypassParam b))).SettledAt 0) →
      ∀ ch i, ch < e.getTotalNumInputChannels → ch < buffer.channels.length →
        i < buffer.numSamples →
        ((processBlock J e buffer).2.channels.getD ch []).getD i 0 = 0) ∧
    (e.bypassParam band = true → (e.bypassSmoother band).SettledAt 0 →
      ((e.bypassSmoother band).setTargetValue
        (bypassTarget (e.bypassParam band))).SettledAt 0) := by
  have hcurve : ∀ b : Band,
      ((e.bypassSmoother b).setTargetValue (bypassTarget (e.bypassParam b))).SettledAt 0 →
      ∀ i, i < buffer.numSamples → ((processBlock J e buffer).1.bypassCurve b).getD i 0 = 0 := by
    intro b hb i hi
    rw [(processBlock_controls J e buffer hslow b).2.2.2.2.2 i hi, sample_settled _ _ hb]
    exact smoothStep_of_nonpos 0 (le_refl 0)
  refine ⟨hcurve band hsettled, fun ch i hch hbuf hi => ?_, fun hall ch i hch hbuf hi => ?_,
    fun hparam hrest => ?_⟩
  · rw [processBlock_output_terms J e buffer hslow hwf ch i hch hbuf hi]
    have hz := bandTerm_of_bypassed J e (processBlock J e buffer).1 buffer ch i band
      (hcurve band hsettled i hi)
    cases band <;> simp [hz]
  · rw [processBlock_output_terms J e buffer hslow hwf ch i hch hbuf hi,
      bandTerm_of_bypassed J e _ buffer ch i Band.low (hcurve _ (hall _) i hi),
      bandTerm_of_bypassed J e _ buffer ch i Band.lowMid (hcurve _ (hall _) i hi),
      bandTerm_of_bypassed J e _ buffer ch i Band.mid (hcurve _ (hall _) i hi),
      bandTerm_of_bypassed J e _ buffer ch i Band.high (hcurve _ (hall _) i hi)]
    simp
  · rw [hparam, setTargetValue_of_target _ _ (by rw [hrest.2.1]; rfl)]
    exact hrest

/-- C26: `mixBandsOptimized` equals the plain per-sample mixer.  For every `numChannels` and
`numSamples` and channel arrays of at least `numSamples` samples: for every visited channel
the indices written are exactly `0, 1, ..., numSamples - 1`, each once and in this order;
sample `i < numSamples` of channel `c < numChannels` of the output is
`low[c][i] * lowGain + lowMid[c][i] * lowMidGain + mid[c][i] * midGain + high[c][i] * highGain`;
samples at indices from `numSamples` on and channels from `numChannels` on are as they were;
every visited channel is what the plain per-sample loop gives, and what the mixer loop of
`processBlock` gives when every gain curve is constant at the corresponding gain and every
bypass curve is 1. -/
theorem mixBandsOptimized_eq_plain (lowGain lowMidGain midGain highGain : α)
    (channelData lowData lowMidData midData highData : List (List α))
    (numChannels numSamples : Nat) (hch : numChannels ≤ channelData.length)
    (hlen : ∀ c, c < numChannels → numSamples ≤ (channelData.getD c []).length) :
    (mixBandsOptimized lowGain lowMidGain midGain highGain channelData lowData lowMidData
        midData highData numChannels numSamples).2 =
      List.replicate numChannels (List.range numSamples) ∧
    (∀ c i, c < numChannels → i < numSamples →
      ((mixBandsOptimized lowGain lowMidGain midGain highGain channelData lowData lowMidData
        midData highData numChannels numSamples).1.getD c []).getD i 0 =
        (lowData.getD c []).getD i 0 * lowGain + (lowMidData.getD c []).getD i 0 * lowMidGain +
          (midData.getD c []).getD i 0 * midGain + (highData.getD c []).getD i 0 * highGain) ∧
    (∀ c i, c < numChannels → numSamples ≤ i →
      ((mixBandsOptimized lowGain lowMidGain midGain highGain channelData lowData lowMidData
        midData highData numChannels numSamples).1.getD c []).getD i 0 =
        (channelData.getD c []).getD i 0) ∧
    (∀ c, numChannels ≤ c →
      (mixBandsOptimized lowGain lowMidGain midGain highGain channelData lowData lowMidData
        midData highData numChannels numSamples).1.getD c [] = channelData.getD c []) ∧
    (∀ c, c < numChannels →
      (mixBandsOptimized lowGain lowMidGain midGain highGain channelData lowData lowMidData
        midData highData numChannels numSamples).1.getD c [] =
        mixBandsPlain lowGain lowMidGain midGain highGain numSamples (channelData.getD c [])
          (lowData.getD c []) (lowMidData.getD c []) (midData.getD c [])
          (highData.getD c [])) ∧
    (∀ e : Engine α γ σ,
      (∀ i, i < numSamples →
        (e.lowGainCurve.getD i 0 = lowGain ∧ e.lowMidGainCurve.getD i 0 = lowMidGain ∧
          e.midGainCurve.getD i 0 = midGain ∧ e.highGainCurve.getD i 0 = highGain) ∧
        (e.lowBypassCurve.getD i 0 = 1 ∧ e.lowMidBypassCurve.getD i 0 = 1 ∧
          e.midBypassCurve.getD i 0 = 1 ∧ e.highBypassCurve.getD i 0 = 1)) →
      ∀ c, c < numChannels →
        (mixBandsOptimized lowGain lowMidGain midGain highGain channelData lowData lowMidData
          midData highData numChannels numSamples).1.getD c [] =
          mixLoop e (lowData.getD c []) (lowMidData.getD c []) (midData.getD c [])
            (highData.getD c []) numSamples (channelData.getD c [])) := by
  obtain ⟨i1, _, i3, i4⟩ := mixBandsOptimized_invariant lowGain lowMidGain midGain highGain
    channelData lowData lowMidData midData highData numChannels numSamples
  have hplain : ∀ c, c < numChannels →
      (mixBandsOptimized lowGain lowMidGain midGain highGain channelData lowData lowMidData
        midData highData numChannels numSamples).1.getD c [] =
        mixBandsPlain lowGain lowMidGain midGain highGain numSamples (channelData.getD c [])
          (lowData.getD c []) (lowMidData.getD c []) (midData.getD c [])
          (highData.getD c []) :=
    fun c hc => i4 c hc (Nat.lt_of_lt_of_le hc hch)
  refine ⟨i1, fun c i hc hi => ?_, fun c i hc hi => ?_, i3, hplain, fun e hcurves c hc => ?_⟩
  · rw [hplain c hc]
    exact (mixBandsPlain_getD lowGain lowMidGain midGain highGain numSamples _ _ _ _ _ i).1 hi
      (Nat.lt_of_lt_of_le hi (hlen c hc))
  · rw [hplain c hc]
    exact (mixBandsPlain_getD lowGain lowMidGain midGain highGain numSamples _ _ _ _ _ i).2 hi
  · rw [hplain c hc]
    unfold mixBandsPlain mixLoop
    apply foldl_set_congr
    intro i hi
    obtain ⟨⟨g1, g2, g3, g4⟩, b1, b2, b3, b4⟩ := hcurves i hi
    unfold mixSample mixBandsSample
    rw [g1, g2, g3, g4, b1, b2, b3, b4]
    simp only [mul_one]

end Exact

/-- Zero is a legal gain. -/
theorem legalGain_zero : LegalGain (0 : ℚ) := ⟨1000, by norm_num, by norm_num⟩

/-- Five is a legal gain. -/
theorem legalGain_five : LegalGain (5 : ℚ) := ⟨1050, by norm_num, by norm_num⟩

/-- C5, as stated, fails: take the document whose only key is `low_gain` with the text `abc`.
Whatever number the library reads from that text, `setStateInformation` does not leave both
the processor with low gain 0 and the processor with low gain 5 unchanged. -/
theorem setStateInformation_invalid_text_is_applied :
    ¬ ∃ J : Juce ℚ ℚ ℚ, (∀ x : ℚ, J.floor x = ((⌊x⌋ : Int) : ℚ)) ∧
      setStateInformation J (some ⟨"EQIsolator4Parameters", [("low_gain", Var.text "abc")]⟩)
        (Engine.init : Engine ℚ ℚ ℚ) = Engine.init ∧
      setStateInformation J (some ⟨"EQIsolator4Parameters", [("low_gain", Var.text "abc")]⟩)
        { (Engine.init : Engine ℚ ℚ ℚ) with lowGainParam := 5 } =
          { (Engine.init : Engine ℚ ℚ ℚ) with lowGainParam := 5 } := by
  rintro ⟨J, hfloor, h0, h5⟩
  have p0 := (setStateInformation_params J
    ⟨"EQIsolator4Parameters", [("low_gain", Var.text "abc")]⟩ (Engine.init : Engine ℚ ℚ ℚ)).1
  have p5 := (setStateInformation_params J
    ⟨"EQIsolator4Parameters", [("low_gain", Var.text "abc")]⟩
    { (Engine.init : Engine ℚ ℚ ℚ) with lowGainParam := 5 }).1
  rw [h0] at p0
  rw [h5] at p5
  have hhas : (⟨"EQIsolator4Parameters", [("low_gain", Var.text "abc")]⟩ : ValueTree ℚ).hasProperty
      LOW_GAIN_ID = true := by decide
  have hget : ((⟨"EQIsolator4Parameters", [("low_gain", Var.text "abc")]⟩ : ValueTree ℚ).getProperty
      LOW_GAIN_ID).toFloat J = J.getDoubleValue "abc" := by
    simp [ValueTree.getProperty, List.lookup, LOW_GAIN_ID, Var.toFloat]
  rw [if_pos hhas, hget] at p0 p5
  have e0 : (Engine.init : Engine ℚ ℚ ℚ).lowGainParam = 0 := rfl
  have e5 : ({ (Engine.init : Engine ℚ ℚ ℚ) with lowGainParam := 5 } : Engine ℚ ℚ ℚ).lowGainParam
      = 5 := rfl
  rw [e0] at p0
  rw [e5] at p5
  unfold AudioParameterFloat.assign at p0 p5
  by_cases hv0 : (0 : ℚ) = J.getDoubleValue "abc"
  · rw [← hv0] at p5
    rw [if_pos (by norm_num), store_legal J hfloor 0 legalGain_zero] at p5
    norm_num at p5
  · rw [if_pos hv0] at p0
    by_cases hv5 : (5 : ℚ) = J.getDoubleValue "abc"
    · rw [← hv5, store_legal J hfloor 5 legalGain_five] at p0
      norm_num at p0
    · rw [if_pos hv5, ← p0] at p5
      norm_num at p5

/-- With a library that reads 0 from text that is no number, as JUCE does, the document whose
only key is `low_gain` with the text `abc` moves a low gain of 5 dB to 0 dB. -/
theorem setStateInformation_invalid_text_example :
    (setStateInformation Juce.rational
      (some ⟨"EQIsolator4Parameters", [("low_gain", Var.text "abc")]⟩)
      { (Engine.init : Engine ℚ ℚ ℚ) with lowGainParam := 5 }).lowGainParam = 0 := by
  rw [(setStateInformation_params Juce.rational _ _).1]
  have hhas : (⟨"EQIsolator4Parameters", [("low_gain", Var.text "abc")]⟩ : ValueTree ℚ).hasProperty
      LOW_GAIN_ID = true := by decide
  rw [if_pos hhas]
  have hget : ((⟨"EQIsolator4Parameters", [("low_gain", Var.text "abc")]⟩ :
      ValueTree ℚ).getProperty LOW_GAIN_ID).toFloat Juce.rational = 0 := by
    simp [ValueTree.getProperty, List.lookup, LOW_GAIN_ID, Var.toFloat, Juce.rational]
  rw [hget]
  unfold AudioParameterFloat.assign
  rw [if_pos (by norm_num), store_legal Juce.rational (fun _ => rfl) 0 legalGain_zero]

/-- The binary32 quotients of `prepareToPlay`: its eight ramp times in milliseconds over
1000, as significand and exponent. -/
theorem binary32Div_rampTimes :
    binary32Div 160 1000 = (10737418, 26) ∧ binary32Div 15 1000 = (16106127, 30) ∧
    binary32Div 12 1000 = (12884902, 30) ∧ binary32Div 10 1000 = (10737418, 30) ∧
    binary32Div 80 1000 = (10737418, 27) ∧ binary32Div 50 1000 = (13421773, 28) ∧
    binary32Div 40 1000 = (10737418, 28) ∧ binary32Div 25 1000 = (13421773, 29) := by
  decide

/-- Each of these quotients has a significand of 24 bits and is less than half a unit in the
last place away from the exact quotient: it is the binary32 value nearest to it. -/
theorem binary32Div_nearest :
    ∀ t ∈ [160, 15, 12, 10, 80, 50, 40, 25],
      2 ^ 23 ≤ (binary32Div t 1000).1 ∧ (binary32Div t 1000).1 < 2 ^ 24 ∧
      2 * Int.natAbs (((binary32Div t 1000).1 : Int) * 1000 -
        (t : Int) * 2 ^ (binary32Div t 1000).2) < 1000 := by
  decide

/-- The ramp lengths of the low band in seconds, over the rationals. -/
theorem rampSeconds_low :
    (gainRampSeconds Band.low : ℚ) = 10737418 / 2 ^ 26 ∧
    (bypassRampSeconds Band.low : ℚ) = 10737418 / 2 ^ 27 := by
  have h1 : binary32Div 160 1000 = (10737418, 26) := by decide
  have h2 : binary32Div 80 1000 = (10737418, 27) := by decide
  constructor
  · show ((binary32Div 160 1000).1 : ℚ) / (((2 : Nat) ^ (binary32Div 160 1000).2 : Nat) : ℚ) = _
    rw [h1]
    norm_num
  · show ((binary32Div 80 1000).1 : ℚ) / (((2 : Nat) ^ (binary32Div 80 1000).2 : Nat) : ℚ) = _
    rw [h2]
    norm_num

/-- The ramp lengths of the low band in samples at 100 Hz: 15 and 7, one less than the whole
numbers 16 and 8 that 160 ms and 80 ms are at that rate. -/
theorem rampSteps_low :
    Juce.rational.floorToInt (gainRampSeconds Band.low * 100) = ((15 : Nat) : Int) ∧
    Juce.rational.floorToInt (bypassRampSeconds Band.low * 100) = ((7 : Nat) : Int) := by
  constructor
  · show ⌊(gainRampSeconds Band.low : ℚ) * 100⌋ = ((15 : Nat) : Int)
    rw [rampSeconds_low.1, Int.floor_eq_iff]
    norm_num
  · show ⌊(bypassRampSeconds Band.low : ℚ) * 100⌋ = ((7 : Nat) : Int)
    rw [rampSeconds_low.2, Int.floor_eq_iff]
    norm_num

/-- The low bypass transition of `Engine.sampleSwitched`, 7 samples from active to bypassed:
the first sample of the first block and the first sample of a block that follows 9 samples. -/
theorem processBlocks_bypass_transition_witness :
    ((processBlock Juce.rational Engine.sampleSwitched AudioBuffer.sampleRational).1.bypassCurve
        Band.low).getD 0 0 = (1 - (1 : ℚ) / 7) ^ 2 * (3 - 2 * (1 - (1 : ℚ) / 7)) ∧
    ((processBlock Juce.rational
        (processBlocks Juce.rational Engine.sampleSwitched
          (List.replicate 3 AudioBuffer.sampleRational))
        AudioBuffer.sampleRational).1.bypassCurve Band.low).getD 0 0 = 0 := by
  have hfloor := rampSteps_low.2
  have hrest := prepareToPlay_band Juce.rational (CoefficientCache.init Juce.rational)
    (Engine.init : Engine ℚ ℚ ℚ) 100 4 Band.low
  have h := processBlocks_bypass_transition Juce.rational Engine.sampleSwitched Band.low 100 7
    true hfloor (by decide) hrest.2.2.1.2 hrest.2.2.1.1 rfl
    (by
      rw [← Bool.not_eq_true, allBandsAtZero_iff]
      rintro ⟨_, hb, _⟩
      have htrue : Engine.sampleSwitched.lowBypassParam = true := rfl
      rw [htrue] at hb
      cases hb)
  obtain ⟨hcurve, _⟩ := h
  have h1 : ((processBlock Juce.rational Engine.sampleSwitched
      AudioBuffer.sampleRational).1.bypassCurve Band.low).getD 0 0 = _ :=
    (hcurve [] AudioBuffer.sampleRational 0 1 (by decide) rfl).1 (by decide)
  have h2 := (hcurve (List.replicate 3 AudioBuffer.sampleRational) AudioBuffer.sampleRational
    0 10 (by decide) rfl).2 (by decide)
  refine ⟨?_, ?_⟩
  · rw [h1]
    norm_num
  · rw [h2]
    rfl

/-- The ramp lengths of the low band in samples at 48 kHz: 7679 and 3839, one less than the
7680 and 3840 samples that 160 ms and 80 ms are at that rate. -/
theorem rampSteps_low_studio :
    Juce.rational.floorToInt (gainRampSeconds Band.low * 48000) = ((7679 : Nat) : Int) ∧
    Juce.rational.floorToInt (bypassRampSeconds Band.low * 48000) = ((3839 : Nat) : Int) := by
  constructor
  · show ⌊(gainRampSeconds Band.low : ℚ) * 48000⌋ = ((7679 : Nat) : Int)
    rw [rampSeconds_low.1, Int.floor_eq_iff]
    norm_num
  · show ⌊(bypassRampSeconds Band.low : ℚ) * 48000⌋ = ((3839 : Nat) : Int)
    rw [rampSeconds_low.2, Int.floor_eq_iff]
    norm_num

/-- C12, counterexample: at 48 kHz the 80 ms of the low band are
`floor (T * sampleRate) = 3840` samples, but the low bypass smoother that `prepareToPlay`
leaves has 3839 steps.  With that smoother at rest at 1 and the low band switched to bypassed,
bypass curve sample number 3839 after the switch (sample 254 of the block that follows 7 blocks
of 512) is 0, and not `x ^ 2 * (3 - 2 * x)` at `x = 1 - 3839 / 3840`. -/
theorem processBlocks_bypass_transition_one_short :
    ⌊(80 : ℚ) / 1000 * 48000⌋ = 3840 ∧
    (Engine.sampleStudioSwitched.bypassSmoother Band.low).stepsToTarget = 3839 ∧
    (Engine.sampleStudioSwitched.bypassSmoother Band.low).SettledAt 1 ∧
    Engine.sampleStudioSwitched.bypassParam Band.low = true ∧
    allBandsAtZero Engine.sampleStudioSwitched = false ∧
    totalSamples (List.replicate 7 AudioBuffer.sampleSilence) + 254 + 1 = 3839 ∧
    ((processBlock Juce.rational
        (processBlocks Juce.rational Engine.sampleStudioSwitched
          (List.replicate 7 AudioBuffer.sampleSilence))
        AudioBuffer.sampleSilence).1.bypassCurve Band.low).getD 254 0 = 0 ∧
    (0 : ℚ) ≠ (1 - (3839 : ℚ) / 3840) ^ 2 * (3 - 2 * (1 - (3839 : ℚ) / 3840)) := by
  have hrest := prepareToPlay_band Juce.rational (CoefficientCache.init Juce.rational)
    (Engine.init : Engine ℚ ℚ ℚ) 48000 512 Band.low
  have hsteps : (Engine.sampleStudioSwitched.bypassSmoother Band.low).stepsToTarget =
      ((3839 : Nat) : Int) := hrest.2.2.1.2.trans rampSteps_low_studio.2
  have hsettled : (Engine.sampleStudioSwitched.bypassSmoother Band.low).SettledAt
      (bypassTarget false) := hrest.2.2.1.1
  have hslow : allBandsAtZero Engine.sampleStudioSwitched = false := by
    rw [← Bool.not_eq_true, allBandsAtZero_iff]
    rintro ⟨_, hb, _⟩
    have htrue : Engine.sampleStudioSwitched.lowBypassParam = true := rfl
    rw [htrue] at hb
    cases hb
  have hcount : totalSamples (List.replicate 7 AudioBuffer.sampleSilence) + 254 + 1 = 3839 := by
    decide
  refine ⟨?_, hsteps, hsettled, rfl, hslow, hcount, ?_, ?_⟩
  · rw [Int.floor_eq_iff]
    norm_num
  · have hparam : Engine.sampleStudioSwitched.bypassParam Band.low = true := rfl
    rw [(processBlocks_curves Juce.rational Engine.sampleStudioSwitched
        (List.replicate 7 AudioBuffer.sampleSilence) AudioBuffer.sampleSilence hslow Band.low
        254 (by decide)).2, hparam,
      sample_ramp _ (bypassTarget false) (bypassTarget true) 3839 (by decide) hsettled hsteps
        (by simp [bypassTarget]), hcount,
      (rampDb_values (bypassTarget false : ℚ) (bypassTarget true) 3839 (by decide)).2.2 3839
        (le_refl _)]
    exact smoothStep_bypassTarget true
  · norm_num

/-- A processor with the low gain at 3 dB and the high band bypassed starts playback with
constant curves: the second sample of the third block. -/
theorem prepareToPlay_no_ramp_witness :
    ((processBlock Juce.rational
        (processBlocks Juce.rational
          (prepareToPlay Juce.rational (CoefficientCache.init Juce.rational)
            { (Engine.init : Engine ℚ ℚ ℚ) with lowGainParam := 3, highBypassParam := true }
            100 4).2
          [AudioBuffer.sampleRational, AudioBuffer.sampleRational])
        AudioBuffer.sampleRational).1.gainCurve Band.low).getD 1 0 =
      decibelsToGain Juce.rational 3 ∧
    ((processBlock Juce.rational
        (processBlocks Juce.rational
          (prepareToPlay Juce.rational (CoefficientCache.init Juce.rational)
            { (Engine.init : Engine ℚ ℚ ℚ) with lowGainParam := 3, highBypassParam := true }
            100 4).2
          [AudioBuffer.sampleRational, AudioBuffer.sampleRational])
        AudioBuffer.sampleRational).1.bypassCurve Band.high).getD 1 0 = 0 := by
  have hslow : allBandsAtZero
      { (Engine.init : Engine ℚ ℚ ℚ) with lowGainParam := 3, highBypassParam := true } =
      false := by
    rw [← Bool.not_eq_true, allBandsAtZero_iff]
    rintro ⟨_, _, _, _, hb⟩
    cases hb
  exact ⟨(prepareToPlay_no_ramp Juce.rational (CoefficientCache.init Juce.rational)
      { (Engine.init : Engine ℚ ℚ ℚ) with lowGainParam := 3, highBypassParam := true } 100 4
      hslow [AudioBuffer.sampleRational, AudioBuffer.sampleRational] AudioBuffer.sampleRational
      Band.low 1 (by decide)).1,
    (prepareToPlay_no_ramp Juce.rational (CoefficientCache.init Juce.rational)
      { (Engine.init : Engine ℚ ℚ ℚ) with lowGainParam := 3, highBypassParam := true } 100 4
      hslow [AudioBuffer.sampleRational, AudioBuffer.sampleRational] AudioBuffer.sampleRational
      Band.high 1 (by decide)).2⟩

/-- The first bypass curve sample of the low band of `Engine.sampleSwitched`, one step into
the transition, lies in the unit interval. -/
theorem processBlock_bypass_curve_unit_witness :
    0 ≤ ((processBlock Juce.rational Engine.sampleSwitched
        AudioBuffer.sampleRational).1.bypassCurve Band.low).getD 0 0 ∧
    ((processBlock Juce.rational Engine.sampleSwitched
        AudioBuffer.sampleRational).1.bypassCurve Band.low).getD 0 0 ≤ 1 :=
  (processBlock_bypass_curve_unit Juce.rational Engine.sampleSwitched AudioBuffer.sampleRational
    (by
      rw [← Bool.not_eq_true, allBandsAtZero_iff]
      rintro ⟨_, hb, _⟩
      have htrue : Engine.sampleSwitched.lowBypassParam = true := rfl
      rw [htrue] at hb
      cases hb)
    Band.low 0 (by decide)).1.2

section Special

variable {γ σ : Type}

/-- Zero is the number 0. -/
theorem floatValue_zero : (0 : FloatValue) = FloatValue.fin 0 := rfl

/-- One is the number 1. -/
theorem floatValue_one : (1 : FloatValue) = FloatValue.fin 1 := rfl

/-- A numeral is the number it spells. -/
theorem floatValue_ofNat (n : ℕ) [n.AtLeastTwo] :
    (OfNat.ofNat n : FloatValue) = FloatValue.fin (OfNat.ofNat n) := by
  show FloatValue.fin ((OfNat.ofNat n : ℕ) : ℚ) = _
  rw [Nat.cast_ofNat]

/-- Minus a number. -/
theorem floatValue_neg (a : ℚ) : -(FloatValue.fin a) = FloatValue.fin (-a) := rfl

/-- The sum of two numbers. -/
theorem floatValue_add (a b : ℚ) :
    FloatValue.fin a + FloatValue.fin b = FloatValue.fin (a + b) := rfl

/-- The difference of two numbers. -/
theorem floatValue_sub (a b : ℚ) :
    FloatValue.fin a - FloatValue.fin b = FloatValue.fin (a - b) := by
  show FloatValue.fin (a + -b) = _
  rw [sub_eq_add_neg]

/-- The product of two numbers. -/
theorem floatValue_mul (a b : ℚ) :
    FloatValue.fin a * FloatValue.fin b = FloatValue.fin (a * b) := rfl

/-- The quotient of two numbers, the second not zero. -/
theorem floatValue_div (a b : ℚ) (hb : b ≠ 0) :
    FloatValue.fin a / FloatValue.fin b = FloatValue.fin (a / b) := by
  show (if b = 0 then FloatValue.signedInf a else FloatValue.fin (a / b)) = _
  rw [if_neg hb]

/-- The comparison `<` of two numbers. -/
theorem floatValue_lt (a b : ℚ) : FloatValue.fin a < FloatValue.fin b ↔ a < b := by
  show decide (a < b) = true ↔ _
  exact decide_eq_true_iff

/-- The comparison `<=` of two numbers. -/
theorem floatValue_le (a b : ℚ) : FloatValue.fin a ≤ FloatValue.fin b ↔ a ≤ b := by
  show decide (a ≤ b) = true ↔ _
  exact decide_eq_true_iff

/-- The gain range over `FloatValue`. -/
theorem gainRange_floatValue :
    (gainRange : NormalisableRange FloatValue) =
      { rangeStart := FloatValue.fin (-100), rangeEnd := FloatValue.fin 24,
        interval := FloatValue.fin (1 / 10) } := by
  unfold gainRange
  rw [floatValue_one, floatValue_ofNat 100, floatValue_ofNat 24, floatValue_ofNat 10,
    floatValue_neg, floatValue_div _ _ (by norm_num)]

/-- The closing comparisons of `snapToLegalValue` put every value that is not NaN into the
gain range. -/
theorem floatValue_clamp (v : FloatValue) (hv : v ≠ FloatValue.nan) :
    FloatValue.fin (-100) ≤
      (if v ≤ FloatValue.fin (-100) ∨ FloatValue.fin 24 ≤ FloatValue.fin (-100) then
        FloatValue.fin (-100)
      else if FloatValue.fin 24 ≤ v then FloatValue.fin 24 else v) ∧
    (if v ≤ FloatValue.fin (-100) ∨ FloatValue.fin 24 ≤ FloatValue.fin (-100) then
        FloatValue.fin (-100)
      else if FloatValue.fin 24 ≤ v then FloatValue.fin 24 else v) ≤ FloatValue.fin 24 := by
  have h24 : ¬ (FloatValue.fin 24 ≤ FloatValue.fin (-100)) := by
    rw [floatValue_le]
    norm_num
  have hlow : FloatValue.fin (-100) ≤ FloatValue.fin (-100) ∧
      FloatValue.fin (-100) ≤ FloatValue.fin 24 := by
    rw [floatValue_le, floatValue_le]
    exact ⟨le_refl _, by norm_num⟩
  have hhigh : FloatValue.fin (-100) ≤ FloatValue.fin 24 ∧
      FloatValue.fin 24 ≤ FloatValue.fin 24 := by
    rw [floatValue_le, floatValue_le]
    exact ⟨by norm_num, le_refl _⟩
  cases v with
  | nan => exact absurd rfl hv
  | negInf =>
    have h1 : FloatValue.negInf ≤ FloatValue.fin (-100) := rfl
    rw [if_pos (Or.inl h1)]
    exact hlow
  | posInf =>
    have h1 : ¬ (FloatValue.posInf ≤ FloatValue.fin (-100)) := fun h => Bool.noConfusion h
    have h2 : FloatValue.fin 24 ≤ FloatValue.posInf := rfl
    rw [if_neg (fun h => h.elim h1 h24), if_pos h2]
    exact hhigh
  | fin x =>
    by_cases h1 : FloatValue.fin x ≤ FloatValue.fin (-100)
    · rw [if_pos (Or.inl h1)]
      exact hlow
    · rw [if_neg (fun h => h.elim h1 h24)]
      by_cases h2 : FloatValue.fin 24 ≤ FloatValue.fin x
      · rw [if_pos h2]
        exact hhigh
      · rw [if_neg h2]
        rw [floatValue_le] at h1 h2 ⊢
        rw [floatValue_le]
        exact ⟨le_of_lt (not_le.mp h1), le_of_lt (not_le.mp h2)⟩

/-- With a floor that returns no NaN for a value that is not NaN, `snapToLegalValue` puts
every value that is not NaN into the gain range. -/
theorem floatValue_snapToLegalValue (J : Juce FloatValue γ σ)
    (hfloor : ∀ v : FloatValue, v ≠ FloatValue.nan → J.floor v ≠ FloatValue.nan)
    (v : FloatValue) (hv : v ≠ FloatValue.nan) :
    -100 ≤ gainRange.snapToLegalValue J v ∧ gainRange.snapToLegalValue J v ≤ 24 := by
  have harg : (v - FloatValue.fin (-100)) / FloatValue.fin (1 / 10) + FloatValue.fin (1 / 2) ≠
      FloatValue.nan := by
    cases v with
    | nan => exact absurd rfl hv
    | negInf =>
      have h : (FloatValue.negInf - FloatValue.fin (-100)) / FloatValue.fin (1 / 10) =
          FloatValue.negInf := by
        show (if (0 : ℚ) ≤ 1 / 10 then FloatValue.negInf else FloatValue.posInf) = _
        rw [if_pos (by norm_num)]
      rw [h]
      exact fun h => FloatValue.noConfusion h
    | posInf =>
      have h : (FloatValue.posInf - FloatValue.fin (-100)) / FloatValue.fin (1 / 10) =
          FloatValue.posInf := by
        show (if (0 : ℚ) ≤ 1 / 10 then FloatValue.posInf else FloatValue.negInf) = _
        rw [if_pos (by norm_num)]
      rw [h]
      exact fun h => FloatValue.noConfusion h
    | fin x =>
      rw [floatValue_sub, floatValue_div _ _ (by norm_num), floatValue_add]
      exact fun h => FloatValue.noConfusion h
  have hfl := hfloor _ harg
  have hv1 : FloatValue.fin (-100) + FloatValue.fin (1 / 10) *
      J.floor ((v - FloatValue.fin (-100)) / FloatValue.fin (1 / 10) + FloatValue.fin (1 / 2)) ≠
      FloatValue.nan := by
    generalize J.floor ((v - FloatValue.fin (-100)) / FloatValue.fin (1 / 10) +
      FloatValue.fin (1 / 2)) = w at hfl
    cases w with
    | nan => exact absurd rfl hfl
    | negInf =>
      have h : FloatValue.fin (1 / 10) * FloatValue.negInf = FloatValue.negInf := by
        show FloatValue.signedInf (-(1 / 10)) = _
        unfold FloatValue.signedInf
        rw [if_neg (by norm_num), if_neg (by norm_num)]
      rw [h]
      exact fun h => FloatValue.noConfusion h
    | posInf =>
      have h : FloatValue.fin (1 / 10) * FloatValue.posInf = FloatValue.posInf := by
        show FloatValue.signedInf (1 / 10) = _
        unfold FloatValue.signedInf
        rw [if_neg (by norm_num), if_pos (by norm_num)]
      rw [h]
      exact fun h => FloatValue.noConfusion h
    | fin x =>
      rw [floatValue_mul, floatValue_add]
      exact fun h => FloatValue.noConfusion h
  have hone : (1 / 2 : FloatValue) = FloatValue.fin (1 / 2) := by
    rw [floatValue_one, floatValue_ofNat 2, floatValue_div _ _ (by norm_num)]
  have hpos : (0 : FloatValue) < FloatValue.fin (1 / 10) := by
    rw [floatValue_zero, floatValue_lt]
    norm_num
  have hs : (-100 : FloatValue) = FloatValue.fin (-100) := by
    rw [floatValue_ofNat 100, floatValue_neg]
  have he : (24 : FloatValue) = FloatValue.fin 24 := floatValue_ofNat 24
  rw [hs, he]
  unfold NormalisableRange.snapToLegalValue
  rw [gainRange_floatValue]
  simp only [hone, if_pos hpos]
  exact floatValue_clamp _ hv1

/-- The limiter `jlimit (0, 1, v)` returns a number for every value that is not NaN. -/
theorem floatValue_jlimit (v : FloatValue) (hv : v ≠ FloatValue.nan) :
    ∃ p : ℚ, jlimit 0 1 v = FloatValue.fin p := by
  unfold jlimit
  rw [floatValue_zero, floatValue_one]
  cases v with
  | nan => exact absurd rfl hv
  | negInf =>
    have h : FloatValue.negInf < FloatValue.fin 0 := rfl
    rw [if_pos h]
    exact ⟨0, rfl⟩
  | posInf =>
    have h1 : ¬ (FloatValue.posInf < FloatValue.fin 0) := fun h => Bool.noConfusion h
    have h2 : FloatValue.fin 1 < FloatValue.posInf := rfl
    rw [if_neg h1, if_pos h2]
    exact ⟨1, rfl⟩
  | fin x =>
    split
    · exact ⟨0, rfl⟩
    · split
      · exact ⟨1, rfl⟩
      · exact ⟨x, rfl⟩

/-- A value of the gain range is a number. -/
theorem floatValue_of_mem (v : FloatValue) (h : -100 ≤ v ∧ v ≤ 24) :
    ∃ r : ℚ, v = FloatValue.fin r := by
  cases v with
  | nan => exact absurd h.1 (fun h => Bool.noConfusion h)
  | negInf => exact absurd h.1 (fun h => Bool.noConfusion h)
  | posInf => exact absurd h.2 (fun h => Bool.noConfusion h)
  | fin x => exact ⟨x, rfl⟩

/-- With a floor that returns no NaN for a value that is not NaN, a write of a normalised
value that is not NaN leaves a value of the gain range in the parameter. -/
theorem floatValue_convertFrom0to1 (J : Juce FloatValue γ σ)
    (hfloor : ∀ v : FloatValue, v ≠ FloatValue.nan → J.floor v ≠ FloatValue.nan)
    (v : FloatValue) (hv : v ≠ FloatValue.nan) :
    -100 ≤ AudioParameterFloat.convertFrom0to1 J gainRange v ∧
      AudioParameterFloat.convertFrom0to1 J gainRange v ≤ 24 := by
  unfold AudioParameterFloat.convertFrom0to1
  apply floatValue_snapToLegalValue J hfloor
  obtain ⟨p, hp⟩ := floatValue_jlimit v hv
  obtain ⟨q, hq⟩ := floatValue_jlimit (FloatValue.fin p) (fun h => FloatValue.noConfusion h)
  unfold NormalisableRange.convertFrom0to1
  rw [hp, hq, gainRange_floatValue]
  simp only [floatValue_sub, floatValue_mul, floatValue_add]
  exact fun h => FloatValue.noConfusion h

/-- With such a floor, an assignment of a value that is not NaN to a gain parameter that holds
a value of the gain range leaves a value of the gain range in it. -/
theorem floatValue_assign (J : Juce FloatValue γ σ)
    (hfloor : ∀ v : FloatValue, v ≠ FloatValue.nan → J.floor v ≠ FloatValue.nan)
    (value newValue : FloatValue) (h : -100 ≤ value ∧ value ≤ 24)
    (hv : newValue ≠ FloatValue.nan) :
    -100 ≤ AudioParameterFloat.assign J gainRange value newValue ∧
      AudioParameterFloat.assign J gainRange value newValue ≤ 24 := by
  unfold AudioParameterFloat.assign
  split
  · unfold AudioParameterFloat.store
    apply floatValue_convertFrom0to1 J hfloor
    unfold AudioParameterFloat.convertTo0to1 NormalisableRange.convertTo0to1
    obtain ⟨r, hr⟩ := floatValue_of_mem _ (floatValue_snapToLegalValue J hfloor newValue hv)
    rw [hr, gainRange_floatValue]
    simp only [floatValue_sub]
    rw [floatValue_div _ _ (by norm_num)]
    obtain ⟨p, hp⟩ := floatValue_jlimit (FloatValue.fin ((r - -100) / (24 - -100)))
      (fun h => FloatValue.noConfusion h)
    rw [hp]
    exact fun h => FloatValue.noConfusion h
  · exact h

/-- NaN passes `snapToLegalValue` when the floor of NaN is NaN: the comparisons with the ends
of the range are all false. -/
theorem floatValue_snapToLegalValue_nan (J : Juce FloatValue γ σ)
    (hfloor : J.floor FloatValue.nan = FloatValue.nan) :
    gainRange.snapToLegalValue J FloatValue.nan = FloatValue.nan := by
  have hone : (1 / 2 : FloatValue) = FloatValue.fin (1 / 2) := by
    rw [floatValue_one, floatValue_ofNat 2, floatValue_div _ _ (by norm_num)]
  have hpos : (0 : FloatValue) < FloatValue.fin (1 / 10) := by
    rw [floatValue_zero, floatValue_lt]
    norm_num
  have harg : (FloatValue.nan - FloatValue.fin (-100)) / FloatValue.fin (1 / 10) +
      FloatValue.fin (1 / 2) = FloatValue.nan := rfl
  have hv1 : FloatValue.fin (-100) + FloatValue.fin (1 / 10) * FloatValue.nan =
      FloatValue.nan := rfl
  have h1 : ¬ (FloatValue.nan ≤ FloatValue.fin (-100) ∨
      FloatValue.fin 24 ≤ FloatValue.fin (-100)) := by
    rintro (h | h)
    · exact Bool.noConfusion h
    · rw [floatValue_le] at h
      norm_num at h
  have h2 : ¬ (FloatValue.fin 24 ≤ FloatValue.nan) := fun h => Bool.noConfusion h
  unfold NormalisableRange.snapToLegalValue
  rw [gainRange_floatValue]
  simp only [hone, if_pos hpos, harg, hfloor, hv1, if_neg h1, if_neg h2]

/-- NaN passes `jlimit`: both comparisons are false. -/
theorem floatValue_jlimit_nan : jlimit 0 1 FloatValue.nan = FloatValue.nan := by
  have h1 : ¬ (FloatValue.nan < (0 : FloatValue)) := fun h => Bool.noConfusion h
  have h2 : ¬ ((1 : FloatValue) < FloatValue.nan) := fun h => Bool.noConfusion h
  unfold jlimit
  rw [if_neg h1, if_neg h2]

/-- When the floor of NaN is NaN, `setValueNotifyingHost (convertTo0to1 (newValue))` with NaN
leaves NaN in a gain parameter. -/
theorem floatValue_store_nan (J : Juce FloatValue γ σ)
    (hfloor : J.floor FloatValue.nan = FloatValue.nan) :
    AudioParameterFloat.store J gainRange FloatValue.nan = FloatValue.nan := by
  have h1 : (FloatValue.nan - (gainRange : NormalisableRange FloatValue).rangeStart) /
      ((gainRange : NormalisableRange FloatValue).rangeEnd -
        (gainRange : NormalisableRange FloatValue).rangeStart) = FloatValue.nan := rfl
  have h2 : (gainRange : NormalisableRange FloatValue).rangeStart +
      ((gainRange : NormalisableRange FloatValue).rangeEnd -
        (gainRange : NormalisableRange FloatValue).rangeStart) * FloatValue.nan =
      FloatValue.nan := by
    rw [gainRange_floatValue]
    rfl
  unfold AudioParameterFloat.store AudioParameterFloat.convertFrom0to1
    AudioParameterFloat.convertTo0to1 NormalisableRange.convertTo0to1
    NormalisableRange.convertFrom0to1
  rw [floatValue_snapToLegalValue_nan J hfloor, h1, floatValue_jlimit_nan,
    floatValue_jlimit_nan, floatValue_jlimit_nan, h2, floatValue_snapToLegalValue_nan J hfloor]

/-- C14, amended: take floats with their special values and a floor that returns no NaN for a
value that is not NaN.  In every state of the processor that is reached by construction,
`setStateInformation` with any document whose gain values are not NaN (values outside the
range and the infinities included), host and control writes of normalised gain values that are
not NaN, bypass writes, layout changes, `prepareToPlay` and `processBlock`, each of the four
gain parameters lies between -100 and 24, and so does the target that a `processBlock` call
that is not fast-pathed gives the band's gain smoother, which is the parameter's value. -/
theorem reachable_gain_in_range (J : Juce FloatValue γ σ)
    (hfloor : ∀ v : FloatValue, v ≠ FloatValue.nan → J.floor v ≠ FloatValue.nan)
    (e : Engine FloatValue γ σ)
    (hreach : Engine.ReachableWith J (fun v => v ≠ FloatValue.nan) e) (band : Band) :
    (-100 ≤ e.gainParam band ∧ e.gainParam band ≤ 24) ∧
    (∀ buffer : AudioBuffer FloatValue, allBandsAtZero e = false →
      ((processBlock J e buffer).1.gainSmoother band).target = e.gainParam band ∧
      -100 ≤ ((processBlock J e buffer).1.gainSmoother band).target ∧
      ((processBlock J e buffer).1.gainSmoother band).target ≤ 24) := by
  have hrange : ∀ b : Band, -100 ≤ e.gainParam b ∧ e.gainParam b ≤ 24 := by
    induction hreach with
    | init =>
      intro b
      have h0 : (Engine.init : Engine FloatValue γ σ).gainParam b = FloatValue.fin 0 := by
        cases b <;> rfl
      rw [h0, floatValue_ofNat 100, floatValue_ofNat 24, floatValue_neg, floatValue_le,
        floatValue_le]
      exact ⟨by norm_num, by norm_num⟩
    | restore xmlState e _ hvalid ih =>
      intro b
      cases xmlState with
      | none => exact ih b
      | some state =>
        obtain ⟨p1, p2, p3, p4, _⟩ := setStateInformation_params J state e
        cases b
        · have hp : (setStateInformation J (some state) e).gainParam Band.low =
              (setStateInformation J (some state) e).lowGainParam := rfl
          rw [hp, p1]
          split
          · rename_i hhas
            exact floatValue_assign J hfloor _ _ (ih Band.low)
              (hvalid state rfl LOW_GAIN_ID (by simp) hhas)
          · exact ih Band.low
        · have hp : (setStateInformation J (some state) e).gainParam Band.lowMid =
              (setStateInformation J (some state) e).lowMidGainParam := rfl
          rw [hp, p2]
          split
          · rename_i hhas
            exact floatValue_assign J hfloor _ _ (ih Band.lowMid)
              (hvalid state rfl LOWMID_GAIN_ID (by simp) hhas)
          · exact ih Band.lowMid
        · have hp : (setStateInformation J (some state) e).gainParam Band.mid =
              (setStateInformation J (some state) e).midGainParam := rfl
          rw [hp, p3]
          split
          · rename_i hhas
            exact floatValue_assign J hfloor _ _ (ih Band.mid)
              (hvalid state rfl MID_GAIN_ID (by simp) hhas)
          · exact ih Band.mid
        · have hp : (setStateInformation J (some state) e).gainParam Band.high =
              (setStateInformation J (some state) e).highGainParam := rfl
          rw [hp, p4]
          split
          · rename_i hhas
            exact floatValue_assign J hfloor _ _ (ih Band.high)
              (hvalid state rfl HIGH_GAIN_ID (by simp) hhas)
          · exact ih Band.high
    | gainWrite written newValue e _ hvalid ih =>
      intro b
      cases written <;> cases b <;>
        first
        | exact floatValue_convertFrom0to1 J hfloor newValue hvalid
        | exact ih Band.low
        | exact ih Band.lowMid
        | exact ih Band.mid
        | exact ih Band.high
    | bypassWrite written newValue e _ ih =>
      intro b
      cases written <;> cases b <;>
        first
        | exact ih Band.low
        | exact ih Band.lowMid
        | exact ih Band.mid
        | exact ih Band.high
    | layout layouts e _ _ ih =>
      intro b
      cases b <;>
        first
        | exact ih Band.low
        | exact ih Band.lowMid
        | exact ih Band.mid
        | exact ih Band.high
    | prepare cache sampleRate samplesPerBlock e _ ih =>
      intro b
      rw [(prepareToPlay_band J cache e sampleRate samplesPerBlock b).1.1]
      exact ih b
    | process buffer e _ ih =>
      intro b
      rw [((processBlock_settings J e buffer).1 b).1]
      exact ih b
  refine ⟨hrange band, fun buffer hslow => ?_⟩
  have htarget : ((processBlock J e buffer).1.gainSmoother band).target = e.gainParam band := by
    rw [(processBlock_controls J e buffer hslow band).1, (advance_target _ _).1,
      (setTargetValue_target _ _).1]
  rw [htarget]
  exact ⟨rfl, hrange band⟩

end Special

/-- The floor of `Juce.special` returns no NaN for a value that is not NaN. -/
theorem floatValue_floor (v : FloatValue) (hv : v ≠ FloatValue.nan) :
    Juce.special.floor v ≠ FloatValue.nan := by
  cases v with
  | nan => exact absurd rfl hv
  | negInf => exact fun h => FloatValue.noConfusion h
  | posInf => exact fun h => FloatValue.noConfusion h
  | fin x => exact fun h => FloatValue.noConfusion h

/-- The freshly constructed processor after a document whose low gain reads `inf` was applied
and the mid gain slider was moved to the top: both gains are inside the range. -/
theorem reachable_gain_in_range_witness :
    ((-100 : FloatValue) ≤
        (((setStateInformation Juce.special
          (some ⟨"EQIsolator4Parameters", [("low_gain", Var.text "inf")]⟩)
          (Engine.init : Engine FloatValue ℚ ℚ)).setGainNotifyingHost Juce.special Band.mid
            1).gainParam Band.low) ∧
      (((setStateInformation Juce.special
          (some ⟨"EQIsolator4Parameters", [("low_gain", Var.text "inf")]⟩)
          (Engine.init : Engine FloatValue ℚ ℚ)).setGainNotifyingHost Juce.special Band.mid
            1).gainParam Band.low) ≤ 24) ∧
    ((-100 : FloatValue) ≤
        (((setStateInformation Juce.special
          (some ⟨"EQIsolator4Parameters", [("low_gain", Var.text "inf")]⟩)
          (Engine.init : Engine FloatValue ℚ ℚ)).setGainNotifyingHost Juce.special Band.mid
            1).gainParam Band.mid) ∧
      (((setStateInformation Juce.special
          (some ⟨"EQIsolator4Parameters", [("low_gain", Var.text "inf")]⟩)
          (Engine.init : Engine FloatValue ℚ ℚ)).setGainNotifyingHost Juce.special Band.mid
            1).gainParam Band.mid) ≤ 24) := by
  have hreach : Engine.ReachableWith Juce.special (fun v => v ≠ FloatValue.nan)
      ((setStateInformation Juce.special
        (some ⟨"EQIsolator4Parameters", [("low_gain", Var.text "inf")]⟩)
        (Engine.init : Engine FloatValue ℚ ℚ)).setGainNotifyingHost Juce.special Band.mid 1) := by
    apply Engine.ReachableWith.gainWrite
    · apply Engine.ReachableWith.restore _ _ Engine.ReachableWith.init
      intro state hstate name hmem hhas
      cases hstate
      simp only [List.mem_cons, List.mem_singleton, List.not_mem_nil, or_false] at hmem
      rcases hmem with rfl | rfl | rfl | rfl
      · have hget : ((⟨"EQIsolator4Parameters", [("low_gain", Var.text "inf")]⟩ :
            ValueTree FloatValue).getProperty LOW_GAIN_ID).toFloat Juce.special =
            FloatValue.posInf := by
          simp [ValueTree.getProperty, List.lookup, LOW_GAIN_ID, Var.toFloat, Juce.special]
        rw [hget]
        exact fun h => FloatValue.noConfusion h
      · exact absurd hhas (by decide)
      · exact absurd hhas (by decide)
      · exact absurd hhas (by decide)
    · exact fun h => FloatValue.noConfusion h
  exact ⟨(reachable_gain_in_range Juce.special floatValue_floor _ hreach Band.low).1,
    (reachable_gain_in_range Juce.special floatValue_floor _ hreach Band.mid).1⟩

/-- C14, as stated, fails: the document whose only key is `low_gain` with the text `nan`,
which the reader of JUCE reads as NaN, applied to the freshly constructed processor, leaves NaN
in the low gain parameter, because every comparison of `snapToLegalValue` and `jlimit` with NaN
is false.  The state is reachable, and its low gain is neither at least -100 nor at most 24. -/
theorem setStateInformation_nan_is_stored :
    (setStateInformation Juce.special
      (some ⟨"EQIsolator4Parameters", [("low_gain", Var.text "nan")]⟩)
      (Engine.init : Engine FloatValue ℚ ℚ)).gainParam Band.low = FloatValue.nan ∧
    Engine.Reachable Juce.special
      (setStateInformation Juce.special
        (some ⟨"EQIsolator4Parameters", [("low_gain", Var.text "nan")]⟩)
        (Engine.init : Engine FloatValue ℚ ℚ)) ∧
    ¬ ((-100 : FloatValue) ≤
        (setStateInformation Juce.special
          (some ⟨"EQIsolator4Parameters", [("low_gain", Var.text "nan")]⟩)
          (Engine.init : Engine FloatValue ℚ ℚ)).gainParam Band.low) ∧
    ¬ ((setStateInformation Juce.special
          (some ⟨"EQIsolator4Parameters", [("low_gain", Var.text "nan")]⟩)
          (Engine.init : Engine FloatValue ℚ ℚ)).gainParam Band.low ≤ 24) := by
  have hnan : (setStateInformation Juce.special
      (some ⟨"EQIsolator4Parameters", [("low_gain", Var.text "nan")]⟩)
      (Engine.init : Engine FloatValue ℚ ℚ)).gainParam Band.low = FloatValue.nan := by
    have p := (setStateInformation_params Juce.special
      ⟨"EQIsolator4Parameters", [("low_gain", Var.text "nan")]⟩
      (Engine.init : Engine FloatValue ℚ ℚ)).1
    have hhas : (⟨"EQIsolator4Parameters", [("low_gain", Var.text "nan")]⟩ :
        ValueTree FloatValue).hasProperty LOW_GAIN_ID = true := by decide
    have hget : ((⟨"EQIsolator4Parameters", [("low_gain", Var.text "nan")]⟩ :
        ValueTree FloatValue).getProperty LOW_GAIN_ID).toFloat Juce.special =
        FloatValue.nan := by
      simp [ValueTree.getProperty, List.lookup, LOW_GAIN_ID, Var.toFloat, Juce.special]
    rw [if_pos hhas, hget] at p
    rw [show (setStateInformation Juce.special
        (some ⟨"EQIsolator4Parameters", [("low_gain", Var.text "nan")]⟩)
        (Engine.init : Engine FloatValue ℚ ℚ)).gainParam Band.low = _ from p]
    unfold AudioParameterFloat.assign
    have hne : (Engine.init : Engine FloatValue ℚ ℚ).lowGainParam ≠ FloatValue.nan :=
      fun h => FloatValue.noConfusion h
    rw [if_pos hne]
    exact floatValue_store_nan Juce.special rfl
  rw [hnan]
  exact ⟨rfl, Engine.Reachable.restore _ _ Engine.Reachable.init,
    fun h => Bool.noConfusion h, fun h => Bool.noConfusion h⟩

/-- The decay `e ^ (-π)` is below 0.05. -/
theorem exp_neg_pi_lt : Real.exp (-Real.pi) < 5 / 100 := by
  have h1 : Real.exp (-Real.pi) < Real.exp (-3) :=
    Real.exp_lt_exp.mpr (by linarith [Real.pi_gt_three])
  have h2 : Real.exp 3 = Real.exp 1 ^ 3 := by
    rw [← Real.exp_nat_mul]
    norm_num
  have h3 : (20 : ℝ) < Real.exp 1 ^ 3 := by
    have he : (2718 / 1000 : ℝ) < Real.exp 1 := by
      have hlow : (2718 / 1000 : ℝ) < 2.7182818283 := by norm_num
      exact lt_trans hlow Real.exp_one_gt_d9
    have hpos : (0 : ℝ) ≤ 2718 / 1000 := by norm_num
    calc (20 : ℝ) < (2718 / 1000) ^ 3 := by norm_num
      _ ≤ Real.exp 1 ^ 3 := pow_le_pow_left₀ hpos (le_of_lt he) 3
  have h4 : Real.exp (-3) = (Real.exp 3)⁻¹ := Real.exp_neg 3
  have h5 : (Real.exp 3)⁻¹ < 5 / 100 := by
    rw [h2, inv_lt_comm₀ (by positivity) (by norm_num)]
    calc ((5 : ℝ) / 100)⁻¹ = 20 := by norm_num
      _ < Real.exp 1 ^ 3 := h3
  rw [h4] at h1
  exact lt_trans h1 h5

/-- C15: DC blocker convergence.  With the library's `exp` and `pi` the real exponential and
the real `π`, for a positive sample rate the coefficient `r` that `prepareToPlay` stores is
`exp (-2 * π * 5 / sampleRate)`, it lies strictly between 0 and 1, and the DC blocker fed a
constant `c` from zero state returns `c * r ^ n` as output `n`; the magnitudes `|c * r ^ n|` do
not increase with `n` and fall below every positive bound; at 48 kHz `r ^ 4800 = exp (-π)`,
which is below 0.05, so output 4800 of a non-zero constant is below `0.05 * |c|` in magnitude. -/
theorem dcBlocker_convergence {γ σ : Type} (J : Juce ℝ γ σ) (hexp : J.exp = Real.exp)
    (hpi : J.pi = Real.pi) (cache : CoefficientCache ℝ γ) (e : Engine ℝ γ σ) (sampleRate : ℝ)
    (samplesPerBlock : Nat) (hrate : 0 < sampleRate) :
    (prepareToPlay J cache e sampleRate samplesPerBlock).2.dcBlockerR =
      Real.exp (-2 * Real.pi * 5 / sampleRate) ∧
    (0 < (prepareToPlay J cache e sampleRate samplesPerBlock).2.dcBlockerR ∧
      (prepareToPlay J cache e sampleRate samplesPerBlock).2.dcBlockerR < 1) ∧
    (∀ (c : ℝ) (m n : Nat), n < m →
      (dcBlocker (prepareToPlay J cache e sampleRate samplesPerBlock).2.dcBlockerR 0 0
        (List.replicate m c)).1.getD n 0 =
        c * (prepareToPlay J cache e sampleRate samplesPerBlock).2.dcBlockerR ^ n) ∧
    (∀ (c : ℝ) (n : Nat),
      |c * (prepareToPlay J cache e sampleRate samplesPerBlock).2.dcBlockerR ^ (n + 1)| ≤
        |c * (prepareToPlay J cache e sampleRate samplesPerBlock).2.dcBlockerR ^ n|) ∧
    (∀ (c ε : ℝ), 0 < ε → ∃ n0 : Nat, ∀ n, n0 ≤ n →
      |c * (prepareToPlay J cache e sampleRate samplesPerBlock).2.dcBlockerR ^ n| < ε) ∧
    (sampleRate = 48000 →
      (prepareToPlay J cache e sampleRate samplesPerBlock).2.dcBlockerR ^ 4800 =
        Real.exp (-Real.pi) ∧
      Real.exp (-Real.pi) < 5 / 100 ∧
      ∀ c : ℝ, c ≠ 0 →
        |(dcBlocker (prepareToPlay J cache e sampleRate samplesPerBlock).2.dcBlockerR 0 0
          (List.replicate 4801 c)).1.getD 4800 0| < 5 / 100 * |c|) := by
  have hr : (prepareToPlay J cache e sampleRate samplesPerBlock).2.dcBlockerR =
      Real.exp (-2 * Real.pi * 5 / sampleRate) := by
    have h0 : (prepareToPlay J cache e sampleRate samplesPerBlock).2.dcBlockerR =
        J.exp (-2 * J.pi * 5 / sampleRate) := rfl
    rw [h0, hexp, hpi]
  generalize (prepareToPlay J cache e sampleRate samplesPerBlock).2.dcBlockerR = r at hr ⊢
  have hpos : 0 < r := by rw [hr]; exact Real.exp_pos _
  have hlt : r < 1 := by
    rw [hr, Real.exp_lt_one_iff]
    exact div_neg_of_neg_of_pos (by nlinarith [Real.pi_pos]) hrate
  have hmono : ∀ (c : ℝ) (n : Nat), |c * r ^ (n + 1)| ≤ |c * r ^ n| := by
    intro c n
    rw [abs_mul, abs_mul, abs_of_pos (pow_pos hpos _), abs_of_pos (pow_pos hpos _)]
    exact mul_le_mul_of_nonneg_left
      (pow_le_pow_of_le_one (le_of_lt hpos) (le_of_lt hlt) (Nat.le_succ n)) (abs_nonneg c)
  refine ⟨hr, ⟨hpos, hlt⟩, fun c m n hn => dcBlocker_constant r c m n hn, hmono, ?_, ?_⟩
  · intro c ε hε
    by_cases hc : c = 0
    · exact ⟨0, fun n _ => by rw [hc, zero_mul, abs_zero]; exact hε⟩
    · have hcpos : 0 < |c| := abs_pos.mpr hc
      obtain ⟨n0, hn0⟩ := exists_pow_lt_of_lt_one (div_pos hε hcpos) hlt
      refine ⟨n0, fun n hn => ?_⟩
      rw [abs_mul, abs_of_pos (pow_pos hpos _)]
      have h1 : r ^ n ≤ r ^ n0 := pow_le_pow_of_le_one (le_of_lt hpos) (le_of_lt hlt) hn
      have h2 : r ^ n < ε / |c| := lt_of_le_of_lt h1 hn0
      calc |c| * r ^ n < |c| * (ε / |c|) := mul_lt_mul_of_pos_left h2 hcpos
        _ = ε := by field_simp
  · intro h48
    have hdecay : r ^ 4800 = Real.exp (-Real.pi) := by
      rw [hr, h48, ← Real.exp_nat_mul]
      congr 1
      push_cast
      ring
    refine ⟨hdecay, exp_neg_pi_lt, fun c hc => ?_⟩
    rw [dcBlocker_constant r c 4801 4800 (by norm_num), hdecay, abs_mul,
      abs_of_pos (Real.exp_pos _), mul_comm]
    exact mul_lt_mul_of_pos_right exp_neg_pi_lt (abs_pos.mpr hc)

/-- At 48 kHz, with the real exponential and the real `π` as the library's `exp` and `pi`, the
coefficient stored for the constructed processor lies strictly between 0 and 1 and its power
4800 is `exp (-π)`. -/
theorem dcBlocker_convergence_witness :
    ∃ J : Juce ℝ ℝ ℝ, J.exp = Real.exp ∧ J.pi = Real.pi ∧
      (0 < (prepareToPlay J (CoefficientCache.init J) Engine.init 48000 4).2.dcBlockerR ∧
        (prepareToPlay J (CoefficientCache.init J) Engine.init 48000 4).2.dcBlockerR < 1) ∧
      (prepareToPlay J (CoefficientCache.init J) Engine.init 48000 4).2.dcBlockerR ^ 4800 =
        Real.exp (-Real.pi) :=
  ⟨{ makeLowPass := fun sampleRate frequency => frequency / sampleRate
     makeHighPass := fun sampleRate frequency => 1 - frequency / sampleRate
     defaultCoefficients := 1
     silent := 0
     processSample := fun c s x => (c * x + s, x)
     pow := fun b x => b ^ x
     exp := Real.exp
     pi := Real.pi
     floor := fun x => ((⌊x⌋ : Int) : ℝ)
     floorToInt := fun x => ⌊x⌋
     getDoubleValue := fun _ => 0
     textToBool := fun _ => false }, rfl, rfl,
    (dcBlocker_convergence _ rfl rfl _ Engine.init 48000 4 (by norm_num)).2.1,
    ((dcBlocker_convergence _ rfl rfl _ Engine.init 48000 4 (by norm_num)).2.2.2.2.2 rfl).1⟩

/-- C20: the smoothstep `f x = x ^ 2 * (3 - 2 * x)` of the bypass curve, over the reals:
`smoothStep` is `f` on the unit interval, `f 0 = 0`, `f 1 = 1`, `f` is non-decreasing on the
unit interval (and `smoothStep` everywhere), the derivative of `f` at `x` is `6 * x * (1 - x)`,
which is 0 at both ends, and the clamped curve `smoothStep` itself has derivative 0 at 0 and
at 1, so there is no corner where a transition starts or ends. -/
theorem smoothStep_shape :
    (∀ x : ℝ, 0 ≤ x → x ≤ 1 → smoothStep x = x ^ 2 * (3 - 2 * x)) ∧
    (smoothStep (0 : ℝ) = 0 ∧ smoothStep (1 : ℝ) = 1) ∧
    (∀ x y : ℝ, 0 ≤ x → x ≤ y → y ≤ 1 → x ^ 2 * (3 - 2 * x) ≤ y ^ 2 * (3 - 2 * y)) ∧
    (∀ x y : ℝ, x ≤ y → smoothStep x ≤ smoothStep y) ∧
    (∀ x : ℝ, HasDerivAt (fun t : ℝ => t ^ 2 * (3 - 2 * t)) (6 * x * (1 - x)) x) ∧
    (HasDerivAt (fun t : ℝ => t ^ 2 * (3 - 2 * t)) 0 0 ∧
      HasDerivAt (fun t : ℝ => t ^ 2 * (3 - 2 * t)) 0 1) ∧
    (HasDerivAt (fun t : ℝ => smoothStep t) 0 0 ∧
      HasDerivAt (fun t : ℝ => smoothStep t) 0 1) := by
  have hpoly : ∀ x y : ℝ, 0 ≤ x → x ≤ y → y ≤ 1 →
      x ^ 2 * (3 - 2 * x) ≤ y ^ 2 * (3 - 2 * y) := by
    intro x y hx hxy hy
    have hfac : y ^ 2 * (3 - 2 * y) - x ^ 2 * (3 - 2 * x) =
        (y - x) * (3 * (x + y) - 2 * (x ^ 2 + x * y + y ^ 2)) := by ring
    have hy0 : 0 ≤ y := le_trans hx hxy
    have hx1 : x ≤ 1 := le_trans hxy hy
    have h2 : 0 ≤ 3 * (x + y) - 2 * (x ^ 2 + x * y + y ^ 2) := by
      nlinarith [mul_nonneg hx (sub_nonneg.mpr hx1), mul_nonneg hy0 (sub_nonneg.mpr hy),
        mul_nonneg hx (sub_nonneg.mpr hy), mul_nonneg hy0 (sub_nonneg.mpr hx1)]
    nlinarith [mul_nonneg (sub_nonneg.mpr hxy) h2]
  have hderiv : ∀ x : ℝ, HasDerivAt (fun t : ℝ => t ^ 2 * (3 - 2 * t)) (6 * x * (1 - x)) x := by
    intro x
    have h1 : HasDerivAt (fun t : ℝ => t ^ 2) (2 * x) x := by
      simpa using hasDerivAt_pow 2 x
    have h2 : HasDerivAt (fun t : ℝ => 3 - 2 * t) (-2) x := by
      simpa using ((hasDerivAt_id x).const_mul (2 : ℝ)).const_sub 3
    have h3 := h1.mul h2
    convert h3 using 1
    ring
  have hd0 : HasDerivAt (fun t : ℝ => t ^ 2 * (3 - 2 * t)) 0 0 := by
    simpa using hderiv 0
  have hd1 : HasDerivAt (fun t : ℝ => t ^ 2 * (3 - 2 * t)) 0 1 := by
    simpa using hderiv 1
  have hmono : ∀ x y : ℝ, x ≤ y → smoothStep x ≤ smoothStep y := by
    intro x y hxy
    by_cases hx : x ≤ 0
    · rw [smoothStep_of_nonpos x hx]
      exact (smoothStep_mem y).1
    · by_cases hy : 1 ≤ y
      · rw [smoothStep_of_one_le y hy]
        exact (smoothStep_mem x).2
      · have hx0 : 0 ≤ x := le_of_lt (not_le.mp hx)
        have hy1 : y ≤ 1 := le_of_lt (not_le.mp hy)
        rw [smoothStep_of_mem x hx0 (le_trans hxy hy1),
          smoothStep_of_mem y (le_trans hx0 hxy) hy1]
        exact hpoly x y hx0 hxy hy1
  refine ⟨fun x h0 h1 => smoothStep_of_mem x h0 h1,
    ⟨smoothStep_of_nonpos 0 (le_refl 0), smoothStep_of_one_le 1 (le_refl 1)⟩, hpoly, hmono,
    hderiv, ⟨hd0, hd1⟩, ?_, ?_⟩
  · have hleft : HasDerivWithinAt (fun t : ℝ => smoothStep t) 0 (Set.Iic 0) 0 :=
      (hasDerivWithinAt_const (0 : ℝ) (Set.Iic 0) (0 : ℝ)).congr
        (fun t ht => smoothStep_of_nonpos t ht) (smoothStep_of_nonpos 0 (le_refl 0))
    have hright : HasDerivWithinAt (fun t : ℝ => smoothStep t) 0 (Set.Icc 0 1) 0 :=
      (hd0.hasDerivWithinAt).congr (fun t ht => smoothStep_of_mem t ht.1 ht.2)
        (smoothStep_of_mem 0 (le_refl 0) zero_le_one)
    refine (hleft.union hright).hasDerivAt ?_
    have hsub : Set.Iic (1 : ℝ) ⊆ Set.Iic 0 ∪ Set.Icc 0 1 := by
      intro t ht
      by_cases h0 : t ≤ 0
      · exact Or.inl h0
      · exact Or.inr ⟨le_of_lt (not_le.mp h0), ht⟩
    exact Filter.mem_of_superset (Iic_mem_nhds (by norm_num)) hsub
  · have hright : HasDerivWithinAt (fun t : ℝ => smoothStep t) 0 (Set.Ici 1) 1 :=
      (hasDerivWithinAt_const (1 : ℝ) (Set.Ici 1) (1 : ℝ)).congr
        (fun t ht => smoothStep_of_one_le t ht) (smoothStep_of_one_le 1 (le_refl 1))
    have hleft : HasDerivWithinAt (fun t : ℝ => smoothStep t) 0 (Set.Icc 0 1) 1 :=
      (hd1.hasDerivWithinAt).congr (fun t ht => smoothStep_of_mem t ht.1 ht.2)
        (smoothStep_of_mem 1 zero_le_one (le_refl 1))
    refine (hleft.union hright).hasDerivAt ?_
    have hsub : Set.Ici (0 : ℝ) ⊆ Set.Icc 0 1 ∪ Set.Ici 1 := by
      intro t ht
      by_cases h1 : t ≤ 1
      · exact Or.inl ⟨ht, h1⟩
      · exact Or.inr (le_of_lt (not_le.mp h1))
    exact Filter.mem_of_superset (Ici_mem_nhds (by norm_num)) hsub

/-- A processor at 48000 Hz with one chain per band calls `updateFilters` after calls at
44100 Hz and at 96000 Hz: its low chain then holds the low-pass design for 48000 Hz. -/
theorem updateFilters_cache_coherent_witness :
    (((updateFilters Juce.rational
        ([{ (Engine.init : Engine ℚ ℚ ℚ) with
              processSpec := { sampleRate := 44100, maximumBlockSize := 4, numChannels := 1 } },
          { (Engine.init : Engine ℚ ℚ ℚ) with
              processSpec := { sampleRate := 96000, maximumBlockSize := 4, numChannels := 1 } }].foldl
          (fun cache call => (updateFilters Juce.rational cache call).1)
          (CoefficientCache.init Juce.rational))
        { (Engine.init : Engine ℚ ℚ ℚ) with
            processSpec := { sampleRate := 48000, maximumBlockSize := 4, numChannels := 1 }
            lowPassFilters := [ProcessorChain.init Juce.rational] }).2.lowPassFilters.getD 0
      (ProcessorChain.init Juce.rational)).first.coefficients =
        Juce.rational.makeLowPass 48000 200) :=
  ((updateFilters_cache_coherent Juce.rational
    [{ (Engine.init : Engine ℚ ℚ ℚ) with
          processSpec := { sampleRate := 44100, maximumBlockSize := 4, numChannels := 1 } },
      { (Engine.init : Engine ℚ ℚ ℚ) with
          processSpec := { sampleRate := 96000, maximumBlockSize := 4, numChannels := 1 } }]
    { (Engine.init : Engine ℚ ℚ ℚ) with
        processSpec := { sampleRate := 48000, maximumBlockSize := 4, numChannels := 1 }
        lowPassFilters := [ProcessorChain.init Juce.rational] }
    (by show (0 : ℚ) < 48000; norm_num)).2.1 _ (List.mem_cons_self _ _)).1

/-- A processor prepared with the low gain at 3 dB and the high band bypassed: the first
bypass curve sample of the high band is 0 in the first block. -/
theorem processBlock_bypassed_band_silent_witness :
    ((processBlock Juce.rational
        (prepareToPlay Juce.rational (CoefficientCache.init Juce.rational)
          { (Engine.init : Engine ℚ ℚ ℚ) with lowGainParam := 3, highBypassParam := true }
          100 4).2
        AudioBuffer.sampleRational).1.bypassCurve Band.high).getD 0 0 = 0 := by
  have hband := prepareToPlay_band Juce.rational (CoefficientCache.init Juce.rational)
    { (Engine.init : Engine ℚ ℚ ℚ) with lowGainParam := 3, highBypassParam := true } 100 4
  have hslow : allBandsAtZero
      (prepareToPlay Juce.rational (CoefficientCache.init Juce.rational)
        { (Engine.init : Engine ℚ ℚ ℚ) with lowGainParam := 3, highBypassParam := true }
        100 4).2 = false := by
    rw [allBandsAtZero_congr _ _ (fun b => (hband b).1), ← Bool.not_eq_true, allBandsAtZero_iff]
    rintro ⟨_, _, _, _, hb⟩
    cases hb
  have hrest := (hband Band.high).2.2.1.1
  exact (processBlock_bypassed_band_silent Juce.rational _ AudioBuffer.sampleRational hslow
    (by decide) Band.high
    (by
      rw [(hband Band.high).1.2, setTargetValue_of_target _ _ hrest.2.1]
      exact hrest)).1 0 (by decide)

/-- Ten is a legal gain. -/
theorem legalGain_ten : LegalGain (10 : ℚ) := ⟨1100, by norm_num, by norm_num⟩

/-- C22: the fast-path decision reads the eight raw parameter values only, not the ramps.
The processor `Engine.sampleReentered` (prepared at rest, low gain moved to 10 dB, one block of
three samples processed, low gain moved back to 0 dB) is reachable; its low gain smoother is in
the middle of its ramp, with current value 2 dB, target 10 dB and 12 steps to go, while all
eight parameters are neutral; `processBlock` takes the fast path on it: it returns every buffer
as given and leaves the processor, that smoother included, exactly as it was. -/
theorem processBlock_fast_path_mid_ramp :
    Engine.Reachable Juce.rational Engine.sampleReentered ∧
    (Engine.sampleReentered.smoothedLowGain.currentValue = 2 ∧
      Engine.sampleReentered.smoothedLowGain.target = 10 ∧
      Engine.sampleReentered.smoothedLowGain.countdown = 12 ∧
      Engine.sampleReentered.smoothedLowGain.isSmoothing = true) ∧
    allBandsAtZero Engine.sampleReentered = true ∧
    (∀ buffer : AudioBuffer ℚ,
      processBlock Juce.rational Engine.sampleReentered buffer =
        (Engine.sampleReentered, buffer) ∧
      (processBlock Juce.rational Engine.sampleReentered buffer).1.smoothedLowGain =
        Engine.sampleReentered.smoothedLowGain) ∧
    (∀ e1 e2 : Engine ℚ ℚ ℚ,
      (∀ band, e1.gainParam band = e2.gainParam band ∧
        e1.bypassParam band = e2.bypassParam band) →
      allBandsAtZero e1 = allBandsAtZero e2) := by
  have hfloor : ∀ x : ℚ, Juce.rational.floor x = ((⌊x⌋ : Int) : ℚ) := fun _ => rfl
  have hrest := prepareToPlay_band Juce.rational (CoefficientCache.init Juce.rational)
    (Engine.init : Engine ℚ ℚ ℚ) 100 4
  -- the processor after the first slider move
  have hten : (Engine.sampleRested.setGainNotifyingHost Juce.rational Band.low
      (AudioParameterFloat.convertTo0to1 Juce.rational gainRange 10)).lowGainParam = 10 :=
    store_legal Juce.rational hfloor 10 legalGain_ten
  have hslow : allBandsAtZero (Engine.sampleRested.setGainNotifyingHost Juce.rational Band.low
      (AudioParameterFloat.convertTo0to1 Juce.rational gainRange 10)) = false := by
    rw [← Bool.not_eq_true, allBandsAtZero_iff]
    rintro ⟨⟨h0, _⟩, _⟩
    rw [hten] at h0
    norm_num at h0
  have hsettings := processBlock_settings Juce.rational
    (Engine.sampleRested.setGainNotifyingHost Juce.rational Band.low
      (AudioParameterFloat.convertTo0to1 Juce.rational gainRange 10))
    AudioBuffer.sampleRational
  -- its low gain smoother after the block
  have hN := rampSteps_low.1
  have hsm : Engine.sampleReentered.smoothedLowGain =
      { currentValue := rampDb 0 10 15 3
        target := 10
        countdown := ((15 - 3 : Nat) : Int)
        step := (10 - 0) / ((15 : Nat) : ℚ)
        stepsToTarget := ((15 : Nat) : Int) } := by
    have h1 := (processBlock_controls Juce.rational _ AudioBuffer.sampleRational hslow
      Band.low).1
    have h2 : (Engine.sampleRested.setGainNotifyingHost Juce.rational Band.low
        (AudioParameterFloat.convertTo0to1 Juce.rational gainRange 10)).gainParam Band.low =
        10 := hten
    rw [h2] at h1
    have h3 := advance_ramp Engine.sampleRested.smoothedLowGain 0 10 15 (by decide)
      (hrest Band.low).2.1.1 ((hrest Band.low).2.1.2.trans hN) (by norm_num) 3
    exact h1.trans h3
  have hcur : rampDb (0 : ℚ) 10 15 3 = 2 := by
    rw [(rampDb_values (0 : ℚ) 10 15 (by decide)).2.1 3 (by decide)]
    norm_num
  -- the parameters after the second slider move
  have hzero : allBandsAtZero Engine.sampleReentered = true := by
    rw [allBandsAtZero_iff]
    have hlow : Engine.sampleReentered.lowGainParam = 0 :=
      store_legal Juce.rational hfloor 0 legalGain_zero
    have hg : ∀ b : Band, b ≠ Band.low → Engine.sampleReentered.gainParam b = 0 := by
      intro b hb
      have h1 : Engine.sampleReentered.gainParam b =
          (Engine.sampleRested.setGainNotifyingHost Juce.rational Band.low
            (AudioParameterFloat.convertTo0to1 Juce.rational gainRange 10)).gainParam b := by
        rw [← (hsettings.1 b).1]
        cases b
        · exact absurd rfl hb
        · rfl
        · rfl
        · rfl
      have h2 : (Engine.sampleRested.setGainNotifyingHost Juce.rational Band.low
            (AudioParameterFloat.convertTo0to1 Juce.rational gainRange 10)).gainParam b =
          Engine.sampleRested.gainParam b := by
        cases b
        · exact absurd rfl hb
        · rfl
        · rfl
        · rfl
      rw [h1, h2]
      exact ((hrest b).1.1).trans (by cases b <;> rfl)
    have hb : ∀ b : Band, Engine.sampleReentered.bypassParam b = false := by
      intro b
      have h1 : Engine.sampleReentered.bypassParam b =
          (Engine.sampleRested.setGainNotifyingHost Juce.rational Band.low
            (AudioParameterFloat.convertTo0to1 Juce.rational gainRange 10)).bypassParam b := by
        rw [← (hsettings.1 b).2]
        cases b <;> rfl
      have h2 : (Engine.sampleRested.setGainNotifyingHost Juce.rational Band.low
            (AudioParameterFloat.convertTo0to1 Juce.rational gainRange 10)).bypassParam b =
          Engine.sampleRested.bypassParam b := by
        cases b <;> rfl
      rw [h1, h2]
      exact ((hrest b).1.2).trans (by cases b <;> rfl)
    exact ⟨⟨hlow, hg Band.lowMid (by decide), hg Band.mid (by decide),
      hg Band.high (by decide)⟩, hb Band.low, hb Band.lowMid, hb Band.mid, hb Band.high⟩
  have hlayout : Engine.sampleReentered.busesLayout =
      { mainInput := AudioChannelSet.stereo, mainOutput := AudioChannelSet.stereo } := by
    have h1 : Engine.sampleReentered.busesLayout =
        (Engine.sampleRested.setGainNotifyingHost Juce.rational Band.low
          (AudioParameterFloat.convertTo0to1 Juce.rational gainRange 10)).busesLayout :=
      hsettings.2.1
    rw [h1]
    exact (hrest Band.low).2.2.2.2.2
  have hfast : ∀ buffer : AudioBuffer ℚ,
      processBlock Juce.rational Engine.sampleReentered buffer =
        (Engine.sampleReentered, buffer) := by
    intro buffer
    simp only [processBlock, hzero, if_true]
    rw [clearUnusedOutputs_of_le]
    unfold Engine.getTotalNumOutputChannels Engine.getTotalNumInputChannels
    rw [hlayout]
  refine ⟨?_, ?_, hzero, fun buffer => ⟨hfast buffer, by rw [hfast buffer]⟩,
    fun e1 e2 h => allBandsAtZero_congr e1 e2 h⟩
  · exact Engine.Reachable.gainWrite Band.low _ _
      (Engine.Reachable.process AudioBuffer.sampleRational _
        (Engine.Reachable.gainWrite Band.low _ _
          (Engine.Reachable.prepare (CoefficientCache.init Juce.rational) 100 4 Engine.init
            Engine.Reachable.init)))
  · rw [hsm]
    exact ⟨hcur, rfl, rfl, rfl⟩

/-- Seven samples of one channel, with gains 2, 3, 5 and 7: the indices written are 0 to 6,
sample 6, in the remainder loop, is mixed by the formula, and sample 7 is left alone. -/
theorem mixBandsOptimized_eq_plain_witness :
    (mixBandsOptimized (2 : ℚ) 3 5 7 [[0, 0, 0, 0, 0, 0, 0, 9]] [[1, 1, 1, 1, 1, 1, 1]]
        [[1, 1, 1, 1, 1, 1, 1]] [[1, 1, 1, 1, 1, 1, 1]] [[1, 2, 3, 4, 5, 6, 7]] 1 7).2 =
      [[0, 1, 2, 3, 4, 5, 6]] ∧
    ((mixBandsOptimized (2 : ℚ) 3 5 7 [[0, 0, 0, 0, 0, 0, 0, 9]] [[1, 1, 1, 1, 1, 1, 1]]
        [[1, 1, 1, 1, 1, 1, 1]] [[1, 1, 1, 1, 1, 1, 1]] [[1, 2, 3, 4, 5, 6, 7]] 1 7).1.getD 0
      []).getD 6 0 = 1 * 2 + 1 * 3 + 1 * 5 + 7 * 7 ∧
    ((mixBandsOptimized (2 : ℚ) 3 5 7 [[0, 0, 0, 0, 0, 0, 0, 9]] [[1, 1, 1, 1, 1, 1, 1]]
        [[1, 1, 1, 1, 1, 1, 1]] [[1, 1, 1, 1, 1, 1, 1]] [[1, 2, 3, 4, 5, 6, 7]] 1 7).1.getD 0
      []).getD 7 0 = 9 := by
  have h := @mixBandsOptimized_eq_plain ℚ ℚ ℚ _ _ (2 : ℚ) 3 5 7
    [[0, 0, 0, 0, 0, 0, 0, 9]] [[1, 1, 1, 1, 1, 1, 1]] [[1, 1, 1, 1, 1, 1, 1]]
    [[1, 1, 1, 1, 1, 1, 1]] [[1, 2, 3, 4, 5, 6, 7]] 1 7 (by decide)
    (by
      intro c hc
      have hc0 : c = 0 := by omega
      subst hc0
      decide)
  obtain ⟨h1, h2, h3, _⟩ := h
  exact ⟨h1, h2 0 6 (by decide) (by decide), h3 0 7 (by decide) (by decide)⟩

end EQIsolator4
